import Mathlib

/-!
Indexer node: Mirror worker and indexer loop.

A shallow embedding of

* `internal/engine/worker/decentralized/contract/mirror/worker.go` (the Mirror worker:
  `Transform`, `transformMirrorAction`, `buildMirrorAction`),
* `internal/node/indexer/server.go` (the indexer loop: `Run`, `handleTasks`, `NewServer`),
* `schema/worker/federated/worker_string.go` (the enum of worker names), and
* the table of `internal/engine/worker/contract/paragraph/worker_test.go`.

Stateful collaborators (database client, IPFS client) are interfaces in the Go code; here they
are records of operations over an explicit state `σ`, each returning its Go result together
with the next state.  Package-level helpers that are not part of the sources
(`arweave.Base64Decode`, `gjson`, `mimetype.DetectReader`, string constants) are fields of `Env`;
for the tasks of the Paragraph test the decoder is the base64url decoder the spec describes.
-/

set_option autoImplicit false

namespace Node

/-! ## Errors -/

/-- Go `error` values: a plain error, or `fmt.Errorf("msg: %w", inner)`. -/
inductive Error where
  | base (msg : String)
  | wrap (msg : String) (inner : Error)
deriving DecidableEq, Repr

/-- The chain test of `errors.Is`: `e.Wraps target` holds when `target` is `e` itself or is
reached from `e` by unwrapping. -/
def Error.Wraps : Error → Error → Bool
  | .base m, target => decide (Error.base m = target)
  | .wrap m inner, target => decide (Error.wrap m inner = target) || inner.Wraps target

/-! ## Data model -/

/-- Activity and action types (`typex`); `Unknown` is the value of a type that was never set. -/
inductive typex where
  | Unknown
  | SocialPost
  | SocialRevise
deriving DecidableEq, Repr

/-- Activity tags (`tag`). -/
inductive tag where
  | Unknown
  | Social
deriving DecidableEq, Repr

/-- One Arweave tag; `Name` and `Value` are base64url encoded. -/
structure arweave.Tag where
  Name : String
  Value : String
deriving DecidableEq, Repr

/-- A raw Arweave transaction. -/
structure arweave.Transaction where
  ID : String
  Owner : String
  Reward : String
  Quantity : String
  Data : String
  Tags : List arweave.Tag
deriving DecidableEq, Repr

/-- An Arweave block header, as far as the indexer uses it. -/
structure arweave.Block where
  Timestamp : Nat
deriving DecidableEq, Repr

/-- The Arweave task: `source.Task` of package `protocol/arweave`. -/
structure source.Task where
  Network : String
  Block : arweave.Block
  Transaction : arweave.Transaction
deriving DecidableEq, Repr

/-- The `engine.Task` interface: an Arweave task, or a task of any other implementation (of
which only the identifier matters here). -/
inductive engine.Task where
  | arweave (t : source.Task)
  | other (id : String)
deriving DecidableEq, Repr

/-- Method `ID()` of the task interface. -/
def engine.Task.ID : engine.Task → String
  | .arweave t => t.Transaction.ID
  | .other id => id

/-- A media entry of the social-post metadata. -/
structure metadata.Media where
  Address : String
  MimeType : String
deriving DecidableEq, Repr

/-- The `SocialPost` metadata variant (the fields the Mirror worker fills). -/
structure metadata.SocialPost where
  Title : String
  Body : String
  ContentURI : String
  PublicationID : String
  Media : List metadata.Media
  Timestamp : Nat
deriving DecidableEq, Repr

/-- An action of an activity.  The Go field `Type` is `Typ` here. -/
structure activityx.Action where
  Typ : typex
  Tag : tag
  Platform : String
  From : String
  To : String
  Metadata : metadata.SocialPost
deriving DecidableEq, Repr

/-- The fee of an activity. -/
structure activityx.Fee where
  Amount : Nat
  Decimal : Nat
deriving DecidableEq, Repr

/-- The canonical activity record.  The Go field `Type` is `Typ` here. -/
structure activityx.Activity where
  ID : String
  Network : String
  From : String
  To : String
  Typ : typex
  Platform : String
  Fee : activityx.Fee
  Actions : List activityx.Action
  Status : Bool
  Timestamp : Nat
deriving DecidableEq, Repr

/-- A row of the Mirror side-table (`model.DatasetMirrorPost`). -/
structure model.DatasetMirrorPost where
  TransactionID : String
  OriginContentDigest : String
deriving DecidableEq, Repr

/-! ## Collaborators of the Mirror worker -/

/-- Package-level helpers used by the Mirror worker whose code is outside the sources under
study.  They are pure functions of their arguments.

* `Base64Decode` is `arweave.Base64Decode`;
* `gjsonString data path` is `gjson.ParseBytes(data).Get(path).String()`;
* `gjsonUint data path` is `gjson.ParseBytes(data).Get(path).Uint()`;
* `DetectReader` is `mimetype.DetectReader` followed by `String()` on a non-nil result
  (`none` is the nil result);
* `PublicKeyToAddress` and `DefaultFee` are what `BuildActivity` derives from the transaction;
* `PlatformMirror` is `decentralized.PlatformMirror.String()`, `WorkerMirror` is
  `decentralized.Mirror.String()` and `AddressMirror` is `mirror.AddressMirror`. -/
structure Env where
  Base64Decode : String → Except Error String
  gjsonString : String → String → String
  gjsonUint : String → String → Nat
  DetectReader : String → Except Error (Option String)
  PublicKeyToAddress : String → Except Error String
  DefaultFee : arweave.Transaction → Except Error activityx.Fee
  PlatformMirror : String
  WorkerMirror : String
  AddressMirror : String

/-- The `ipfs.HTTPClient` interface, as far as the worker uses it: `Fetch(ctx, path, mode)`
yields the fetched stream (its content) or an error. -/
structure ipfs.HTTPClient (σ : Type) where
  Fetch : String → σ → Except Error String × σ

/-- The Mirror side-table methods of the `database.Client` interface. -/
structure database.MirrorClient (σ : Type) where
  LoadDatasetMirrorPost : String → σ → Except Error (Option model.DatasetMirrorPost) × σ
  SaveDatasetMirrorPost : model.DatasetMirrorPost → σ → Except Error Unit × σ

/-- The Mirror `worker` struct (the fields `config` and `arweaveClient` are not used by
`Transform`). -/
structure worker (σ : Type) where
  ipfsClient : ipfs.HTTPClient σ
  databaseClient : database.MirrorClient σ

/-- Method `Name()`. -/
def worker.Name {σ : Type} (env : Env) (_w : worker σ) : String :=
  env.WorkerMirror

/-- Method `Platform()`. -/
def worker.Platform {σ : Type} (env : Env) (_w : worker σ) : String :=
  env.PlatformMirror

/-- Method `Types()`. -/
def worker.Types {σ : Type} (_w : worker σ) : List typex :=
  [typex.SocialPost, typex.SocialRevise]

/-- Modelled from the spec: `source.Task.BuildActivity` of package `protocol/arweave`, which is
not among the sources.  It seeds an activity with id, timestamp, sender, status `true`, the
default fee and the optional platform override; the sender is the address derived from the
owner key.  It fails when the owner key or the fee cannot be derived. -/
def source.Task.BuildActivity (env : Env) (task : source.Task) (platform : Option String) :
    Except Error activityx.Activity :=
  match env.PublicKeyToAddress task.Transaction.Owner with
  | .error e => .error e
  | .ok sender =>
    match env.DefaultFee task.Transaction with
    | .error e => .error e
    | .ok fee =>
      .ok {
        ID := task.Transaction.ID
        Network := task.Network
        From := sender
        To := ""
        Typ := typex.Unknown
        Platform := platform.getD ""
        Fee := fee
        Actions := []
        Status := true
        Timestamp := task.Block.Timestamp }

/-! ## The Mirror worker -/

/-- The three variables the tag loop of `transformMirrorAction` assigns. -/
structure TagScan where
  contentDigest : String
  originContentDigest : String
  emptyOriginDigest : Bool
deriving DecidableEq, Repr

/-- The values of the three variables before the loop (Go zero values). -/
def TagScan.init : TagScan :=
  { contentDigest := "", originContentDigest := "", emptyOriginDigest := false }

/-- The loop `for _, tag := range task.Transaction.Tags` of `transformMirrorAction`, started
with the variables `acc`. -/
def scanTags (env : Env) : List arweave.Tag → TagScan → Except Error TagScan
  | [], acc => .ok acc
  | t :: rest, acc =>
    match env.Base64Decode t.Name with
    | .error e => .error (.wrap "base64 decode tag name" e)
    | .ok tagName =>
      match env.Base64Decode t.Value with
      | .error e => .error e
      | .ok tagValue =>
        if tagName = "Content-Digest" then
          scanTags env rest { acc with contentDigest := tagValue }
        else if tagName = "Original-Content-Digest" then
          if tagValue.length = 0 then
            scanTags env rest { acc with originContentDigest := tagValue, emptyOriginDigest := true }
          else
            scanTags env rest { acc with originContentDigest := tagValue }
        else
          scanTags env rest acc

/-- The function `buildMirrorAction`. -/
def worker.buildMirrorAction {σ : Type} (env : Env) (w : worker σ) (txID sender recipient : String)
    (mirrorMetadata : metadata.SocialPost) (emptyOriginDigest : Bool)
    (originContentDigest : String) (s : σ) : Except Error activityx.Action × σ :=
  -- Default action type is post.
  let filterType := typex.SocialPost
  -- if the origin digest is empty, the action type should be revise.
  let filterType := if emptyOriginDigest then typex.SocialRevise else filterType
  if originContentDigest ≠ "" then
    match w.databaseClient.LoadDatasetMirrorPost originContentDigest s with
    | (.error e, s1) => (.error (.wrap "load dataset mirror post" e), s1)
    | (.ok post, s1) =>
      let filterType :=
        match post with
        | some p => if txID ≠ p.TransactionID then typex.SocialRevise else filterType
        | none => filterType
      (.ok {
        Typ := filterType
        Tag := tag.Social
        Platform := w.Platform env
        From := sender
        To := recipient
        Metadata := mirrorMetadata }, s1)
  else
    (.ok {
      Typ := filterType
      Tag := tag.Social
      Platform := w.Platform env
      From := sender
      To := recipient
      Metadata := mirrorMetadata }, s)

/-- The part of `transformMirrorAction` that fetches the NFT image as media: the block
`if address != ""`.  (The deferred `file.Close` has no effect that the model observes.) -/
def worker.fetchMedia {σ : Type} (env : Env) (w : worker σ) (address : String) (s : σ) :
    Except Error (List metadata.Media) × σ :=
  if address ≠ "" then
    match w.ipfsClient.Fetch ("/ipfs/" ++ address) s with
    | (.error e, s1) => (.error (.wrap "fetch ipfs" e), s1)
    | (.ok file, s1) =>
      match env.DetectReader file with
      | .error e => (.error (.wrap "detect mimetype" e), s1)
      | .ok none => (.error (.base "empty result"), s1)
      | .ok (some result) =>
        (.ok [{ Address := "ipfs://" ++ address, MimeType := result }], s1)
  else
    (.ok [], s)

/-- The choice of the publication id in `transformMirrorAction`. -/
def publicationID (contentDigest originContentDigest jsonDigest : String) : String :=
  let publicationID := if contentDigest = "" then jsonDigest else contentDigest
  if originContentDigest ≠ "" then originContentDigest else publicationID

/-- The function `transformMirrorAction`.  The empty list stands for the nil slice. -/
def worker.transformMirrorAction {σ : Type} (env : Env) (w : worker σ) (task : source.Task)
    (s : σ) : Except Error (List activityx.Action) × σ :=
  match scanTags env task.Transaction.Tags TagScan.init with
  | .error e => (.error e, s)
  | .ok scan =>
    -- Construct content URI from tx id
    let contentURI := "ar://" ++ task.Transaction.ID
    -- Get detailed post info from transaction data
    match env.Base64Decode task.Transaction.Data with
    | .error e => (.error (.wrap "invalid foramt of transaction data" e), s)
    | .ok transactionData =>
      let author := env.gjsonString transactionData "authorship.contributor"
      -- Get mirror nft as media
      let address := env.gjsonString transactionData "wnft.imageURI"
      match w.fetchMedia env address s with
      | (.error e, s1) => (.error e, s1)
      | (.ok media, s1) =>
        let publicationID := publicationID scan.contentDigest scan.originContentDigest
          (env.gjsonString transactionData "digest")
        -- Construct mirror Metadata
        let mirrorMetadata : metadata.SocialPost := {
          Title := env.gjsonString transactionData "content.title"
          Body := env.gjsonString transactionData "content.body"
          ContentURI := contentURI
          PublicationID := publicationID
          Media := media
          Timestamp := env.gjsonUint transactionData "content.timestamp" }
        -- Build the post or revise action
        match w.buildMirrorAction env task.Transaction.ID author env.AddressMirror
            mirrorMetadata scan.emptyOriginDigest scan.originContentDigest s1 with
        | (.error e, s2) => (.error (.wrap "build post action" e), s2)
        | (.ok action, s2) =>
          -- Save Dataset Mirror Post
          let post : model.DatasetMirrorPost := {
            TransactionID := task.Transaction.ID
            OriginContentDigest := scan.originContentDigest }
          match w.databaseClient.SaveDatasetMirrorPost post s2 with
          | (.error e, s3) => (.error (.wrap "save dataset mirror post" e), s3)
          | (.ok (), s3) => (.ok [action], s3)

/-- The method `Transform` of the Mirror worker. -/
def worker.Transform {σ : Type} (env : Env) (w : worker σ) (task : engine.Task) (s : σ) :
    Except Error activityx.Activity × σ :=
  -- Cast the task to an Arweave task.
  match task with
  | .other _ => (.error (.base "invalid task type"), s)
  | .arweave arweaveTask =>
    -- Build the activity.
    match arweaveTask.BuildActivity env (some (w.Platform env)) with
    | .error e => (.error (.wrap "build activity" e), s)
    | .ok activity =>
      -- Get actions from the transaction.
      match w.transformMirrorAction env arweaveTask s with
      | (.error e, s1) => (.error (.wrap "handle arweave mirror transaction" e), s1)
      | (.ok actions, s1) =>
        let activity := { activity with To := env.AddressMirror }
        -- Activity type should be inferred from the action (if it's revise)
        match actions with
        | [] => (.ok activity, s1)
        | action :: _ =>
          (.ok { activity with Typ := action.Typ, Actions := activity.Actions ++ actions }, s1)

/-! ## Tags of a task, as the claims speak of them -/

/-- The tag `t` has the decoded name `name`. -/
def tagNamed (env : Env) (name : String) (t : arweave.Tag) : Bool :=
  match env.Base64Decode t.Name with
  | .ok n => decide (n = name)
  | .error _ => false

/-- The tag `t` has the decoded value `value`. -/
def tagValued (env : Env) (value : String) (t : arweave.Tag) : Bool :=
  match env.Base64Decode t.Value with
  | .ok v => decide (v = value)
  | .error _ => false

/-- The task carries a tag with decoded name `name` and decoded value `value`. -/
def carries (env : Env) (task : source.Task) (name value : String) : Bool :=
  task.Transaction.Tags.any (fun t => tagNamed env name t && tagValued env value t)

/-- The decoded value of the last tag, in tag order, whose decoded name is `name`; `none` when
the list has no such tag (or the value of that tag does not decode). -/
def lastTagValue (env : Env) (name : String) : List arweave.Tag → Option String
  | [] => none
  | t :: rest =>
    match lastTagValue env name rest with
    | some v => some v
    | none =>
      if tagNamed env name t then
        match env.Base64Decode t.Value with
        | .ok v => some v
        | .error _ => none
      else none

/-- The decoded value of tag `name` of the task: that of its last occurrence, and the empty
string when the tag is absent. -/
def tagValue (env : Env) (task : source.Task) (name : String) : String :=
  (lastTagValue env name task.Transaction.Tags).getD ""

/-- The decoded transaction data, the empty string when it does not decode. -/
def decodedData (env : Env) (task : source.Task) : String :=
  match env.Base64Decode task.Transaction.Data with
  | .ok d => d
  | .error _ => ""

/-- The state in which `transformMirrorAction` enters `buildMirrorAction`, that is, the state
in which the side-table lookup is made: the one left by the media fetch. -/
def worker.stateAtDecision {σ : Type} (env : Env) (w : worker σ) (task : source.Task) (s : σ) : σ :=
  (w.fetchMedia env (env.gjsonString (decodedData env task) "wnft.imageURI") s).2

/-! ## Recording the calls of the Mirror worker -/

/-- A call of the worker to one of its clients. -/
inductive Call where
  | Fetch (path : String)
  | LoadDatasetMirrorPost (digest : String)
  | SaveDatasetMirrorPost (post : model.DatasetMirrorPost)
deriving DecidableEq, Repr

/-- The worker `w` with clients that append every call to a log kept beside the state and
otherwise behave as those of `w`. -/
def worker.recording {σ : Type} (w : worker σ) : worker (σ × List Call) where
  ipfsClient := {
    Fetch := fun path s =>
      ((w.ipfsClient.Fetch path s.1).1,
        ((w.ipfsClient.Fetch path s.1).2, s.2 ++ [Call.Fetch path])) }
  databaseClient := {
    LoadDatasetMirrorPost := fun digest s =>
      ((w.databaseClient.LoadDatasetMirrorPost digest s.1).1,
        ((w.databaseClient.LoadDatasetMirrorPost digest s.1).2,
          s.2 ++ [Call.LoadDatasetMirrorPost digest]))
    SaveDatasetMirrorPost := fun post s =>
      ((w.databaseClient.SaveDatasetMirrorPost post s.1).1,
        ((w.databaseClient.SaveDatasetMirrorPost post s.1).2,
          s.2 ++ [Call.SaveDatasetMirrorPost post])) }

/-! ## The side-table -/

/-- Modelled from the spec: the table behind `LoadDatasetMirrorPost` and
`SaveDatasetMirrorPost`; the database implementation is not among the sources.  The rows are
kept in the order in which they were first seen with their digest. -/
abbrev SideTable := List model.DatasetMirrorPost

/-- Modelled from the spec: `LoadDatasetMirrorPost(ctx, origin_content_digest) → row | nil`,
returning the first-seen row recorded for the digest. -/
def SideTable.load (digest : String) (table : SideTable) : Option model.DatasetMirrorPost :=
  table.find? (fun p => decide (p.OriginContentDigest = digest))

/-- Modelled from the spec: `SaveDatasetMirrorPost(ctx, row)`, an upsert that is idempotent by
`transaction_id`.  Saving a row that is already there changes nothing.  Otherwise the row
replaces whatever was recorded under its transaction id and, being seen under its digest only
now, goes behind the rows recorded before: the table keeps, for every digest, the rows in the
order in which they were first seen with it. -/
def SideTable.save (post : model.DatasetMirrorPost) (table : SideTable) : SideTable :=
  if post ∈ table then table
  else table.filter (fun p => decide (p.TransactionID ≠ post.TransactionID)) ++ [post]

/-- Faults of the side-table operations: for a call and the table it meets, the error the
call fails with, if it fails. -/
structure MirrorFaults where
  LoadDatasetMirrorPost : String → SideTable → Option Error
  SaveDatasetMirrorPost : model.DatasetMirrorPost → SideTable → Option Error

/-- Modelled from the spec: the database client over the side-table, with injected faults.  A
failing call leaves the table as it is. -/
def sideTableClient (faults : MirrorFaults) : database.MirrorClient SideTable where
  LoadDatasetMirrorPost := fun digest table =>
    match faults.LoadDatasetMirrorPost digest table with
    | some e => (.error e, table)
    | none => (.ok (SideTable.load digest table), table)
  SaveDatasetMirrorPost := fun post table =>
    match faults.SaveDatasetMirrorPost post table with
    | some e => (.error e, table)
    | none => (.ok (), SideTable.save post table)

/-- The Mirror worker over the side-table: `fetch` is the answer of the IPFS gateway, which
does not touch the table. -/
def sideTableWorker (faults : MirrorFaults) (fetch : String → Except Error String) :
    worker SideTable where
  ipfsClient := { Fetch := fun path table => (fetch path, table) }
  databaseClient := sideTableClient faults

/-- The table left by transforming the tasks `tasks` one after the other, whatever each
`Transform` returns. -/
def transformAll {σ : Type} (env : Env) (w : worker σ) : List engine.Task → σ → σ
  | [], s => s
  | t :: rest, s => transformAll env w rest (w.Transform env t s).2

/-! ## Concrete inputs -/

/-- A decoder for the handful of base64url strings the examples use; every other string is
rejected. -/
def exampleDecode (s : String) : Except Error String :=
  if s = "T3JpZ2luYWwtQ29udGVudC1EaWdlc3Q" then .ok "Original-Content-Digest"
  else if s = "Q29udGVudC1EaWdlc3Q" then .ok "Content-Digest"
  else if s = "RDE" then .ok "D1"
  else if s = "RDI" then .ok "D2"
  else if s = "" then .ok ""
  else .error (.base "illegal base64 data")

/-- An environment for the examples: the transaction data has none of the JSON paths. -/
def exampleEnv : Env where
  Base64Decode := exampleDecode
  gjsonString := fun _ _ => ""
  gjsonUint := fun _ _ => 0
  DetectReader := fun _ => .ok (some "image/png")
  PublicKeyToAddress := fun _ => .ok "owner-address"
  DefaultFee := fun _ => .ok { Amount := 0, Decimal := 12 }
  PlatformMirror := "Mirror"
  WorkerMirror := "mirror"
  AddressMirror := "Ios3aPJcPYMgFZ0hGrxQg_zBrEuC6kLSxGNdaFExVng"

/-- A database that never fails. -/
def noMirrorFaults : MirrorFaults where
  LoadDatasetMirrorPost := fun _ _ => none
  SaveDatasetMirrorPost := fun _ _ => none

/-- The worker of the examples: no faults, and a gateway that is never asked. -/
def exampleWorker : worker SideTable :=
  sideTableWorker noMirrorFaults (fun _ => .error (.base "ipfs unavailable"))

/-- An Arweave task with transaction id `id` and tags `tags` (name and value encoded). -/
def exampleTask (id : String) (tags : List arweave.Tag) : source.Task where
  Network := "arweave"
  Block := { Timestamp := 1697091466 }
  Transaction := { ID := id, Owner := "", Reward := "0", Quantity := "0", Data := "", Tags := tags }

/-- The encoded tag `Original-Content-Digest` with the encoded value `value`. -/
def originTag (value : String) : arweave.Tag :=
  { Name := "T3JpZ2luYWwtQ29udGVudC1EaWdlc3Q", Value := value }

/-- The encoded tag `Content-Digest` with the encoded value `value`. -/
def contentTag (value : String) : arweave.Tag :=
  { Name := "Q29udGVudC1EaWdlc3Q", Value := value }

/-- The activity type and the action types of the result of `Transform`; `none` for an
error. -/
def resultTypes (r : Except Error activityx.Activity) : Option (typex × List typex) :=
  match r with
  | .ok a => some (a.Typ, a.Actions.map (fun action => action.Typ))
  | .error _ => none

/-- The activity the example worker returns for `exampleTask id tags`, given the type and the
publication id. -/
def exampleActivity (id : String) (typ : typex) (publication : String) : activityx.Activity where
  ID := id
  Network := "arweave"
  From := "owner-address"
  To := "Ios3aPJcPYMgFZ0hGrxQg_zBrEuC6kLSxGNdaFExVng"
  Typ := typ
  Platform := "Mirror"
  Fee := { Amount := 0, Decimal := 12 }
  Actions := [{
    Typ := typ
    Tag := tag.Social
    Platform := "Mirror"
    From := ""
    To := "Ios3aPJcPYMgFZ0hGrxQg_zBrEuC6kLSxGNdaFExVng"
    Metadata := {
      Title := ""
      Body := ""
      ContentURI := "ar://" ++ id
      PublicationID := publication
      Media := []
      Timestamp := 0 } }]
  Status := true
  Timestamp := 1697091466

/-! ## The indexer loop (`server.go`) -/

/-- The record `schema.Feed` of `server.go`: the activity record under its earlier name. -/
abbrev schema.Feed := activityx.Activity

/-- The checkpoint record (`engine.Checkpoint`); `State` is the opaque `json.RawMessage`. -/
structure engine.Checkpoint where
  ID : String
  Network : String
  Worker : String
  State : String
deriving DecidableEq, Repr

/-- The `engine.Source` interface.  `Start` launches the producer; what the producer then
delivers on the two channels is the input of the loop of `Run`. -/
structure engine.Source (σ : Type) where
  Network : String
  State : σ → String
  Start : σ → σ

/-- The `engine.Worker` interface, as far as the indexer uses it.  `Transform` returns a feed
pointer (`none` is nil) or an error. -/
structure engine.Worker (σ : Type) where
  Name : String
  Match : engine.Task → σ → Except Error Bool × σ
  Transform : engine.Task → σ → Except Error (Option schema.Feed) × σ

/-- The methods of `database.Client` that the transaction function of `handleTasks` calls. -/
structure database.Client (σ : Type) where
  SaveFeeds : List schema.Feed → σ → Except Error Unit × σ
  SaveCheckpoint : engine.Checkpoint → σ → Except Error Unit × σ

/-- The `database.Client` of the server: its own methods, `WithTransaction`, which is
given the transaction function and decides with which client and how to run it, and
`LoadCheckpoint(ctx, id, network, worker)`, which `NewServer` calls. -/
structure database.Database (σ : Type) extends database.Client σ where
  WithTransaction : (database.Client σ → σ → Except Error Unit × σ) → σ → Except Error Unit × σ
  LoadCheckpoint : String → String → String → σ → Except Error engine.Checkpoint × σ

/-- The struct `Server` (the field `config` is not used by `Run` and `handleTasks`). -/
structure Server (σ : Type) where
  id : String
  source : engine.Source σ
  worker : engine.Worker σ
  databaseClient : database.Database σ

/-- The result pool of `handleTasks`, seen from outside: goroutines are modelled as running
one at a time, in the order `schedule` of the submitted tasks, and `Wait` hands back their
results in the order `wait`.  Both orders are arbitrary permutations. -/
structure Pool where
  schedule : List engine.Task → List engine.Task
  schedule_perm : ∀ l, (schedule l).Perm l
  wait : List (Option schema.Feed) → List (Option schema.Feed)
  wait_perm : ∀ l, (wait l).Perm l

/-- The goroutine limit given to the pool:
`lo.Ternary(len(tasks) < 20*runtime.NumCPU(), len(tasks), 20*runtime.NumCPU())`.  Both
arguments are Go `int`s that are not negative, a slice length and a CPU count; the product
`20*runtime.NumCPU()` stays far below the largest `int`, so natural numbers model them. -/
def maxGoroutines (tasks numCPU : Nat) : Nat :=
  if tasks < 20 * numCPU then tasks else 20 * numCPU

/-- The function `handleTasks` submits to the pool for one task. -/
def Server.taskFunc {σ : Type} (srv : Server σ) (task : engine.Task) (s : σ) :
    Option schema.Feed × σ :=
  match srv.worker.Match task s with
  | (.error _, s1) => (none, s1)
  | (.ok false, s1) => (none, s1)
  | (.ok true, s1) =>
    match srv.worker.Transform task s1 with
    | (.error _, s2) => (none, s2)
    | (.ok feed, s2) => (feed, s2)

/-- Running the task functions of `tasks` one after the other. -/
def runTasks {σ : Type} (body : engine.Task → σ → Option schema.Feed × σ) :
    List engine.Task → σ → List (Option schema.Feed) × σ
  | [], s => ([], s)
  | t :: rest, s =>
    ((body t s).1 :: (runTasks body rest (body t s).2).1, (runTasks body rest (body t s).2).2)

/-- The first part of `handleTasks` for a non-empty batch: the pool runs the task functions,
and `lo.Filter` keeps the feeds that are not nil. -/
def Server.collectFeeds {σ : Type} (pool : Pool) (srv : Server σ) (tasks : List engine.Task)
    (s : σ) : List schema.Feed × σ :=
  (List.filterMap (fun feed => feed) (pool.wait (runTasks srv.taskFunc (pool.schedule tasks) s).1),
    (runTasks srv.taskFunc (pool.schedule tasks) s).2)

/-- The checkpoint `handleTasks` builds inside the transaction. -/
def Server.checkpoint {σ : Type} (srv : Server σ) (s : σ) : engine.Checkpoint where
  ID := srv.id
  Network := srv.source.Network
  Worker := srv.worker.Name
  State := srv.source.State s

/-- The transaction function `handleTasks` passes to `WithTransaction`. -/
def Server.transaction {σ : Type} (srv : Server σ) (feeds : List schema.Feed)
    (client : database.Client σ) (s : σ) : Except Error Unit × σ :=
  match client.SaveFeeds feeds s with
  | (.error e, s1) => (.error (.wrap ("save " ++ toString feeds.length ++ " feeds") e), s1)
  | (.ok (), s1) =>
    match client.SaveCheckpoint (srv.checkpoint s1) s1 with
    | (.error e, s2) => (.error (.wrap "save checkpoint" e), s2)
    | (.ok (), s2) => (.ok (), s2)

/-- The method `handleTasks`. -/
def Server.handleTasks {σ : Type} (pool : Pool) (srv : Server σ) (tasks : List engine.Task)
    (s : σ) : Except Error Unit × σ :=
  if tasks.length = 0 then (.ok (), s)
  else
    -- Save feeds and checkpoint to the database.
    srv.databaseClient.WithTransaction
      (srv.transaction (srv.collectFeeds pool tasks s).1) (srv.collectFeeds pool tasks s).2

/-- What the loop of `Run` receives from the source: a batch on `tasksChan`, or a value on
`errorChan` (`none` is nil). -/
inductive Received where
  | tasks (batch : List engine.Task)
  | err (e : Option Error)

/-- The `for`/`select` loop of `Run` over the values it receives, in the order of receipt.
The result is `none` while the loop waits for a further value. -/
def Server.loop {σ : Type} (pool : Pool) (srv : Server σ) :
    List Received → σ → Option (Except Error Unit) × σ
  | [], s => (none, s)
  | .tasks batch :: rest, s =>
    match srv.handleTasks pool batch s with
    | (.error e, s1) => (some (.error (.wrap "handle tasks" e)), s1)
    | (.ok (), s1) => Server.loop pool srv rest s1
  | .err (some e) :: _, s => (some (.error (.wrap "an error occurred in the source" e)), s)
  | .err none :: _, s => (some (.ok ()), s)

/-- The method `Run`: start the source, then loop. -/
def Server.Run {σ : Type} (pool : Pool) (srv : Server σ) (received : List Received) (s : σ) :
    Option (Except Error Unit) × σ :=
  srv.loop pool (received) (srv.source.Start s)

/-! ## Construction of the server (`NewServer`) -/

/-- The `engine.Config`, as far as `NewServer` reads it: the network and the worker, as the
strings the verb `%s` formats them to. -/
structure engine.Config where
  Network : String
  Worker : String
deriving DecidableEq, Repr

/-- What `NewServer` calls outside the sources: `worker.New(config, databaseClient)`,
`source.New(config, checkpoint)`, and `json.Unmarshal(state, &map)` of `encoding/json` for a
`map[string]any`, of which only success or the error matters. -/
structure Constructors (σ : Type) where
  workerNew : engine.Config → database.Database σ → Except Error (engine.Worker σ)
  sourceNew : engine.Config → engine.Checkpoint → Except Error (engine.Source σ)
  jsonUnmarshalMap : String → Except Error Unit

/-- The function `NewServer`. -/
def NewServer {σ : Type} (make : Constructors σ) (config : engine.Config)
    (databaseClient : database.Database σ) (s : σ) : Except Error (Server σ) × σ :=
  -- Initialize worker.
  match make.workerNew config databaseClient with
  | .error e => (.error (.wrap "new worker" e), s)
  | .ok worker =>
    -- Load checkpoint for initialize the source.
    match databaseClient.LoadCheckpoint (config.Network ++ "." ++ config.Worker)
        config.Network worker.Name s with
    | (.error e, s1) => (.error (.wrap "loca checkpoint" e), s1)
    | (.ok checkpoint, s1) =>
      -- Unmarshal checkpoint state to map for print it in log.
      match make.jsonUnmarshalMap checkpoint.State with
      | .error e => (.error (.wrap "unmarshal checkpoint state" e), s1)
      | .ok () =>
        -- Initialize source.
        match make.sourceNew config checkpoint with
        | .error e => (.error (.wrap "new source" e), s1)
        | .ok source =>
          (.ok {
            id := config.Network ++ "." ++ config.Worker
            source := source
            worker := worker
            databaseClient := databaseClient }, s1)

/-! ## A recording database for the indexer loop -/

/-- A call observed while the indexer runs, with its argument and, for the worker, its
result. -/
inductive Event where
  | Match (task : engine.Task) (result : Except Error Bool)
  | Transform (task : engine.Task) (result : Except Error (Option schema.Feed))
  | WithTransaction
  | SaveFeeds (feeds : List schema.Feed)
  | SaveCheckpoint (checkpoint : engine.Checkpoint)

/-- The feed a `Transform` call returned, when it returned one without error. -/
def Event.transformed : Event → Option schema.Feed
  | .Transform _ (.ok (some feed)) => some feed
  | _ => none

/-- The task of a `Match` call. -/
def Event.matched : Event → Option engine.Task
  | .Match task _ => some task
  | _ => none

/-- The event is a call of the worker. -/
def Event.isWorkerCall : Event → Bool
  | .Match _ _ => true
  | .Transform _ _ => true
  | _ => false

/-- Modelled from the spec: the world the indexer runs in.  The database holds the feeds and
the checkpoints (the database implementation is not among the sources); `side` is whatever
state the worker keeps for itself (for the Mirror worker, its side-table), `cursor` is the
state of the source, and `events` is the log of the calls made so far. -/
structure World (ω : Type) where
  feeds : List schema.Feed
  checkpoints : List engine.Checkpoint
  side : ω
  cursor : String
  events : List Event

/-- Modelled from the spec: `SaveFeeds` is idempotent by the primary key `(network, id)`; one
feed is written over the row with its key, or added. -/
def upsertFeed (feed : schema.Feed) : List schema.Feed → List schema.Feed
  | [] => [feed]
  | f :: rest =>
    if f.Network = feed.Network ∧ f.ID = feed.ID then feed :: rest
    else f :: upsertFeed feed rest

/-- Modelled from the spec: the feeds table after `SaveFeeds(feeds)`. -/
def saveFeeds (feeds : List schema.Feed) (table : List schema.Feed) : List schema.Feed :=
  feeds.foldl (fun t feed => upsertFeed feed t) table

/-- Modelled from the spec: `SaveCheckpoint` is an upsert by id. -/
def upsertCheckpoint (checkpoint : engine.Checkpoint) :
    List engine.Checkpoint → List engine.Checkpoint
  | [] => [checkpoint]
  | c :: rest =>
    if c.ID = checkpoint.ID then checkpoint :: rest
    else c :: upsertCheckpoint checkpoint rest

/-- Faults of the two writes: for the argument of a call and the table it meets, the error
the call fails with, if it fails. -/
structure Faults where
  SaveFeeds : List schema.Feed → List schema.Feed → Option Error
  SaveCheckpoint : engine.Checkpoint → List engine.Checkpoint → Option Error

/-- Modelled from the spec: the client handed to the transaction function.  Every call is
logged; a failing call writes nothing. -/
def recordingClient {ω : Type} (faults : Faults) : database.Client (World ω) where
  SaveFeeds := fun feeds s =>
    match faults.SaveFeeds feeds s.feeds with
    | some e => (.error e, { s with events := s.events ++ [Event.SaveFeeds feeds] })
    | none =>
      (.ok (), { s with
        feeds := saveFeeds feeds s.feeds
        events := s.events ++ [Event.SaveFeeds feeds] })
  SaveCheckpoint := fun checkpoint s =>
    match faults.SaveCheckpoint checkpoint s.checkpoints with
    | some e => (.error e, { s with events := s.events ++ [Event.SaveCheckpoint checkpoint] })
    | none =>
      (.ok (), { s with
        checkpoints := upsertCheckpoint checkpoint s.checkpoints
        events := s.events ++ [Event.SaveCheckpoint checkpoint] })

/-- Modelled from the spec: `WithTransaction(ctx, fn)` guarantees atomicity.  It runs `fn`
with the scoped client; when `fn` returns an error the database is rolled back to the state
in which the transaction began and the error is propagated; otherwise the writes are kept.
`LoadCheckpoint` returns the stored checkpoint and, on absence, a checkpoint whose state is
the empty JSON object; it never fails on absence. -/
def recordingDatabase {ω : Type} (faults : Faults) : database.Database (World ω) where
  toClient := recordingClient faults
  WithTransaction := fun fn s =>
    match fn (recordingClient faults) { s with events := s.events ++ [Event.WithTransaction] } with
    | (.ok (), s1) => (.ok (), s1)
    | (.error e, s1) =>
      (.error e, { s1 with feeds := s.feeds, checkpoints := s.checkpoints, side := s.side })
  LoadCheckpoint := fun id network worker s =>
    match s.checkpoints.find?
        (fun c => decide (c.ID = id ∧ c.Network = network ∧ c.Worker = worker)) with
    | some c => (.ok c, s)
    | none => (.ok { ID := id, Network := network, Worker := worker, State := "\x7b\x7d" }, s)

/-- The worker `w`, which keeps its state in `side`, with every call logged together with its
result. -/
def recordingWorker {ω : Type} (w : engine.Worker ω) : engine.Worker (World ω) where
  Name := w.Name
  Match := fun task s =>
    ((w.Match task s.side).1,
      { s with
        side := (w.Match task s.side).2
        events := s.events ++ [Event.Match task (w.Match task s.side).1] })
  Transform := fun task s =>
    ((w.Transform task s.side).1,
      { s with
        side := (w.Transform task s.side).2
        events := s.events ++ [Event.Transform task (w.Transform task s.side).1] })

/-- The server over the recording database: the state of the source is the cursor. -/
def recordingServer {ω : Type} (id network : String) (w : engine.Worker ω) (faults : Faults) :
    Server (World ω) where
  id := id
  source := { Network := network, State := fun s => s.cursor, Start := fun s => s }
  worker := recordingWorker w
  databaseClient := recordingDatabase faults

/-- In the log `evs`, every `Transform` call comes right after a `Match` call on the same
task that returned `true` without error. -/
def TransformAfterMatch (evs : List Event) : Prop :=
  ∀ pre task result post, evs = pre ++ Event.Transform task result :: post →
    ∃ before, pre = before ++ [Event.Match task (.ok true)]

/-- In the log `evs`, every `Match` call that returned `true` without error is followed at
once by a `Transform` call on the same task. -/
def MatchThenTransform (evs : List Event) : Prop :=
  ∀ pre task post, evs = pre ++ Event.Match task (.ok true) :: post →
    ∃ result rest, post = Event.Transform task result :: rest

/-- The log is empty or starts with a `Match` call. -/
def StartsWithMatch : List Event → Prop
  | [] => True
  | .Match _ _ :: _ => True
  | _ :: _ => False

/-- A pool that runs the goroutines in the reverse of the order of submission and hands the
results back in the order in which they ended. -/
def examplePool : Pool where
  schedule := List.reverse
  schedule_perm := List.reverse_perm
  wait := fun l => l
  wait_perm := fun l => List.Perm.refl l

/-- A worker without state for the examples: `Match` fails on the task `bad` and rejects the
task `skip`; `Transform` fails on the task `fail`, returns nil on the task `nil`, and returns
a post for every other task. -/
def exampleEngineWorker : engine.Worker Unit where
  Name := "mirror"
  Match := fun task s =>
    if task.ID = "bad" then (.error (.base "match failed"), s)
    else (.ok (decide (task.ID ≠ "skip")), s)
  Transform := fun task s =>
    if task.ID = "fail" then (.error (.base "transform failed"), s)
    else if task.ID = "nil" then (.ok none, s)
    else (.ok (some (exampleActivity task.ID typex.SocialPost "D1")), s)

/-- An empty database, a cursor, and an empty log. -/
def exampleWorld : World Unit where
  feeds := []
  checkpoints := []
  side := ()
  cursor := "cursor-1"
  events := []

/-- A database whose writes never fail. -/
def noFaults : Faults where
  SaveFeeds := fun _ _ => none
  SaveCheckpoint := fun _ _ => none

/-- A database that fails every `SaveFeeds`. -/
def failSaveFeeds : Faults where
  SaveFeeds := fun _ _ => some (.base "database is down")
  SaveCheckpoint := fun _ _ => none

/-- A database that fails `SaveCheckpoint` once a checkpoint is stored: the first batch
commits, the second fails after its `SaveFeeds`. -/
def failSecondCheckpoint : Faults where
  SaveFeeds := fun _ _ => none
  SaveCheckpoint := fun _ table =>
    if table.length = 0 then none else some (.base "database is down")

/-- A batch for the examples: two tasks that are transformed, and one each that `Match`
rejects, that `Match` fails on, that `Transform` fails on, and that `Transform` answers with
nil. -/
def exampleBatch : List engine.Task :=
  [.other "a", .other "skip", .other "bad", .other "fail", .other "nil", .other "b"]

/-- The recording server of the examples. -/
def exampleServer (faults : Faults) : Server (World Unit) :=
  recordingServer "arweave.mirror" "arweave" exampleEngineWorker faults

/-- The world after the example server has committed the batch of the single task `a`,
started from `exampleWorld`. -/
def worldAfterFirstBatch : World Unit where
  feeds := [exampleActivity "a" typex.SocialPost "D1"]
  checkpoints :=
    [{ ID := "arweave.mirror", Network := "arweave", Worker := "mirror", State := "cursor-1" }]
  side := ()
  cursor := "cursor-1"
  events := [
    Event.Match (.other "a") (.ok true),
    Event.Transform (.other "a") (.ok (some (exampleActivity "a" typex.SocialPost "D1"))),
    Event.WithTransaction,
    Event.SaveFeeds [exampleActivity "a" typex.SocialPost "D1"],
    Event.SaveCheckpoint
      { ID := "arweave.mirror", Network := "arweave", Worker := "mirror", State := "cursor-1" }]

/-- An environment for the examples in which the JSON of every transaction names the NFT image
`QmImage` and has none of the other paths. -/
def exampleEnvWithImage : Env where
  Base64Decode := exampleDecode
  gjsonString := fun _ path => if path = "wnft.imageURI" then "QmImage" else ""
  gjsonUint := fun _ _ => 0
  DetectReader := fun _ => .ok (some "image/png")
  PublicKeyToAddress := fun _ => .ok "owner-address"
  DefaultFee := fun _ => .ok { Amount := 0, Decimal := 12 }
  PlatformMirror := "Mirror"
  WorkerMirror := "mirror"
  AddressMirror := "Ios3aPJcPYMgFZ0hGrxQg_zBrEuC6kLSxGNdaFExVng"

/-- A worker for the examples whose gateway answers every fetch. -/
def exampleWorkerOnline : worker SideTable :=
  sideTableWorker noMirrorFaults (fun _ => .ok "PNG image bytes")

/-- The activity `exampleWorkerOnline` returns in `exampleEnvWithImage` for a post
`exampleTask id tags` with publication id `publication`. -/
def exampleActivityWithImage (id : String) (publication : String) : activityx.Activity where
  ID := id
  Network := "arweave"
  From := "owner-address"
  To := "Ios3aPJcPYMgFZ0hGrxQg_zBrEuC6kLSxGNdaFExVng"
  Typ := typex.SocialPost
  Platform := "Mirror"
  Fee := { Amount := 0, Decimal := 12 }
  Actions := [{
    Typ := typex.SocialPost
    Tag := tag.Social
    Platform := "Mirror"
    From := ""
    To := "Ios3aPJcPYMgFZ0hGrxQg_zBrEuC6kLSxGNdaFExVng"
    Metadata := {
      Title := ""
      Body := ""
      ContentURI := "ar://" ++ id
      PublicationID := publication
      Media := [{ Address := "ipfs://QmImage", MimeType := "image/png" }]
      Timestamp := 0 } }]
  Status := true
  Timestamp := 1697091466

/-- A stand-in for `json.Unmarshal` into a `map[string]any`, exact on the texts the examples
use: the text `null` and a text that opens with a brace are accepted, every other text is
rejected (in Go: an array, a string, a number, or no JSON at all). -/
def exampleUnmarshalMap (state : String) : Except Error Unit :=
  if state = "null" ∨ state.data.head? = some (Char.ofNat 123) then .ok ()
  else .error (.base "json: cannot unmarshal into Go value of type map[string]interface")

/-- Constructors for the examples: the worker and the source are always built. -/
def exampleConstructors : Constructors (World Unit) where
  workerNew := fun _ _ => .ok (recordingWorker exampleEngineWorker)
  sourceNew := fun config _ =>
    .ok { Network := config.Network, State := fun s => s.cursor, Start := fun s => s }
  jsonUnmarshalMap := exampleUnmarshalMap

/-- The configuration of the examples. -/
def exampleConfig : engine.Config where
  Network := "arweave"
  Worker := "mirror"

/-- A world whose database holds, for the example server, a checkpoint with the state
`state`. -/
def worldWithCheckpoint (state : String) : World Unit where
  feeds := []
  checkpoints :=
    [{ ID := "arweave.mirror", Network := "arweave", Worker := "mirror", State := state }]
  side := ()
  cursor := "cursor-1"
  events := []

/-! ## Worker names (`schema/worker/federated/worker_string.go`) -/

/-- The enum type `Worker` of package `federated`, a signed integer type (its declaration is
not among the sources; `String` tests `i < 0`). -/
structure federated.Worker where
  val : Int
deriving DecidableEq, Repr

/-- The constant `Mastodon`: it is 1, as the compile-time check `x[Mastodon-(1)]` on an array
of length 1 in `_WorkerNoOp` requires. -/
def federated.Mastodon : federated.Worker := { val := 1 }

/-- The constant `_WorkerName`. -/
def federated._WorkerName : String := "mastodon"

/-- The table `_WorkerIndex`. -/
def federated._WorkerIndex : List Nat := [0, 8]

/-- The constant `_WorkerLowerName`. -/
def federated._WorkerLowerName : String := "mastodon"

/-- The Go slice expression `s[a:b]` on a string of one-byte characters. -/
def sliceString (s : String) (a b : Nat) : String :=
  String.mk ((s.data.drop a).take (b - a))

/-- The method `String`. -/
protected def federated.Worker.String (i : federated.Worker) : String :=
  let i := i.val - 1
  if i < 0 ∨ i ≥ ((federated._WorkerIndex.length - 1 : Nat) : Int) then
    "Worker(" ++ toString (i + 1) ++ ")"
  else
    sliceString federated._WorkerName (federated._WorkerIndex.getD i.toNat 0)
      (federated._WorkerIndex.getD (i.toNat + 1) 0)

/-- The table `_WorkerValues`. -/
def federated._WorkerValues : List federated.Worker := [federated.Mastodon]

/-- The map `_WorkerNameToValueMap`, as the list of its entries. -/
def federated._WorkerNameToValueMap : List (String × federated.Worker) :=
  [(sliceString federated._WorkerName 0 8, federated.Mastodon),
   (sliceString federated._WorkerLowerName 0 8, federated.Mastodon)]

/-- The table `_WorkerNames`. -/
def federated._WorkerNames : List String := [sliceString federated._WorkerName 0 8]

/-- Library functions the enum code calls: `strings.ToLower`, `json.Marshal` of a string
(which does not fail) and `json.Unmarshal` into a string. -/
structure Library where
  ToLower : String → String
  jsonMarshal : String → String
  jsonUnmarshal : String → Except Error String

/-- The function `WorkerString`; the second component is the error, `none` for nil. -/
def federated.WorkerString (lib : Library) (s : String) : federated.Worker × Option Error :=
  match federated._WorkerNameToValueMap.lookup s with
  | some val => (val, none)
  | none =>
    match federated._WorkerNameToValueMap.lookup (lib.ToLower s) with
    | some val => (val, none)
    | none => ({ val := 0 }, some (.base (s ++ " does not belong to Worker values")))

/-- The function `WorkerValues`. -/
def federated.WorkerValues : List federated.Worker := federated._WorkerValues

/-- The function `WorkerStrings`: a copy of `_WorkerNames`. -/
def federated.WorkerStrings : List String := federated._WorkerNames

/-- The method `Values`. -/
def federated.Worker.Values (_i : federated.Worker) : List String := federated.WorkerStrings

/-- The method `IsAWorker`. -/
def federated.Worker.IsAWorker (i : federated.Worker) : Bool :=
  federated._WorkerValues.any (fun v => decide (i = v))

/-- The method `MarshalJSON`: the bytes and the error. -/
def federated.Worker.MarshalJSON (lib : Library) (i : federated.Worker) :
    String × Option Error :=
  (lib.jsonMarshal i.String, none)

/-- The method `UnmarshalJSON` on the receiver `i`: the receiver afterwards, and the error. -/
def federated.Worker.UnmarshalJSON (lib : Library) (i : federated.Worker) (data : String) :
    federated.Worker × Option Error :=
  match lib.jsonUnmarshal data with
  | .error _ => (i, some (.base ("Worker should be a string, got " ++ data)))
  | .ok s => federated.WorkerString lib s

/-- The method `MarshalYAML`: the value handed to the YAML encoder, and the error. -/
def federated.Worker.MarshalYAML (i : federated.Worker) : String × Option Error :=
  (i.String, none)

/-- The method `UnmarshalYAML` on the receiver `i`; `unmarshal` is what the call
`unmarshal(&s)` yields, the decoded string or an error. -/
def federated.Worker.UnmarshalYAML (lib : Library) (i : federated.Worker)
    (unmarshal : Except Error String) : federated.Worker × Option Error :=
  match unmarshal with
  | .error e => (i, some e)
  | .ok s => federated.WorkerString lib s

/-- The method `Value`: the `driver.Value` and the error. -/
def federated.Worker.Value (i : federated.Worker) : String × Option Error :=
  (i.String, none)

/-- The argument of `Scan`: nil, a byte slice, a string, a `fmt.Stringer` (with the string it
renders) or a value of any other type (with its type and its rendering). -/
inductive ScanValue where
  | null
  | bytes (v : String)
  | string (v : String)
  | stringer (v : String)
  | other (typeName rendering : String)
deriving DecidableEq, Repr

/-- The method `Scan` on the receiver `i`: the receiver afterwards, and the error. -/
def federated.Worker.Scan (lib : Library) (i : federated.Worker) (value : ScanValue) :
    federated.Worker × Option Error :=
  match value with
  | .null => (i, none)
  | .other typeName rendering =>
    (i, some (.base ("invalid value of Worker: " ++ typeName ++ "(" ++ rendering ++ ")")))
  | .bytes v | .string v | .stringer v =>
    match federated.WorkerString lib v with
    | (_, some err) => (i, some err)
    | (val, none) => (val, none)

/-- A library for the examples: lower-casing of the letters `A` to `Z`, and a JSON codec for
strings that is exact on strings without quotes, backslashes and control characters (the
string between two quotes). -/
def exampleLibrary : Library where
  ToLower := fun s => String.mk (s.data.map Char.toLower)
  jsonMarshal := fun s => String.mk (Char.ofNat 34 :: s.data ++ [Char.ofNat 34])
  jsonUnmarshal := fun data =>
    match data.data with
    | [] => .error (.base "unexpected end of JSON input")
    | c :: rest =>
      if c = Char.ofNat 34 ∧ rest.getLast? = some (Char.ofNat 34) then
        .ok (String.mk rest.dropLast)
      else .error (.base "json: cannot unmarshal into Go value of type string")

/-! ## The Paragraph worker and its test -/

/-- Modelled from the spec: the value of a character of the URL-safe base64 alphabet (`A` to
`Z`, `a` to `z`, `0` to `9`, `-`, `_`); `none` for every other character, the padding
character included.  The decoder of package `provider/arweave` is not among the sources. -/
def arweave.base64Value (c : Char) : Option Nat :=
  if 65 ≤ c.toNat ∧ c.toNat ≤ 90 then some (c.toNat - 65)
  else if 97 ≤ c.toNat ∧ c.toNat ≤ 122 then some (c.toNat - 97 + 26)
  else if 48 ≤ c.toNat ∧ c.toNat ≤ 57 then some (c.toNat - 48 + 52)
  else if c.toNat = 45 then some 62
  else if c.toNat = 95 then some 63
  else none

/-- Modelled from the spec: the values of the characters of an encoded string; `none` when a
character is outside the alphabet. -/
def arweave.base64Values : List Char → Option (List Nat)
  | [] => some []
  | c :: rest =>
    match arweave.base64Value c, arweave.base64Values rest with
    | some v, some vs => some (v :: vs)
    | _, _ => none

/-- Modelled from the spec: the bytes that a sequence of six-bit values encodes, four values
for three bytes, with a last group of two or three values for one or two bytes (the padding is
stripped); `none` when a single value is left over. -/
def arweave.base64Bytes : List Nat → Option (List Nat)
  | [] => some []
  | [_] => none
  | [a, b] => some [a * 4 + b / 16]
  | [a, b, c] => some [a * 4 + b / 16, (b % 16) * 16 + c / 4]
  | a :: b :: c :: d :: rest =>
    match arweave.base64Bytes rest with
    | some bytes => some ((a * 4 + b / 16) :: ((b % 16) * 16 + c / 4) :: ((c % 4) * 64 + d) :: bytes)
    | none => none

/-- Modelled from the spec: `Base64Decode`, base64 with the URL-safe alphabet and the padding
stripped: "Decoder MUST accept missing padding; MUST reject invalid alphabets".  The bytes are
given as the string of the characters with these codes, which is exact for ASCII. -/
def arweave.Base64Decode (s : String) : Except Error String :=
  match arweave.base64Values s.data with
  | none => .error (.base "illegal base64 data")
  | some values =>
    match arweave.base64Bytes values with
    | none => .error (.base "illegal base64 data")
    | some bytes => .ok (String.mk (bytes.map Char.ofNat))

/-- The environment of the Paragraph test: that of the examples, with the base64url decoder. -/
def paragraphEnv : Env :=
  { exampleEnv with Base64Decode := arweave.Base64Decode }

/-- Modelled from the spec: `Match` of the Paragraph worker: "Recognizes transactions whose tag
`App-Name` (base64url-no-pad decoded) equals `Paragraph`", that is, the task carries a tag
whose decoded name is `App-Name` and whose decoded value is `Paragraph`.  The source of the
worker (package `contract/paragraph`) is not in the repository; only its test is. -/
def paragraph.Match (env : Env) (task : source.Task) : Bool :=
  carries env task "App-Name" "Paragraph"

/-- Modelled from the spec: the type selection of the Paragraph worker: "`SocialPost` if the
transaction carries no `Original-Content-Digest` tag or it is empty; otherwise this is a
revise of a prior post". -/
def paragraph.Type (env : Env) (task : source.Task) : typex :=
  if task.Transaction.Tags.any
      (fun t => tagNamed env "Original-Content-Digest" t && !tagValued env "" t) then
    typex.SocialRevise
  else typex.SocialPost

/-- A row of the table of `TestWorker_Arweave`: the name of the case, the task, and the field
`Type` of the activity the test wants.  (The test also requires `Match` to return `true`
without error on the task of every row.) -/
structure paragraph.Testcase where
  name : String
  task : source.Task
  wantType : typex
deriving DecidableEq, Repr

/-- The tags of the task of case `Paragraph Post`; `postId` is the encoded value of tag
`PostId`, the only tag in which the two tasks of the test differ. -/
def paragraph.testTags (postId : String) : List arweave.Tag :=
  [{ Name := "QXBwTmFtZQ", Value := "UGFyYWdyYXBo" },
   { Name := "Q29udGVudC1UeXBl", Value := "YXBwbGljYXRpb24vanNvbg" },
   { Name := "Q29udHJpYnV0b3I",
     Value := "MHg1NDJFNEMzYjRhMURDRTBBMUVjYTdCYkMxNDc1NEE4NjdkNjE4NzhB" },
   { Name := "UG9zdElk", Value := postId },
   { Name := "Q2F0ZWdvcnk", Value := "ZGF0YQ" },
   { Name := "UG9zdFNsdWc", Value := "bXktZmlyc3QtY29udGVudA" },
   { Name := "UHVibGljYXRpb25JZA", Value := "ZHFVUTljSnMxc29NQVY3R0lCQjQ" },
   { Name := "UHVibGljYXRpb25TbHVn", Value := "QHl1LXRlc3Q" }]

/-- The table of `TestWorker_Arweave`.  The fields `Owner` and `Data` of the two transactions
(an RSA public key and the JSON of the post, both encoded) are long texts that the two rules
above do not read; they are the arguments `ownerPost`, `dataPost`, `ownerRevise` and
`dataRevise`. -/
def paragraph.testcases (ownerPost dataPost ownerRevise dataRevise : String) :
    List paragraph.Testcase :=
  [{ name := "Paragraph Post"
     task := {
       Network := "arweave"
       Block := { Timestamp := 1697091466 }
       Transaction := {
         ID := "Sz5fY8Loj67fWxLQv98r5U5-h2aIA5x4FMsAVP1N2ig"
         Owner := ownerPost
         Reward := "212017846"
         Quantity := "0"
         Data := dataPost
         Tags := paragraph.testTags "WWVDaWRDVzBNajlRcmo2aEo4Z1g" } }
     wantType := typex.SocialPost },
   { name := "Paragraph Revise"
     task := {
       Network := "arweave"
       Block := { Timestamp := 1697092032 }
       Transaction := {
         ID := "Xf7C--gk4hlH3mG0UnFiISYgOdymfInv2EgeOF0GeNg"
         Owner := ownerRevise
         Reward := "212017846"
         Quantity := "0"
         Data := dataRevise
         Tags := paragraph.testTags "ZzZHMmxoRG1TbE5OQ3BlcGltREU" } }
     wantType := typex.SocialRevise }]

/-- The decoded names of the tags of a task (`none` for a name that does not decode). -/
def decodedTagNames (env : Env) (task : source.Task) : List (Option String) :=
  task.Transaction.Tags.map (fun t =>
    match env.Base64Decode t.Name with
    | .ok n => some n
    | .error _ => none)

/-! ## The Mirror worker in the indexer -/

/-- The Mirror worker behind the `engine.Worker` interface of `server.go`.  `worker.go` has no
`Match` method; here `Match` accepts every task.  `Transform` never returns a nil activity
without an error. -/
def mirrorEngineWorker {σ : Type} (env : Env) (w : worker σ) : engine.Worker σ where
  Name := w.Name env
  Match := fun _ s => (.ok true, s)
  Transform := fun task s =>
    match w.Transform env task s with
    | (.error e, s1) => (.error e, s1)
    | (.ok activity, s1) => (.ok (some activity), s1)

/-- An empty database with an empty side-table, a cursor, and an empty log. -/
def mirrorWorld : World SideTable where
  feeds := []
  checkpoints := []
  side := []
  cursor := "cursor-1"
  events := []

/-! ## Lemmas on the tag loop -/

theorem lastTagValue_cons_getD (env : Env) (name : String) (t : arweave.Tag)
    (rest : List arweave.Tag) (d v : String) (hv : env.Base64Decode t.Value = .ok v) :
    (lastTagValue env name (t :: rest)).getD d =
      (lastTagValue env name rest).getD (if tagNamed env name t then v else d) := by
  simp only [lastTagValue]
  cases hrest : lastTagValue env name rest with
  | some x => simp
  | none =>
    by_cases hn : tagNamed env name t = true
    · simp [hn, hv]
    · simp [hn]

theorem string_length_eq_zero (x : String) : x.length = 0 ↔ x = "" := by
  constructor
  · intro h
    cases x with
    | mk data =>
      have hd : data = [] := List.length_eq_zero.mp h
      subst hd
      rfl
  · intro h
    subst h
    rfl

/-- What the tag loop computes when it succeeds: each digest is the value of the last tag of
its name (the initial value when there is none), and the flag is raised by any
`Original-Content-Digest` tag with an empty value. -/
theorem scanTags_ok (env : Env) :
    ∀ (tags : List arweave.Tag) (acc r : TagScan), scanTags env tags acc = .ok r →
      r.contentDigest = (lastTagValue env "Content-Digest" tags).getD acc.contentDigest ∧
      r.originContentDigest =
        (lastTagValue env "Original-Content-Digest" tags).getD acc.originContentDigest ∧
      r.emptyOriginDigest = (acc.emptyOriginDigest ||
        tags.any (fun t => tagNamed env "Original-Content-Digest" t && tagValued env "" t)) := by
  intro tags
  induction tags with
  | nil =>
    intro acc r h
    simp only [scanTags, Except.ok.injEq] at h
    subst h
    simp [lastTagValue]
  | cons t rest ih =>
    intro acc r h
    simp only [scanTags] at h
    cases hn : env.Base64Decode t.Name with
    | error e => simp [hn] at h
    | ok tagName =>
      cases hv : env.Base64Decode t.Value with
      | error e => simp [hn, hv] at h
      | ok tagValue =>
        simp only [hn, hv] at h
        rw [lastTagValue_cons_getD env _ t rest _ tagValue hv,
          lastTagValue_cons_getD env _ t rest _ tagValue hv]
        by_cases h1 : tagName = "Content-Digest"
        · have h2 : tagName ≠ "Original-Content-Digest" := by
            rw [h1]; decide
          simp only [h1, if_true] at h
          have := ih _ _ h
          simp only [tagNamed, tagValued, hn, hv, h1, h2, List.any_cons] at this ⊢
          simpa using this
        · simp only [h1, if_false] at h
          by_cases h2 : tagName = "Original-Content-Digest"
          · simp only [h2, if_true] at h
            by_cases h3 : tagValue.length = 0
            · have h4 : tagValue = "" := (string_length_eq_zero _).1 h3
              simp only [h3, if_true] at h
              have := ih _ _ h
              simp only [tagNamed, tagValued, hn, hv, h1, h2, h4, List.any_cons] at this ⊢
              simpa using this
            · have h4 : tagValue ≠ "" := fun hc => h3 ((string_length_eq_zero _).2 hc)
              simp only [h3, if_false] at h
              have := ih _ _ h
              simp only [tagNamed, tagValued, hn, hv, h1, h2, List.any_cons] at this ⊢
              simpa [h4] using this
          · simp only [h2, if_false] at h
            have := ih _ _ h
            simp only [tagNamed, tagValued, hn, hv, h1, h2, List.any_cons] at this ⊢
            simpa using this

/-! ## Lemmas on the Mirror worker -/

/-- The metadata `transformMirrorAction` constructs. -/
theorem buildMirrorAction_ok {σ : Type} (env : Env) (w : worker σ)
    (txID sender recipient : String) (md : metadata.SocialPost) (empty : Bool) (ocd : String)
    (s s' : σ) (action : activityx.Action)
    (h : w.buildMirrorAction env txID sender recipient md empty ocd s = (.ok action, s')) :
    action.Metadata = md ∧ action.From = sender ∧ action.To = recipient ∧
    action.Platform = env.PlatformMirror ∧ action.Tag = tag.Social ∧
    (ocd = "" → s' = s ∧ action.Typ = if empty then typex.SocialRevise else typex.SocialPost) ∧
    (ocd ≠ "" → ∃ post, w.databaseClient.LoadDatasetMirrorPost ocd s = (.ok post, s') ∧
      action.Typ =
        match post with
        | some p =>
          if txID ≠ p.TransactionID then typex.SocialRevise
          else if empty then typex.SocialRevise else typex.SocialPost
        | none => if empty then typex.SocialRevise else typex.SocialPost) := by
  unfold worker.buildMirrorAction at h
  by_cases hd : ocd = ""
  · simp only [hd, ne_eq, not_true_eq_false, if_false, Prod.mk.injEq, Except.ok.injEq] at h
    obtain ⟨ha, hs⟩ := h
    subst ha
    subst hs
    simp [hd, worker.Platform]
  · simp only [ne_eq, hd, not_false_eq_true, if_true] at h
    cases hl : w.databaseClient.LoadDatasetMirrorPost ocd s with
    | mk res s1 =>
      rw [hl] at h
      cases res with
      | error e => simp at h
      | ok post =>
        simp only [Prod.mk.injEq, Except.ok.injEq] at h
        obtain ⟨ha, hs⟩ := h
        subst ha
        subst hs
        refine ⟨rfl, rfl, rfl, rfl, rfl, fun hc => absurd hc hd, fun _ => ⟨post, rfl, ?_⟩⟩
        cases post <;> rfl

/-- What a successful `transformMirrorAction` went through. -/
theorem transformMirrorAction_ok {σ : Type} (env : Env) (w : worker σ) (task : source.Task)
    (s s' : σ) (actions : List activityx.Action)
    (h : w.transformMirrorAction env task s = (.ok actions, s')) :
    ∃ scan data media s1 action s2,
      scanTags env task.Transaction.Tags TagScan.init = .ok scan ∧
      env.Base64Decode task.Transaction.Data = .ok data ∧
      w.fetchMedia env (env.gjsonString data "wnft.imageURI") s = (.ok media, s1) ∧
      w.buildMirrorAction env task.Transaction.ID
        (env.gjsonString data "authorship.contributor") env.AddressMirror
        { Title := env.gjsonString data "content.title"
          Body := env.gjsonString data "content.body"
          ContentURI := "ar://" ++ task.Transaction.ID
          PublicationID := publicationID scan.contentDigest scan.originContentDigest
            (env.gjsonString data "digest")
          Media := media
          Timestamp := env.gjsonUint data "content.timestamp" }
        scan.emptyOriginDigest scan.originContentDigest s1 = (.ok action, s2) ∧
      w.databaseClient.SaveDatasetMirrorPost
        { TransactionID := task.Transaction.ID
          OriginContentDigest := scan.originContentDigest } s2 = (.ok (), s') ∧
      actions = [action] := by
  unfold worker.transformMirrorAction at h
  cases hscan : scanTags env task.Transaction.Tags TagScan.init with
  | error e => simp [hscan] at h
  | ok scan =>
    cases hdata : env.Base64Decode task.Transaction.Data with
    | error e => simp [hscan, hdata] at h
    | ok data =>
      simp only [hscan, hdata] at h
      cases hm : w.fetchMedia env (env.gjsonString data "wnft.imageURI") s with
      | mk rm s1 =>
        rw [hm] at h
        cases rm with
        | error e => simp at h
        | ok media =>
          simp only at h
          generalize hb : w.buildMirrorAction env task.Transaction.ID
            (env.gjsonString data "authorship.contributor") env.AddressMirror _
            scan.emptyOriginDigest scan.originContentDigest s1 = rb at h
          obtain ⟨ra, s2⟩ := rb
          cases ra with
          | error e => simp at h
          | ok action =>
            simp only at h
            generalize hsv : w.databaseClient.SaveDatasetMirrorPost _ s2 = rs at h
            obtain ⟨rsv, s3⟩ := rs
            cases rsv with
            | error e => simp at h
            | ok u =>
              cases u
              simp only [Prod.mk.injEq, Except.ok.injEq] at h
              obtain ⟨ha, hs⟩ := h
              subst ha
              subst hs
              exact ⟨scan, data, media, s1, action, s2, rfl, rfl, hm, hb, hsv, rfl⟩

/-- What a successful `Transform` went through. -/
theorem Transform_ok {σ : Type} (env : Env) (w : worker σ) (task : source.Task)
    (s s' : σ) (activity : activityx.Activity)
    (h : w.Transform env (.arweave task) s = (.ok activity, s')) :
    ∃ seed action,
      task.BuildActivity env (some env.PlatformMirror) = .ok seed ∧
      w.transformMirrorAction env task s = (.ok [action], s') ∧
      activity = { seed with
        To := env.AddressMirror, Typ := action.Typ, Actions := seed.Actions ++ [action] } := by
  unfold worker.Transform at h
  simp only [worker.Platform] at h
  cases hseed : task.BuildActivity env (some env.PlatformMirror) with
  | error e => simp [hseed] at h
  | ok seed =>
    simp only [hseed] at h
    cases ht : w.transformMirrorAction env task s with
    | mk rt s1 =>
      rw [ht] at h
      cases rt with
      | error e => simp at h
      | ok actions =>
        obtain ⟨_, _, _, _, action, _, _, _, _, _, _, hact⟩ :=
          transformMirrorAction_ok env w task s s1 actions ht
        subst hact
        simp only [Prod.mk.injEq, Except.ok.injEq] at h
        obtain ⟨ha, hs⟩ := h
        subst ha
        subst hs
        exact ⟨seed, action, rfl, rfl, rfl⟩

/-- The seed activity of `BuildActivity` has no action. -/
theorem BuildActivity_actions (env : Env) (task : source.Task) (platform : Option String)
    (seed : activityx.Activity) (h : task.BuildActivity env platform = .ok seed) :
    seed.Actions = [] := by
  unfold source.Task.BuildActivity at h
  cases h1 : env.PublicKeyToAddress task.Transaction.Owner with
  | error e => simp [h1] at h
  | ok sender =>
    cases h2 : env.DefaultFee task.Transaction with
    | error e => simp [h1, h2] at h
    | ok fee =>
      simp only [h1, h2, Except.ok.injEq] at h
      subst h
      rfl

/-- The tag loop started from the zero values, in terms of the tags of the task. -/
theorem scanTags_init (env : Env) (task : source.Task) (scan : TagScan)
    (h : scanTags env task.Transaction.Tags TagScan.init = .ok scan) :
    scan.contentDigest = tagValue env task "Content-Digest" ∧
    scan.originContentDigest = tagValue env task "Original-Content-Digest" ∧
    scan.emptyOriginDigest = carries env task "Original-Content-Digest" "" := by
  obtain ⟨h1, h2, h3⟩ := scanTags_ok env _ _ _ h
  refine ⟨h1, h2, ?_⟩
  rw [h3]
  simp [TagScan.init, carries]

/-- A successful `Transform`, in terms of the tags of the task: the decision is taken by
`buildMirrorAction` in the state left by the media fetch, and the row is saved after it. -/
theorem Transform_decision {σ : Type} (env : Env) (w : worker σ) (task : source.Task)
    (s s' : σ) (activity : activityx.Activity)
    (h : w.Transform env (.arweave task) s = (.ok activity, s')) :
    ∃ action md s2,
      activity.Actions = [action] ∧ activity.Typ = action.Typ ∧
      w.buildMirrorAction env task.Transaction.ID
        (env.gjsonString (decodedData env task) "authorship.contributor") env.AddressMirror md
        (carries env task "Original-Content-Digest" "")
        (tagValue env task "Original-Content-Digest")
        (w.stateAtDecision env task s) = (.ok action, s2) ∧
      md.PublicationID = publicationID (tagValue env task "Content-Digest")
        (tagValue env task "Original-Content-Digest")
        (env.gjsonString (decodedData env task) "digest") ∧
      w.databaseClient.SaveDatasetMirrorPost
        { TransactionID := task.Transaction.ID
          OriginContentDigest := tagValue env task "Original-Content-Digest" } s2 = (.ok (), s') := by
  obtain ⟨seed, action, hseed, ht, hact⟩ := Transform_ok env w task s s' activity h
  obtain ⟨scan, data, media, s1, action1, s2, hscan, hdata, hm, hb, hsv, hone⟩ :=
    transformMirrorAction_ok env w task s s' [action] ht
  obtain ⟨hc, ho, he⟩ := scanTags_init env task scan hscan
  have hd : decodedData env task = data := by simp [decodedData, hdata]
  have hs1 : w.stateAtDecision env task s = s1 := by
    simp [worker.stateAtDecision, hd, hm]
  have ha : action = action1 := by simpa using hone
  subst ha
  rw [hc, ho, he] at hb
  rw [ho] at hsv
  rw [hd, hs1]
  refine ⟨action, _, s2, ?_, ?_, hb, ?_, hsv⟩
  · rw [hact]
    simp [BuildActivity_actions env task _ seed hseed]
  · rw [hact]
  · simp [hc, ho]

/-- The log after the media fetch of the recording worker. -/
theorem recording_fetchMedia_log {σ : Type} (env : Env) (w : worker σ) (address : String)
    (s : σ) (log : List Call) :
    ((w.recording).fetchMedia env address (s, log)).2.2 =
      log ++ (if address ≠ "" then [Call.Fetch ("/ipfs/" ++ address)] else []) := by
  unfold worker.fetchMedia
  by_cases ha : address = ""
  · simp [ha]
  · simp only [ne_eq, ha, not_false_eq_true, if_true, worker.recording]
    cases hf : (w.ipfsClient.Fetch ("/ipfs/" ++ address) s).1 with
    | error e => rfl
    | ok file =>
      cases hd : env.DetectReader file with
      | error e => simp [hd]
      | ok r =>
        cases r <;> simp [hd]

/-! ## The post-or-revise rule (C1, C3) -/

/-- C1 (counterexample): a task that carries two `Original-Content-Digest` tags, `D1` then `D2`,
while the side-table holds a row for `D1` written by another transaction `tx0`.  The task
carries the non-empty value `D1` and `LoadDatasetMirrorPost("D1")` returns a row of a different
transaction, so the claim calls for `SocialRevise`; the worker looks up `D2` only and produces
`SocialPost`. -/
theorem C1_counterexample :
    carries exampleEnv (exampleTask "tx1" [originTag "RDE", originTag "RDI"])
      "Original-Content-Digest" "D1" = true ∧
    "D1" ≠ "" ∧
    exampleWorker.databaseClient.LoadDatasetMirrorPost "D1"
      [{ TransactionID := "tx0", OriginContentDigest := "D1" }] =
      (.ok (some { TransactionID := "tx0", OriginContentDigest := "D1" }),
        [{ TransactionID := "tx0", OriginContentDigest := "D1" }]) ∧
    "tx0" ≠ (exampleTask "tx1" [originTag "RDE", originTag "RDI"]).Transaction.ID ∧
    resultTypes (exampleWorker.Transform exampleEnv
      (.arweave (exampleTask "tx1" [originTag "RDE", originTag "RDI"]))
      [{ TransactionID := "tx0", OriginContentDigest := "D1" }]).1 =
      some (typex.SocialPost, [typex.SocialPost]) := by
  refine ⟨by rfl, by decide, by rfl, by decide, by rfl⟩

/-- C1 (amended): when `Transform` succeeds on an Arweave task, the activity has exactly one
action, and its type is `SocialRevise` if and only if (a) the task carries an
`Original-Content-Digest` tag whose decoded value is empty, or (b) the value `D` of the last
`Original-Content-Digest` tag of the task is non-empty and the lookup `LoadDatasetMirrorPost(D)`
returns a row whose transaction id differs from that of the task; otherwise the type is
`SocialPost`. -/
theorem C1_revise_iff {σ : Type} (env : Env) (w : worker σ) (task : source.Task)
    (s s' : σ) (activity : activityx.Activity)
    (h : w.Transform env (.arweave task) s = (.ok activity, s')) :
    ∃ action, activity.Actions = [action] ∧
      (action.Typ = typex.SocialRevise ↔
        (carries env task "Original-Content-Digest" "" = true ∨
          (tagValue env task "Original-Content-Digest" ≠ "" ∧
            ∃ row, (w.databaseClient.LoadDatasetMirrorPost
                (tagValue env task "Original-Content-Digest")
                (w.stateAtDecision env task s)).1 = .ok (some row) ∧
              row.TransactionID ≠ task.Transaction.ID))) ∧
      (action.Typ ≠ typex.SocialRevise → action.Typ = typex.SocialPost) := by
  obtain ⟨action, md, s2, hacts, _, hb, _, _⟩ := Transform_decision env w task s s' activity h
  obtain ⟨_, _, _, _, _, hempty, hfull⟩ := buildMirrorAction_ok _ _ _ _ _ _ _ _ _ _ _ hb
  refine ⟨action, hacts, ?_⟩
  by_cases hd : tagValue env task "Original-Content-Digest" = ""
  · obtain ⟨_, htyp⟩ := hempty hd
    rw [htyp]
    cases hc : carries env task "Original-Content-Digest" "" <;> simp [hd]
  · obtain ⟨post, hl, htyp⟩ := hfull hd
    rw [htyp, hl]
    cases post with
    | none =>
      cases hc : carries env task "Original-Content-Digest" "" <;> simp [hd]
    | some p =>
      by_cases hp : task.Transaction.ID = p.TransactionID
      · have hp2 : ¬ p.TransactionID ≠ task.Transaction.ID := fun hne => hne hp.symm
        cases hc : carries env task "Original-Content-Digest" "" <;> simp [hd, hp, hp2]
      · have hp2 : p.TransactionID ≠ task.Transaction.ID := fun he => hp he.symm
        simp [hd, hp, hp2]

/-- C1 (witness): the task `tx1` carrying `Original-Content-Digest = D1` while the side-table
holds the row of `tx0` for `D1`. -/
theorem C1_revise_iff_witness :
    exampleWorker.Transform exampleEnv (.arweave (exampleTask "tx1" [originTag "RDE"]))
        [{ TransactionID := "tx0", OriginContentDigest := "D1" }] =
      (.ok (exampleActivity "tx1" typex.SocialRevise "D1"),
        [{ TransactionID := "tx0", OriginContentDigest := "D1" },
         { TransactionID := "tx1", OriginContentDigest := "D1" }]) ∧
    ∃ action, (exampleActivity "tx1" typex.SocialRevise "D1").Actions = [action] ∧
      (action.Typ = typex.SocialRevise ↔
        (carries exampleEnv (exampleTask "tx1" [originTag "RDE"])
            "Original-Content-Digest" "" = true ∨
          (tagValue exampleEnv (exampleTask "tx1" [originTag "RDE"])
              "Original-Content-Digest" ≠ "" ∧
            ∃ row, (exampleWorker.databaseClient.LoadDatasetMirrorPost
                (tagValue exampleEnv (exampleTask "tx1" [originTag "RDE"])
                  "Original-Content-Digest")
                (exampleWorker.stateAtDecision exampleEnv (exampleTask "tx1" [originTag "RDE"])
                  [{ TransactionID := "tx0", OriginContentDigest := "D1" }])).1 =
                  .ok (some row) ∧
              row.TransactionID ≠ (exampleTask "tx1" [originTag "RDE"]).Transaction.ID))) ∧
      (action.Typ ≠ typex.SocialRevise → action.Typ = typex.SocialPost) :=
  ⟨rfl, C1_revise_iff exampleEnv exampleWorker (exampleTask "tx1" [originTag "RDE"])
    [{ TransactionID := "tx0", OriginContentDigest := "D1" }] _ _ rfl⟩

/-- C3: a task that carries an `Original-Content-Digest` tag with an empty decoded value and
on which `Transform` succeeds gets the activity type `SocialRevise`, and so does each of its
actions, for every worker state (every side-table content and every answer of the lookup). -/
theorem C3_empty_origin_digest_revise {σ : Type} (env : Env) (w : worker σ)
    (task : source.Task) (s s' : σ) (activity : activityx.Activity)
    (hempty : carries env task "Original-Content-Digest" "" = true)
    (h : w.Transform env (.arweave task) s = (.ok activity, s')) :
    activity.Typ = typex.SocialRevise ∧
    ∀ action ∈ activity.Actions, action.Typ = typex.SocialRevise := by
  obtain ⟨action, md, s2, hacts, htyp, hb, _, _⟩ := Transform_decision env w task s s' activity h
  obtain ⟨_, _, _, _, _, he, hfull⟩ := buildMirrorAction_ok _ _ _ _ _ _ _ _ _ _ _ hb
  have hrev : action.Typ = typex.SocialRevise := by
    by_cases hd : tagValue env task "Original-Content-Digest" = ""
    · rw [(he hd).2, hempty]
      rfl
    · obtain ⟨post, _, hpost⟩ := hfull hd
      rw [hpost, hempty]
      cases post with
      | none => rfl
      | some p => by_cases hp : task.Transaction.ID = p.TransactionID <;> simp [hp]
  refine ⟨htyp.trans hrev, ?_⟩
  intro a ha
  rw [hacts] at ha
  rw [List.mem_singleton.mp ha]
  exact hrev

/-- C3 (witness): an empty `Original-Content-Digest` tag followed by a non-empty one, on an
empty side-table. -/
theorem C3_empty_origin_digest_revise_witness :
    (carries exampleEnv (exampleTask "tx1" [originTag "", originTag "RDE"])
        "Original-Content-Digest" "" = true ∧
      exampleWorker.Transform exampleEnv
          (.arweave (exampleTask "tx1" [originTag "", originTag "RDE"])) [] =
        (.ok (exampleActivity "tx1" typex.SocialRevise "D1"),
          [{ TransactionID := "tx1", OriginContentDigest := "D1" }])) ∧
    ((exampleActivity "tx1" typex.SocialRevise "D1").Typ = typex.SocialRevise ∧
      ∀ action ∈ (exampleActivity "tx1" typex.SocialRevise "D1").Actions,
        action.Typ = typex.SocialRevise) :=
  ⟨⟨rfl, rfl⟩, C3_empty_origin_digest_revise exampleEnv exampleWorker
    (exampleTask "tx1" [originTag "", originTag "RDE"]) [] _ _ rfl rfl⟩

/-! ## Publication id and side-table row (C9, C10) -/

/-- C9: when `Transform` succeeds, the `publication_id` of the metadata is the decoded
`Original-Content-Digest` value if that is non-empty, otherwise the decoded `Content-Digest`
value if that is non-empty, otherwise the string at JSON path `digest` of the transaction
data.  (The value of a tag is that of its last occurrence, the empty string when absent.) -/
theorem C9_publication_id {σ : Type} (env : Env) (w : worker σ) (task : source.Task)
    (s s' : σ) (activity : activityx.Activity)
    (h : w.Transform env (.arweave task) s = (.ok activity, s')) :
    ∃ action, activity.Actions = [action] ∧
      action.Metadata.PublicationID =
        if tagValue env task "Original-Content-Digest" ≠ "" then
          tagValue env task "Original-Content-Digest"
        else if tagValue env task "Content-Digest" ≠ "" then
          tagValue env task "Content-Digest"
        else env.gjsonString (decodedData env task) "digest" := by
  obtain ⟨action, md, s2, hacts, _, hb, hpub, _⟩ := Transform_decision env w task s s' activity h
  obtain ⟨hmd, _⟩ := buildMirrorAction_ok _ _ _ _ _ _ _ _ _ _ _ hb
  refine ⟨action, hacts, ?_⟩
  rw [hmd, hpub]
  unfold publicationID
  by_cases ho : tagValue env task "Original-Content-Digest" = ""
  · by_cases hc : tagValue env task "Content-Digest" = "" <;> simp [ho, hc]
  · simp [ho]

/-- C9 (witness): `Content-Digest = D2` and `Original-Content-Digest = D1`, with the row of
`tx0` for `D1` in the side-table (the fourth end-to-end scenario). -/
theorem C9_publication_id_witness :
    exampleWorker.Transform exampleEnv
        (.arweave (exampleTask "tx1" [contentTag "RDI", originTag "RDE"]))
        [{ TransactionID := "tx0", OriginContentDigest := "D1" }] =
      (.ok (exampleActivity "tx1" typex.SocialRevise "D1"),
        [{ TransactionID := "tx0", OriginContentDigest := "D1" },
         { TransactionID := "tx1", OriginContentDigest := "D1" }]) ∧
    ∃ action, (exampleActivity "tx1" typex.SocialRevise "D1").Actions = [action] ∧
      action.Metadata.PublicationID =
        if tagValue exampleEnv (exampleTask "tx1" [contentTag "RDI", originTag "RDE"])
            "Original-Content-Digest" ≠ "" then
          tagValue exampleEnv (exampleTask "tx1" [contentTag "RDI", originTag "RDE"])
            "Original-Content-Digest"
        else if tagValue exampleEnv (exampleTask "tx1" [contentTag "RDI", originTag "RDE"])
            "Content-Digest" ≠ "" then
          tagValue exampleEnv (exampleTask "tx1" [contentTag "RDI", originTag "RDE"])
            "Content-Digest"
        else exampleEnv.gjsonString
          (decodedData exampleEnv (exampleTask "tx1" [contentTag "RDI", originTag "RDE"]))
          "digest" :=
  ⟨rfl, C9_publication_id exampleEnv exampleWorker
    (exampleTask "tx1" [contentTag "RDI", originTag "RDE"])
    [{ TransactionID := "tx0", OriginContentDigest := "D1" }] _ _ rfl⟩

/-- C10: when `Transform` succeeds, the calls the worker made to its clients are, in order:
the media fetch (if the JSON has an image URI), the lookup `LoadDatasetMirrorPost(D)` (if the
`Original-Content-Digest` value `D` is non-empty), and then one call of
`SaveDatasetMirrorPost` with the row of the task's transaction id and `D`, which is the empty
string when the tag is absent.  So the row is saved exactly once, after the decision. -/
theorem C10_save_once_after_decision {σ : Type} (env : Env) (w : worker σ)
    (task : source.Task) (s s' : σ) (log log' : List Call) (activity : activityx.Activity)
    (h : (w.recording).Transform env (.arweave task) (s, log) = (.ok activity, (s', log'))) :
    log' = log ++
      (if env.gjsonString (decodedData env task) "wnft.imageURI" ≠ "" then
        [Call.Fetch ("/ipfs/" ++ env.gjsonString (decodedData env task) "wnft.imageURI")]
       else []) ++
      (if tagValue env task "Original-Content-Digest" ≠ "" then
        [Call.LoadDatasetMirrorPost (tagValue env task "Original-Content-Digest")]
       else []) ++
      [Call.SaveDatasetMirrorPost
        { TransactionID := task.Transaction.ID
          OriginContentDigest := tagValue env task "Original-Content-Digest" }] := by
  obtain ⟨action, md, s2, _, _, hb, _, hsv⟩ :=
    Transform_decision env (w.recording) task (s, log) (s', log') activity h
  obtain ⟨_, _, _, _, _, hempty, hfull⟩ := buildMirrorAction_ok _ _ _ _ _ _ _ _ _ _ _ hb
  have hsd : ((w.recording).stateAtDecision env task (s, log)).2 = log ++
      (if env.gjsonString (decodedData env task) "wnft.imageURI" ≠ "" then
        [Call.Fetch ("/ipfs/" ++ env.gjsonString (decodedData env task) "wnft.imageURI")]
       else []) := by
    unfold worker.stateAtDecision
    exact recording_fetchMedia_log env w _ s log
  have hlog : log' = s2.2 ++ [Call.SaveDatasetMirrorPost
      { TransactionID := task.Transaction.ID
        OriginContentDigest := tagValue env task "Original-Content-Digest" }] := by
    exact (congrArg (fun p => p.2.2) hsv).symm
  rw [hlog]
  by_cases hd : tagValue env task "Original-Content-Digest" = ""
  · rw [(hempty hd).1, hsd]
    simp [hd]
  · obtain ⟨post, hl, _⟩ := hfull hd
    have hs2 : s2.2 = ((w.recording).stateAtDecision env task (s, log)).2 ++
        [Call.LoadDatasetMirrorPost (tagValue env task "Original-Content-Digest")] := by
      exact (congrArg (fun p => p.2.2) hl).symm
    rw [hs2, hsd]
    simp [hd]

/-- C10 (witness): the third end-to-end scenario, a task with `Content-Digest = D1` and no
`Original-Content-Digest` tag on an empty side-table: the only call is the save of the row
with an empty digest. -/
theorem C10_save_once_after_decision_witness :
    (exampleWorker.recording).Transform exampleEnv
        (.arweave (exampleTask "tx" [contentTag "RDE"])) ([], []) =
      (.ok (exampleActivity "tx" typex.SocialPost "D1"),
        ([{ TransactionID := "tx", OriginContentDigest := "" }],
         [Call.SaveDatasetMirrorPost { TransactionID := "tx", OriginContentDigest := "" }])) ∧
    [Call.SaveDatasetMirrorPost { TransactionID := "tx", OriginContentDigest := "" }] = [] ++
      (if exampleEnv.gjsonString (decodedData exampleEnv (exampleTask "tx" [contentTag "RDE"]))
          "wnft.imageURI" ≠ "" then
        [Call.Fetch ("/ipfs/" ++ exampleEnv.gjsonString
          (decodedData exampleEnv (exampleTask "tx" [contentTag "RDE"])) "wnft.imageURI")]
       else []) ++
      (if tagValue exampleEnv (exampleTask "tx" [contentTag "RDE"])
          "Original-Content-Digest" ≠ "" then
        [Call.LoadDatasetMirrorPost
          (tagValue exampleEnv (exampleTask "tx" [contentTag "RDE"]) "Original-Content-Digest")]
       else []) ++
      [Call.SaveDatasetMirrorPost
        { TransactionID := (exampleTask "tx" [contentTag "RDE"]).Transaction.ID
          OriginContentDigest :=
            tagValue exampleEnv (exampleTask "tx" [contentTag "RDE"])
              "Original-Content-Digest" }] :=
  ⟨rfl, C10_save_once_after_decision exampleEnv exampleWorker
    (exampleTask "tx" [contentTag "RDE"]) [] _ [] _ _ rfl⟩

/-! ## The revise law on the side-table (C2) -/

theorem SideTable.mem_save (post q : model.DatasetMirrorPost) :
    ∀ table : SideTable, q ∈ SideTable.save post table → q = post ∨ q ∈ table := by
  intro table h
  unfold SideTable.save at h
  by_cases hp : post ∈ table
  · simp only [hp, if_true] at h
    exact Or.inr h
  · simp only [hp, if_false, List.mem_append, List.mem_filter, List.mem_singleton] at h
    rcases h with h | h
    · exact Or.inr h.1
    · exact Or.inl h

theorem SideTable.mem_save_self (post : model.DatasetMirrorPost) :
    ∀ table : SideTable, post ∈ SideTable.save post table := by
  intro table
  unfold SideTable.save
  by_cases hp : post ∈ table
  · simp only [hp, if_true]
  · simp [hp]

theorem SideTable.mem_save_of_ne (post q : model.DatasetMirrorPost)
    (hne : q.TransactionID ≠ post.TransactionID) :
    ∀ table : SideTable, q ∈ table → q ∈ SideTable.save post table := by
  intro table h
  unfold SideTable.save
  by_cases hp : post ∈ table
  · simp only [hp, if_true]
    exact h
  · simp only [hp, if_false, List.mem_append, List.mem_filter]
    exact Or.inl ⟨h, by simpa using hne⟩

theorem SideTable.load_none (digest : String) (table : SideTable)
    (h : SideTable.load digest table = none) :
    ∀ p ∈ table, p.OriginContentDigest ≠ digest := by
  intro p hp
  have := List.find?_eq_none.mp h p hp
  simpa using this

theorem SideTable.load_some_of_mem (digest : String) (table : SideTable)
    (p : model.DatasetMirrorPost) (hp : p ∈ table) (hd : p.OriginContentDigest = digest) :
    ∃ row, SideTable.load digest table = some row ∧ row ∈ table ∧
      row.OriginContentDigest = digest := by
  cases hl : SideTable.load digest table with
  | none => exact absurd hd (SideTable.load_none digest table hl p hp)
  | some row =>
    refine ⟨row, rfl, List.mem_of_find?_eq_some hl, ?_⟩
    have := List.find?_some hl
    simpa using this

theorem sideTable_fetchMedia_state (env : Env) (faults : MirrorFaults)
    (fetch : String → Except Error String) (address : String) (table : SideTable) :
    ((sideTableWorker faults fetch).fetchMedia env address table).2 = table := by
  unfold worker.fetchMedia
  by_cases ha : address = ""
  · simp [ha]
  · simp only [ne_eq, ha, not_false_eq_true, if_true, sideTableWorker]
    cases fetch ("/ipfs/" ++ address) with
    | error e => rfl
    | ok file =>
      cases hr : env.DetectReader file with
      | error e => simp [hr]
      | ok r => cases r <;> simp [hr]

theorem sideTable_load (faults : MirrorFaults) (fetch : String → Except Error String)
    (digest : String) (table s2 : SideTable) (post : Option model.DatasetMirrorPost)
    (h : (sideTableWorker faults fetch).databaseClient.LoadDatasetMirrorPost digest table =
      (.ok post, s2)) :
    post = SideTable.load digest table ∧ s2 = table := by
  simp only [sideTableWorker, sideTableClient] at h
  cases hf : faults.LoadDatasetMirrorPost digest table with
  | some e => simp [hf] at h
  | none =>
    simp only [hf, Prod.mk.injEq, Except.ok.injEq] at h
    exact ⟨h.1.symm, h.2.symm⟩

theorem sideTable_save_state (faults : MirrorFaults) (fetch : String → Except Error String)
    (post : model.DatasetMirrorPost) (table : SideTable) :
    ((sideTableWorker faults fetch).databaseClient.SaveDatasetMirrorPost post table).2 = table ∨
    ((sideTableWorker faults fetch).databaseClient.SaveDatasetMirrorPost post table) =
      (.ok (), SideTable.save post table) := by
  simp only [sideTableWorker, sideTableClient]
  cases faults.SaveDatasetMirrorPost post table with
  | some e => exact Or.inl rfl
  | none => exact Or.inr rfl

theorem sideTable_buildMirrorAction_state (env : Env) (faults : MirrorFaults)
    (fetch : String → Except Error String) (txID sender recipient : String)
    (md : metadata.SocialPost) (empty : Bool) (ocd : String) (table : SideTable) :
    ((sideTableWorker faults fetch).buildMirrorAction env txID sender recipient md empty ocd
      table).2 = table := by
  unfold worker.buildMirrorAction
  by_cases hd : ocd = ""
  · simp [hd]
  · simp only [ne_eq, hd, not_false_eq_true, if_true, sideTableWorker, sideTableClient]
    cases faults.LoadDatasetMirrorPost ocd table with
    | some e => rfl
    | none => rfl

/-- On the side-table, `transformMirrorAction` either leaves the table as it is or saves one
row under the transaction id of the task. -/
theorem sideTable_transformMirrorAction_state (env : Env) (faults : MirrorFaults)
    (fetch : String → Except Error String) (task : source.Task) (table : SideTable) :
    ((sideTableWorker faults fetch).transformMirrorAction env task table).2 = table ∨
    ∃ d, ((sideTableWorker faults fetch).transformMirrorAction env task table).2 =
      SideTable.save { TransactionID := task.Transaction.ID, OriginContentDigest := d } table := by
  unfold worker.transformMirrorAction
  cases hscan : scanTags env task.Transaction.Tags TagScan.init with
  | error e => exact Or.inl rfl
  | ok scan =>
    cases hdata : env.Base64Decode task.Transaction.Data with
    | error e => exact Or.inl rfl
    | ok data =>
      simp only
      have hfm := sideTable_fetchMedia_state env faults fetch
        (env.gjsonString data "wnft.imageURI") table
      cases hm : (sideTableWorker faults fetch).fetchMedia env
        (env.gjsonString data "wnft.imageURI") table with
      | mk rm s1 =>
        rw [hm] at hfm
        simp only at hfm
        subst hfm
        cases rm with
        | error e => exact Or.inl rfl
        | ok media =>
          simp only
          generalize hmd : ({
            Title := env.gjsonString data "content.title"
            Body := env.gjsonString data "content.body"
            ContentURI := "ar://" ++ task.Transaction.ID
            PublicationID := publicationID scan.contentDigest scan.originContentDigest
              (env.gjsonString data "digest")
            Media := media
            Timestamp := env.gjsonUint data "content.timestamp" } : metadata.SocialPost) = md
          have hbs := sideTable_buildMirrorAction_state env faults fetch task.Transaction.ID
            (env.gjsonString data "authorship.contributor") env.AddressMirror md
            scan.emptyOriginDigest scan.originContentDigest s1
          cases hb : (sideTableWorker faults fetch).buildMirrorAction env task.Transaction.ID
            (env.gjsonString data "authorship.contributor") env.AddressMirror md
            scan.emptyOriginDigest scan.originContentDigest s1 with
          | mk ra s2 =>
            rw [hb] at hbs
            simp only at hbs
            subst hbs
            cases ra with
            | error e => exact Or.inl rfl
            | ok action =>
              simp only
              rcases sideTable_save_state faults fetch
                { TransactionID := task.Transaction.ID
                  OriginContentDigest := scan.originContentDigest } s2 with hsv | hsv
              · cases hsr : (sideTableWorker faults fetch).databaseClient.SaveDatasetMirrorPost
                  { TransactionID := task.Transaction.ID
                    OriginContentDigest := scan.originContentDigest } s2 with
                | mk rs s3 =>
                  rw [hsr] at hsv
                  simp only at hsv
                  subst hsv
                  cases rs with
                  | error e => exact Or.inl rfl
                  | ok u => exact Or.inl rfl
              · rw [hsv]
                exact Or.inr ⟨scan.originContentDigest, rfl⟩

/-- On the side-table, `Transform` either leaves the table as it is or saves one row under
the id of the task. -/
theorem sideTable_Transform_state (env : Env) (faults : MirrorFaults)
    (fetch : String → Except Error String) (t : engine.Task) (table : SideTable) :
    ((sideTableWorker faults fetch).Transform env t table).2 = table ∨
    ∃ d, ((sideTableWorker faults fetch).Transform env t table).2 =
      SideTable.save { TransactionID := t.ID, OriginContentDigest := d } table := by
  cases t with
  | other id => exact Or.inl rfl
  | arweave task =>
    have key : ((sideTableWorker faults fetch).Transform env (.arweave task) table).2 = table ∨
        ((sideTableWorker faults fetch).Transform env (.arweave task) table).2 =
          ((sideTableWorker faults fetch).transformMirrorAction env task table).2 := by
      unfold worker.Transform
      simp only
      cases hseed : task.BuildActivity env
        (some ((sideTableWorker faults fetch).Platform env)) with
      | error e => exact Or.inl rfl
      | ok seed =>
        simp only
        cases ht : (sideTableWorker faults fetch).transformMirrorAction env task table with
        | mk rt s1 =>
          cases rt with
          | error e => exact Or.inr rfl
          | ok actions => cases actions <;> exact Or.inr rfl
    rcases key with key | key
    · exact Or.inl key
    · rw [key]
      exact sideTable_transformMirrorAction_state env faults fetch task table

/-- Transforms of other transactions keep the row of `tx1` for `D` and add no row for `D`
under the id `tx2`. -/
theorem transformAll_keeps (env : Env) (faults : MirrorFaults)
    (fetch : String → Except Error String) (tx1 tx2 D : String) :
    ∀ (mid : List engine.Task) (table : SideTable),
      (∀ t ∈ mid, t.ID ≠ tx1 ∧ t.ID ≠ tx2) →
      ({ TransactionID := tx1, OriginContentDigest := D } : model.DatasetMirrorPost) ∈ table →
      (∀ p ∈ table, p.OriginContentDigest = D → p.TransactionID ≠ tx2) →
      ({ TransactionID := tx1, OriginContentDigest := D } : model.DatasetMirrorPost) ∈
          transformAll env (sideTableWorker faults fetch) mid table ∧
        ∀ p ∈ transformAll env (sideTableWorker faults fetch) mid table,
          p.OriginContentDigest = D → p.TransactionID ≠ tx2 := by
  intro mid
  induction mid with
  | nil =>
    intro table _ h1 h2
    exact ⟨h1, h2⟩
  | cons t rest ih =>
    intro table hmid h1 h2
    simp only [transformAll]
    have ht := hmid t (List.mem_cons_self _ _)
    have hrest : ∀ u ∈ rest, u.ID ≠ tx1 ∧ u.ID ≠ tx2 :=
      fun u hu => hmid u (List.mem_cons_of_mem _ hu)
    rcases sideTable_Transform_state env faults fetch t table with hs | ⟨d, hs⟩
    · rw [hs]
      exact ih table hrest h1 h2
    · rw [hs]
      apply ih _ hrest
      · exact SideTable.mem_save_of_ne _ _ (fun hc => ht.1 hc.symm) table h1
      · intro p hp hd
        rcases SideTable.mem_save _ _ table hp with hp | hp
        · rw [hp]
          exact ht.2
        · exact h2 p hp hd

/-- C2 (counterexample): two inputs on which the revise law as stated fails.  First, `tx1`
carries an empty `Original-Content-Digest` tag followed by `Original-Content-Digest = D1`; no
row for `D1` exists, yet the first transaction carrying `D1` gets `SocialRevise`, not
`SocialPost`.  Second, `tx2` carries `D1` followed by `D2` and is transformed right after `tx1`,
which carried `D1` alone and got `SocialPost`; `tx2` gets `SocialPost`, not `SocialRevise`. -/
theorem C2_counterexample :
    (carries exampleEnv (exampleTask "tx1" [originTag "", originTag "RDE"])
        "Original-Content-Digest" "D1" = true ∧
      SideTable.load "D1" [] = none ∧
      resultTypes (exampleWorker.Transform exampleEnv
        (.arweave (exampleTask "tx1" [originTag "", originTag "RDE"])) []).1 =
        some (typex.SocialRevise, [typex.SocialRevise])) ∧
    (carries exampleEnv (exampleTask "tx1" [originTag "RDE"])
        "Original-Content-Digest" "D1" = true ∧
      carries exampleEnv (exampleTask "tx2" [originTag "RDE", originTag "RDI"])
        "Original-Content-Digest" "D1" = true ∧
      "tx1" ≠ "tx2" ∧ "D1" ≠ "" ∧
      exampleWorker.Transform exampleEnv (.arweave (exampleTask "tx1" [originTag "RDE"])) [] =
        (.ok (exampleActivity "tx1" typex.SocialPost "D1"),
          [{ TransactionID := "tx1", OriginContentDigest := "D1" }]) ∧
      resultTypes (exampleWorker.Transform exampleEnv
        (.arweave (exampleTask "tx2" [originTag "RDE", originTag "RDI"]))
        [{ TransactionID := "tx1", OriginContentDigest := "D1" }]).1 =
        some (typex.SocialPost, [typex.SocialPost])) := by
  refine ⟨⟨by rfl, by rfl, by rfl⟩, ⟨by rfl, by rfl, by decide, by decide, by rfl, by rfl⟩⟩

/-- C2 (amended): the revise law on the side-table.  Let `T1` and `T2` have different
transaction ids and let the last `Original-Content-Digest` tag of each have the same non-empty
value `D`, where `T1` carries no `Original-Content-Digest` tag with an empty value.  If no row
for `D` exists beforehand, `Transform` succeeds on `T1`, then any transforms of other
transactions run (whatever they return), and then `Transform` succeeds on `T2`, then the
activity of `T1` is a `SocialPost` and that of `T2` a `SocialRevise`. -/
theorem C2_revise_law (env : Env) (faults : MirrorFaults)
    (fetch : String → Except Error String) (T1 T2 : source.Task) (D : String)
    (mid : List engine.Task) (table table1 table2 : SideTable) (a1 a2 : activityx.Activity)
    (hid : T1.Transaction.ID ≠ T2.Transaction.ID)
    (hD : D ≠ "")
    (h1 : tagValue env T1 "Original-Content-Digest" = D)
    (h2 : tagValue env T2 "Original-Content-Digest" = D)
    (hne : carries env T1 "Original-Content-Digest" "" = false)
    (hfirst : SideTable.load D table = none)
    (hmid : ∀ t ∈ mid, t.ID ≠ T1.Transaction.ID ∧ t.ID ≠ T2.Transaction.ID)
    (hT1 : (sideTableWorker faults fetch).Transform env (.arweave T1) table = (.ok a1, table1))
    (hT2 : (sideTableWorker faults fetch).Transform env (.arweave T2)
      (transformAll env (sideTableWorker faults fetch) mid table1) = (.ok a2, table2)) :
    a1.Typ = typex.SocialPost ∧ a2.Typ = typex.SocialRevise := by
  -- the first transaction
  obtain ⟨act1, md1, s2, _, htyp1, hb1, _, hsv1⟩ :=
    Transform_decision env _ T1 table table1 a1 hT1
  rw [h1] at hb1 hsv1
  have hsd1 : (sideTableWorker faults fetch).stateAtDecision env T1 table = table :=
    sideTable_fetchMedia_state env faults fetch _ table
  rw [hsd1] at hb1
  obtain ⟨_, _, _, _, _, _, hfull1⟩ := buildMirrorAction_ok _ _ _ _ _ _ _ _ _ _ _ hb1
  obtain ⟨post1, hl1, hact1⟩ := hfull1 hD
  obtain ⟨hpost1, hs2⟩ := sideTable_load faults fetch D table s2 post1 hl1
  rw [hpost1, hfirst, hne] at hact1
  have hP : a1.Typ = typex.SocialPost := by
    rw [htyp1, hact1]
    rfl
  -- the table it leaves
  have htable1 : table1 = SideTable.save
      { TransactionID := T1.Transaction.ID, OriginContentDigest := D } table := by
    rcases sideTable_save_state faults fetch
      { TransactionID := T1.Transaction.ID, OriginContentDigest := D } s2 with hs | hs
    · rw [hsv1] at hs
      simp only [sideTableWorker, sideTableClient] at hsv1
      cases hf : faults.SaveDatasetMirrorPost
        { TransactionID := T1.Transaction.ID, OriginContentDigest := D } s2 with
      | some e => simp [hf] at hsv1
      | none =>
        simp only [hf, Prod.mk.injEq, true_and] at hsv1
        rw [← hsv1, hs2]
    · rw [hsv1] at hs
      simp only [Prod.mk.injEq, true_and] at hs
      rw [hs, hs2]
  have hmem : ({ TransactionID := T1.Transaction.ID, OriginContentDigest := D } :
      model.DatasetMirrorPost) ∈ table1 := by
    rw [htable1]
    exact SideTable.mem_save_self _ table
  have hnot : ∀ p ∈ table1, p.OriginContentDigest = D →
      p.TransactionID ≠ T2.Transaction.ID := by
    intro p hp hd
    rw [htable1] at hp
    rcases SideTable.mem_save _ _ table hp with hp | hp
    · rw [hp]
      exact hid
    · exact absurd hd (SideTable.load_none D table hfirst p hp)
  obtain ⟨hmem2, hnot2⟩ := transformAll_keeps env faults fetch T1.Transaction.ID
    T2.Transaction.ID D mid table1 hmid hmem hnot
  -- the second transaction
  obtain ⟨act2, md2, s3, _, htyp2, hb2, _, _⟩ := Transform_decision env _ T2 _ table2 a2 hT2
  rw [h2] at hb2
  have hsd2 : (sideTableWorker faults fetch).stateAtDecision env T2
      (transformAll env (sideTableWorker faults fetch) mid table1) =
      transformAll env (sideTableWorker faults fetch) mid table1 :=
    sideTable_fetchMedia_state env faults fetch _ _
  rw [hsd2] at hb2
  obtain ⟨_, _, _, _, _, _, hfull2⟩ := buildMirrorAction_ok _ _ _ _ _ _ _ _ _ _ _ hb2
  obtain ⟨post2, hl2, hact2⟩ := hfull2 hD
  obtain ⟨hpost2, _⟩ := sideTable_load faults fetch D _ s3 post2 hl2
  obtain ⟨row, hrow, hrowmem, hrowd⟩ := SideTable.load_some_of_mem D _ _ hmem2 rfl
  rw [hpost2, hrow] at hact2
  have hrowid : T2.Transaction.ID ≠ row.TransactionID :=
    fun hc => hnot2 row hrowmem hrowd hc.symm
  refine ⟨hP, ?_⟩
  rw [htyp2, hact2]
  simp [hrowid]

/-- C2 (witness): `tx1` and `tx2` both carry `Original-Content-Digest = D1`; between them a
third transaction `tx3` with `Original-Content-Digest = D2` is transformed. -/
theorem C2_revise_law_witness :
    ("tx1" ≠ "tx2" ∧ "D1" ≠ "" ∧
      tagValue exampleEnv (exampleTask "tx1" [originTag "RDE"]) "Original-Content-Digest" = "D1" ∧
      tagValue exampleEnv (exampleTask "tx2" [originTag "RDE"]) "Original-Content-Digest" = "D1" ∧
      carries exampleEnv (exampleTask "tx1" [originTag "RDE"]) "Original-Content-Digest" "" =
        false ∧
      SideTable.load "D1" [] = none ∧
      exampleWorker.Transform exampleEnv (.arweave (exampleTask "tx1" [originTag "RDE"])) [] =
        (.ok (exampleActivity "tx1" typex.SocialPost "D1"),
          [{ TransactionID := "tx1", OriginContentDigest := "D1" }]) ∧
      exampleWorker.Transform exampleEnv (.arweave (exampleTask "tx2" [originTag "RDE"]))
          (transformAll exampleEnv exampleWorker
            [.arweave (exampleTask "tx3" [originTag "RDI"])]
            [{ TransactionID := "tx1", OriginContentDigest := "D1" }]) =
        (.ok (exampleActivity "tx2" typex.SocialRevise "D1"),
          [{ TransactionID := "tx1", OriginContentDigest := "D1" },
           { TransactionID := "tx3", OriginContentDigest := "D2" },
           { TransactionID := "tx2", OriginContentDigest := "D1" }])) ∧
    ((exampleActivity "tx1" typex.SocialPost "D1").Typ = typex.SocialPost ∧
      (exampleActivity "tx2" typex.SocialRevise "D1").Typ = typex.SocialRevise) :=
  ⟨⟨by decide, by decide, rfl, rfl, rfl, rfl, rfl, rfl⟩,
    C2_revise_law exampleEnv noMirrorFaults (fun _ => .error (.base "ipfs unavailable"))
      (exampleTask "tx1" [originTag "RDE"]) (exampleTask "tx2" [originTag "RDE"]) "D1"
      [.arweave (exampleTask "tx3" [originTag "RDI"])] [] _ _ _ _
      (by decide) (by decide) rfl rfl rfl rfl (by decide) rfl rfl⟩

/-! ## Lemmas on the indexer loop -/

theorem TransformAfterMatch.nil : TransformAfterMatch [] := by
  intro pre task result post h
  cases pre <;> simp at h

theorem TransformAfterMatch.cons_match (task : engine.Task) (result : Except Error Bool)
    (evs : List Event) (h : TransformAfterMatch evs) (hs : StartsWithMatch evs) :
    TransformAfterMatch (Event.Match task result :: evs) := by
  intro pre t r post heq
  cases pre with
  | nil => simp at heq
  | cons x pre2 =>
    simp only [List.cons_append, List.cons.injEq] at heq
    obtain ⟨hx, hevs⟩ := heq
    cases pre2 with
    | nil =>
      rw [hevs] at hs
      simp [StartsWithMatch] at hs
    | cons y pre3 =>
      obtain ⟨before, hb⟩ := h (y :: pre3) t r post hevs
      exact ⟨x :: before, by rw [hb]; rfl⟩

theorem TransformAfterMatch.cons_pair (task : engine.Task)
    (result : Except Error (Option schema.Feed))
    (evs : List Event) (h : TransformAfterMatch evs) (hs : StartsWithMatch evs) :
    TransformAfterMatch (Event.Match task (.ok true) :: Event.Transform task result :: evs) := by
  intro pre t r post heq
  cases pre with
  | nil => simp at heq
  | cons x pre2 =>
    simp only [List.cons_append, List.cons.injEq] at heq
    obtain ⟨hx, heq2⟩ := heq
    cases pre2 with
    | nil =>
      simp only [List.nil_append, List.cons.injEq, Event.Transform.injEq] at heq2
      obtain ⟨⟨ht, _⟩, _⟩ := heq2
      exact ⟨[], by rw [← hx, ht]; rfl⟩
    | cons y pre3 =>
      simp only [List.cons_append, List.cons.injEq] at heq2
      obtain ⟨hy, hevs⟩ := heq2
      cases pre3 with
      | nil =>
        rw [hevs] at hs
        simp [StartsWithMatch] at hs
      | cons z pre4 =>
        obtain ⟨before, hb⟩ := h (z :: pre4) t r post hevs
        exact ⟨x :: y :: before, by rw [hb]; rfl⟩

/-- What one task function of the recording server does: it leaves the database and the
cursor alone and logs either a `Match` call that did not return `true`, with result nil, or a
`Match` call that returned `true` followed by a `Transform` call, with the feed that call
returned. -/
theorem taskFunc_recording {ω : Type} (id network : String) (w : engine.Worker ω)
    (faults : Faults) (task : engine.Task) (s : World ω) :
    ((recordingServer id network w faults).taskFunc task s).2.feeds = s.feeds ∧
    ((recordingServer id network w faults).taskFunc task s).2.checkpoints = s.checkpoints ∧
    ((recordingServer id network w faults).taskFunc task s).2.cursor = s.cursor ∧
    ((∃ result, result ≠ .ok true ∧
        ((recordingServer id network w faults).taskFunc task s).2.events =
          s.events ++ [Event.Match task result] ∧
        ((recordingServer id network w faults).taskFunc task s).1 = none) ∨
      (∃ result,
        ((recordingServer id network w faults).taskFunc task s).2.events =
          s.events ++ [Event.Match task (.ok true), Event.Transform task result] ∧
        Event.transformed (Event.Transform task result) =
          ((recordingServer id network w faults).taskFunc task s).1)) := by
  unfold Server.taskFunc
  simp only [recordingServer, recordingWorker]
  cases hm : (w.Match task s.side).1 with
  | error e =>
    refine ⟨rfl, rfl, rfl, Or.inl ⟨.error e, by simp, rfl, rfl⟩⟩
  | ok b =>
    cases b with
    | false =>
      refine ⟨rfl, rfl, rfl, Or.inl ⟨.ok false, by simp, rfl, rfl⟩⟩
    | true =>
      simp only
      cases ht : (w.Transform task (w.Match task s.side).2).1 with
      | error e =>
        refine ⟨rfl, rfl, rfl, Or.inr ⟨.error e, by simp, rfl⟩⟩
      | ok feed =>
        refine ⟨rfl, rfl, rfl, Or.inr ⟨.ok feed, by simp, ?_⟩⟩
        cases feed <;> rfl

/-- The log of the pool of the recording server. -/
theorem runTasks_recording {ω : Type} (id network : String) (w : engine.Worker ω)
    (faults : Faults) :
    ∀ (tasks : List engine.Task) (s : World ω),
      (runTasks (recordingServer id network w faults).taskFunc tasks s).2.feeds = s.feeds ∧
      (runTasks (recordingServer id network w faults).taskFunc tasks s).2.checkpoints =
        s.checkpoints ∧
      (runTasks (recordingServer id network w faults).taskFunc tasks s).2.cursor = s.cursor ∧
      ∃ evs,
        (runTasks (recordingServer id network w faults).taskFunc tasks s).2.events =
          s.events ++ evs ∧
        (∀ e ∈ evs, e.isWorkerCall = true) ∧
        List.filterMap (fun feed => feed)
          (runTasks (recordingServer id network w faults).taskFunc tasks s).1 =
          evs.filterMap Event.transformed ∧
        evs.filterMap Event.matched = tasks ∧
        TransformAfterMatch evs ∧ StartsWithMatch evs := by
  intro tasks
  induction tasks with
  | nil =>
    intro s
    refine ⟨rfl, rfl, rfl, [], by simp [runTasks], by simp, by simp [runTasks], by simp,
      TransformAfterMatch.nil, trivial⟩
  | cons t rest ih =>
    intro s
    obtain ⟨hf, hc, hcur, hchunk⟩ := taskFunc_recording id network w faults t s
    obtain ⟨hf2, hc2, hcur2, evs, hev, hall, hres, hmatched, htam, hstart⟩ :=
      ih ((recordingServer id network w faults).taskFunc t s).2
    simp only [runTasks]
    refine ⟨hf2.trans hf, hc2.trans hc, hcur2.trans hcur, ?_⟩
    rcases hchunk with ⟨result, hne, hevents, hnone⟩ | ⟨result, hevents, hfeed⟩
    · refine ⟨Event.Match t result :: evs, ?_, ?_, ?_, ?_, ?_, trivial⟩
      · rw [hev, hevents]
        simp
      · intro e he
        rcases List.mem_cons.mp he with he | he
        · rw [he]; rfl
        · exact hall e he
      · rw [hnone]
        simp [Event.transformed, hres]
      · simp [Event.matched, hmatched]
      · exact TransformAfterMatch.cons_match t result evs htam hstart
    · refine ⟨Event.Match t (.ok true) :: Event.Transform t result :: evs, ?_, ?_, ?_, ?_, ?_,
        trivial⟩
      · rw [hev, hevents]
        simp
      · intro e he
        rcases List.mem_cons.mp he with he | he
        · rw [he]; rfl
        · rcases List.mem_cons.mp he with he | he
          · rw [he]; rfl
          · exact hall e he
      · rw [← hfeed]
        have hm : Event.transformed (Event.Match t (.ok true)) = none := rfl
        rw [List.filterMap_cons_none hm]
        cases hx : Event.transformed (Event.Transform t result) with
        | none =>
          rw [List.filterMap_cons_none hx]
          simpa using hres
        | some feed =>
          rw [List.filterMap_cons_some hx]
          simpa using hres
      · simp [Event.matched, hmatched]
      · exact TransformAfterMatch.cons_pair t result evs htam hstart

/-- The first part of `handleTasks` on the recording server: the database and the cursor are
as before, the feeds collected are, up to order, those the logged `Transform` calls returned,
and `Match` was called once on every task of the batch. -/
theorem collectFeeds_recording {ω : Type} (pool : Pool) (id network : String)
    (w : engine.Worker ω) (faults : Faults) (tasks : List engine.Task) (s : World ω) :
    ((recordingServer id network w faults).collectFeeds pool tasks s).2.feeds = s.feeds ∧
    ((recordingServer id network w faults).collectFeeds pool tasks s).2.checkpoints =
      s.checkpoints ∧
    ((recordingServer id network w faults).collectFeeds pool tasks s).2.cursor = s.cursor ∧
    ∃ evs,
      ((recordingServer id network w faults).collectFeeds pool tasks s).2.events =
        s.events ++ evs ∧
      (∀ e ∈ evs, e.isWorkerCall = true) ∧
      ((recordingServer id network w faults).collectFeeds pool tasks s).1.Perm
        (evs.filterMap Event.transformed) ∧
      (evs.filterMap Event.matched).Perm tasks ∧
      TransformAfterMatch evs := by
  obtain ⟨hf, hc, hcur, evs, hev, hall, hres, hmatched, htam, _⟩ :=
    runTasks_recording id network w faults (pool.schedule tasks) s
  refine ⟨hf, hc, hcur, evs, hev, hall, ?_, ?_, htam⟩
  · unfold Server.collectFeeds
    simp only
    rw [← hres]
    exact (pool.wait_perm _).filterMap _
  · rw [hmatched]
    exact pool.schedule_perm tasks

/-- The three ways `handleTasks` ends on the recording server for a non-empty batch. -/
theorem handleTasks_recording {ω : Type} (pool : Pool) (id network : String)
    (w : engine.Worker ω) (faults : Faults) (tasks : List engine.Task) (s : World ω)
    (hne : tasks ≠ []) (c : List schema.Feed × World ω)
    (hc : (recordingServer id network w faults).collectFeeds pool tasks s = c) :
    (∀ e, faults.SaveFeeds c.1 c.2.feeds = some e →
      (recordingServer id network w faults).handleTasks pool tasks s =
        (.error (.wrap ("save " ++ toString c.1.length ++ " feeds") e),
          { c.2 with events := c.2.events ++ [Event.WithTransaction, Event.SaveFeeds c.1] })) ∧
    (∀ e, faults.SaveFeeds c.1 c.2.feeds = none →
      faults.SaveCheckpoint
        { ID := id, Network := network, Worker := w.Name, State := c.2.cursor }
        c.2.checkpoints = some e →
      (recordingServer id network w faults).handleTasks pool tasks s =
        (.error (.wrap "save checkpoint" e),
          { c.2 with events := c.2.events ++ [Event.WithTransaction, Event.SaveFeeds c.1,
              Event.SaveCheckpoint
                { ID := id, Network := network, Worker := w.Name, State := c.2.cursor }] })) ∧
    (faults.SaveFeeds c.1 c.2.feeds = none →
      faults.SaveCheckpoint
        { ID := id, Network := network, Worker := w.Name, State := c.2.cursor }
        c.2.checkpoints = none →
      (recordingServer id network w faults).handleTasks pool tasks s =
        (.ok (),
          { c.2 with
            feeds := saveFeeds c.1 c.2.feeds
            checkpoints := upsertCheckpoint
              { ID := id, Network := network, Worker := w.Name, State := c.2.cursor }
              c.2.checkpoints
            events := c.2.events ++ [Event.WithTransaction, Event.SaveFeeds c.1,
              Event.SaveCheckpoint
                { ID := id, Network := network, Worker := w.Name, State := c.2.cursor }] })) := by
  have hlen : ¬ tasks.length = 0 := fun h => hne (List.length_eq_zero.mp h)
  unfold Server.handleTasks
  simp only [hlen, if_false, hc]
  refine ⟨?_, ?_, ?_⟩
  · intro e h1
    simp [recordingServer, recordingDatabase, recordingClient, Server.transaction, h1]
  · intro e h1 h2
    simp [recordingServer, recordingDatabase, recordingClient, Server.transaction,
      Server.checkpoint, recordingWorker, h1, h2]
  · intro h1 h2
    simp [recordingServer, recordingDatabase, recordingClient, Server.transaction,
      Server.checkpoint, recordingWorker, h1, h2]

theorem Error.wraps_self (e : Error) : e.Wraps e = true := by
  cases e <;> simp [Error.Wraps]

theorem Error.wraps_wrap (msg : String) (inner target : Error)
    (h : inner.Wraps target = true) : (Error.wrap msg inner).Wraps target = true := by
  simp [Error.Wraps, h]

theorem mem_upsertCheckpoint (checkpoint : engine.Checkpoint) :
    ∀ table : List engine.Checkpoint, checkpoint ∈ upsertCheckpoint checkpoint table := by
  intro table
  induction table with
  | nil => simp [upsertCheckpoint]
  | cons c rest ih =>
    simp only [upsertCheckpoint]
    by_cases hc : c.ID = checkpoint.ID
    · simp [hc]
    · simp only [hc, if_false]
      exact List.mem_cons_of_mem _ ih

/-- The loop over a sequence of received values: once it has returned it stays returned,
and while it waits it goes on with the values that follow. -/
theorem loop_append {σ : Type} (pool : Pool) (srv : Server σ) :
    ∀ (before after : List Received) (s : σ),
      srv.loop pool (before ++ after) s =
        match srv.loop pool before s with
        | (some r, s1) => (some r, s1)
        | (none, s1) => srv.loop pool after s1 := by
  intro before
  induction before with
  | nil =>
    intro after s
    simp [Server.loop]
  | cons x rest ih =>
    intro after s
    cases x with
    | tasks batch =>
      simp only [List.cons_append, Server.loop]
      cases hh : srv.handleTasks pool batch s with
      | mk r s1 =>
        cases r with
        | error e => rfl
        | ok u =>
          cases u
          exact ih after s1
    | err e =>
      cases e with
      | none => simp [Server.loop]
      | some e => simp [Server.loop]

theorem matchThenTransform_nil : MatchThenTransform [] := by
  intro pre task post h
  cases pre <;> simp at h

theorem matchThenTransform_cons_match (task : engine.Task) (result : Except Error Bool)
    (evs : List Event) (hne : result ≠ .ok true) (h : MatchThenTransform evs) :
    MatchThenTransform (Event.Match task result :: evs) := by
  intro pre t post heq
  cases pre with
  | nil =>
    simp only [List.nil_append, List.cons.injEq, Event.Match.injEq] at heq
    exact absurd heq.1.2 hne
  | cons x pre2 =>
    simp only [List.cons_append, List.cons.injEq] at heq
    exact h pre2 t post heq.2

theorem matchThenTransform_cons_pair (task : engine.Task)
    (result : Except Error (Option schema.Feed))
    (evs : List Event) (h : MatchThenTransform evs) :
    MatchThenTransform (Event.Match task (.ok true) :: Event.Transform task result :: evs) := by
  intro pre t post heq
  cases pre with
  | nil =>
    simp only [List.nil_append, List.cons.injEq, Event.Match.injEq] at heq
    obtain ⟨⟨ht, _⟩, hpost⟩ := heq
    exact ⟨result, evs, by rw [← hpost, ht]⟩
  | cons x pre2 =>
    simp only [List.cons_append, List.cons.injEq] at heq
    obtain ⟨_, heq2⟩ := heq
    cases pre2 with
    | nil => simp at heq2
    | cons y pre3 =>
      simp only [List.cons_append, List.cons.injEq] at heq2
      exact h pre3 t post heq2.2

/-- In the log of the pool of the recording server every `Match` call that returned `true` is
followed at once by the `Transform` call on its task. -/
theorem runTasks_recording_transforms {ω : Type} (id network : String) (w : engine.Worker ω)
    (faults : Faults) :
    ∀ (tasks : List engine.Task) (s : World ω),
      ∃ evs,
        (runTasks (recordingServer id network w faults).taskFunc tasks s).2.events =
          s.events ++ evs ∧
        MatchThenTransform evs := by
  intro tasks
  induction tasks with
  | nil =>
    intro s
    exact ⟨[], by simp [runTasks], matchThenTransform_nil⟩
  | cons t rest ih =>
    intro s
    obtain ⟨_, _, _, hchunk⟩ := taskFunc_recording id network w faults t s
    obtain ⟨evs, hev, hmtt⟩ := ih ((recordingServer id network w faults).taskFunc t s).2
    simp only [runTasks]
    rcases hchunk with ⟨result, hne, hevents, _⟩ | ⟨result, hevents, _⟩
    · refine ⟨Event.Match t result :: evs, ?_, matchThenTransform_cons_match t result evs hne hmtt⟩
      rw [hev, hevents]
      simp
    · refine ⟨Event.Match t (.ok true) :: Event.Transform t result :: evs, ?_,
        matchThenTransform_cons_pair t result evs hmtt⟩
      rw [hev, hevents]
      simp

/-! ## The batch pipeline (C4, C5, C6, C7) -/

/-- C4: for every non-empty batch, `handleTasks` logs the worker calls `evs`, then opens the
transaction and calls `SaveFeeds` once, with a list that is, as a multiset, exactly the feeds
that the `Transform` calls returned non-nil without error.  `Match` is called once on every
task of the batch; every `Match` call that returned `true` without error is followed at once by
the `Transform` call on the same task, so every such task is transformed; and every `Transform`
call comes right after a `Match` call on the same task that returned `true` without error, so
`Transform` is never called on a task for which `Match` returned `false` or an error. -/
theorem C4_saved_feeds_exact {ω : Type} (pool : Pool) (id network : String)
    (w : engine.Worker ω) (faults : Faults) (tasks : List engine.Task) (s : World ω)
    (hne : tasks ≠ []) :
    ∃ evs feeds rest,
      ((recordingServer id network w faults).handleTasks pool tasks s).2.events =
        s.events ++ evs ++ Event.WithTransaction :: Event.SaveFeeds feeds :: rest ∧
      (∀ e ∈ evs, e.isWorkerCall = true) ∧
      (∀ e ∈ rest, ∃ checkpoint, e = Event.SaveCheckpoint checkpoint) ∧
      feeds.Perm (evs.filterMap Event.transformed) ∧
      (evs.filterMap Event.matched).Perm tasks ∧
      MatchThenTransform evs ∧
      TransformAfterMatch evs := by
  obtain ⟨_, _, _, evs, hev, hall, hperm, hmatched, htam0⟩ :=
    collectFeeds_recording pool id network w faults tasks s
  obtain ⟨evs2, hev2, hmtt2⟩ :=
    runTasks_recording_transforms id network w faults (pool.schedule tasks) s
  have hsame : evs2 = evs := by
    have h2 : ((recordingServer id network w faults).collectFeeds pool tasks s).2.events =
        s.events ++ evs2 := hev2
    rw [hev] at h2
    exact (List.append_cancel_left h2).symm
  have htam : MatchThenTransform evs ∧ TransformAfterMatch evs := ⟨hsame ▸ hmtt2, htam0⟩
  obtain ⟨hA, hB, hC⟩ := handleTasks_recording pool id network w faults tasks s hne _ rfl
  cases h1 : faults.SaveFeeds ((recordingServer id network w faults).collectFeeds pool tasks s).1
      ((recordingServer id network w faults).collectFeeds pool tasks s).2.feeds with
  | some e =>
    refine ⟨evs, _, [], ?_, hall, by simp, hperm, hmatched, htam⟩
    rw [hA e h1]
    simp [hev]
  | none =>
    cases h2 : faults.SaveCheckpoint
        { ID := id, Network := network, Worker := w.Name,
          State := ((recordingServer id network w faults).collectFeeds pool tasks s).2.cursor }
        ((recordingServer id network w faults).collectFeeds pool tasks s).2.checkpoints with
    | some e =>
      refine ⟨evs, _, [Event.SaveCheckpoint
        { ID := id, Network := network, Worker := w.Name,
          State := ((recordingServer id network w faults).collectFeeds pool tasks s).2.cursor }],
        ?_, hall, ?_, hperm, hmatched, htam⟩
      · rw [hB e h1 h2]
        simp [hev]
      · intro e he
        exact ⟨_, List.mem_singleton.mp he⟩
    | none =>
      refine ⟨evs, _, [Event.SaveCheckpoint
        { ID := id, Network := network, Worker := w.Name,
          State := ((recordingServer id network w faults).collectFeeds pool tasks s).2.cursor }],
        ?_, hall, ?_, hperm, hmatched, htam⟩
      · rw [hC h1 h2]
        simp [hev]
      · intro e he
        exact ⟨_, List.mem_singleton.mp he⟩

/-- C4 (witness): the example batch, run in reverse order on a database that does not
fail. -/
theorem C4_saved_feeds_exact_witness :
    exampleBatch ≠ [] ∧
    ∃ evs feeds rest,
      ((recordingServer "arweave.mirror" "arweave" exampleEngineWorker noFaults).handleTasks
          examplePool exampleBatch exampleWorld).2.events =
        exampleWorld.events ++ evs ++ Event.WithTransaction :: Event.SaveFeeds feeds :: rest ∧
      (∀ e ∈ evs, e.isWorkerCall = true) ∧
      (∀ e ∈ rest, ∃ checkpoint, e = Event.SaveCheckpoint checkpoint) ∧
      feeds.Perm (evs.filterMap Event.transformed) ∧
      (evs.filterMap Event.matched).Perm exampleBatch ∧
      MatchThenTransform evs ∧
      TransformAfterMatch evs :=
  ⟨by decide, C4_saved_feeds_exact examplePool "arweave.mirror" "arweave" exampleEngineWorker
    noFaults exampleBatch exampleWorld (by decide)⟩

/-- C5 (counterexample): the indexer runs the Mirror worker, whose `Transform` saves its
side-table row through the database client while the batch is transformed, before
`handleTasks` opens the transaction.  On a database whose `SaveFeeds` fails, `handleTasks`
returns the error and neither a feed nor a checkpoint is stored, but the side-table holds the
row of the task: the state of the database is not the one from before the batch. -/
theorem C5_counterexample :
    ((recordingServer "arweave.mirror" "arweave" (mirrorEngineWorker exampleEnv exampleWorker)
        failSaveFeeds).handleTasks examplePool
        [.arweave (exampleTask "tx1" [originTag "RDE"])] mirrorWorld).1 =
      .error (.wrap "save 1 feeds" (.base "database is down")) ∧
    ((recordingServer "arweave.mirror" "arweave" (mirrorEngineWorker exampleEnv exampleWorker)
        failSaveFeeds).handleTasks examplePool
        [.arweave (exampleTask "tx1" [originTag "RDE"])] mirrorWorld).2.feeds = [] ∧
    ((recordingServer "arweave.mirror" "arweave" (mirrorEngineWorker exampleEnv exampleWorker)
        failSaveFeeds).handleTasks examplePool
        [.arweave (exampleTask "tx1" [originTag "RDE"])] mirrorWorld).2.checkpoints = [] ∧
    ((recordingServer "arweave.mirror" "arweave" (mirrorEngineWorker exampleEnv exampleWorker)
        failSaveFeeds).handleTasks examplePool
        [.arweave (exampleTask "tx1" [originTag "RDE"])] mirrorWorld).2.side =
      [{ TransactionID := "tx1", OriginContentDigest := "D1" }] ∧
    ((recordingServer "arweave.mirror" "arweave" (mirrorEngineWorker exampleEnv exampleWorker)
        failSaveFeeds).handleTasks examplePool
        [.arweave (exampleTask "tx1" [originTag "RDE"])] mirrorWorld).2.side ≠
      mirrorWorld.side := by
  refine ⟨by rfl, by rfl, by rfl, by rfl, by decide⟩

/-- C5 (amended): for a non-empty batch, after the worker calls `handleTasks` opens one
transaction and calls `SaveFeeds` in it first; `SaveCheckpoint` follows exactly when
`SaveFeeds` did not fail.  If `SaveFeeds` fails, or `SaveCheckpoint` fails after it,
`handleTasks` returns the error of the transaction function, and whenever `handleTasks`
returns an error the feeds and the checkpoints in the database are those from before the
batch: neither the activities of the batch nor its checkpoint are persisted.  What the worker
wrote for itself while the batch was transformed, before the transaction was opened, stays as
the worker left it. -/
theorem C5_transaction_atomic {ω : Type} (pool : Pool) (id network : String)
    (w : engine.Worker ω) (faults : Faults) (tasks : List engine.Task) (s : World ω)
    (hne : tasks ≠ []) :
    ((recordingServer id network w faults).handleTasks pool tasks s).2.events =
      ((recordingServer id network w faults).collectFeeds pool tasks s).2.events ++
        Event.WithTransaction ::
        Event.SaveFeeds ((recordingServer id network w faults).collectFeeds pool tasks s).1 ::
        (if faults.SaveFeeds
            ((recordingServer id network w faults).collectFeeds pool tasks s).1 s.feeds = none
          then [Event.SaveCheckpoint
            { ID := id, Network := network, Worker := w.Name, State := s.cursor }]
          else []) ∧
    (∀ e, faults.SaveFeeds
        ((recordingServer id network w faults).collectFeeds pool tasks s).1 s.feeds = some e →
      ((recordingServer id network w faults).handleTasks pool tasks s).1 =
        .error (.wrap ("save " ++ toString
          ((recordingServer id network w faults).collectFeeds pool tasks s).1.length ++
          " feeds") e)) ∧
    (∀ e, faults.SaveFeeds
        ((recordingServer id network w faults).collectFeeds pool tasks s).1 s.feeds = none →
      faults.SaveCheckpoint
        { ID := id, Network := network, Worker := w.Name, State := s.cursor }
        s.checkpoints = some e →
      ((recordingServer id network w faults).handleTasks pool tasks s).1 =
        .error (.wrap "save checkpoint" e)) ∧
    (∀ err, ((recordingServer id network w faults).handleTasks pool tasks s).1 = .error err →
      ((recordingServer id network w faults).handleTasks pool tasks s).2.feeds = s.feeds ∧
      ((recordingServer id network w faults).handleTasks pool tasks s).2.checkpoints =
        s.checkpoints ∧
      ((recordingServer id network w faults).handleTasks pool tasks s).2.side =
        ((recordingServer id network w faults).collectFeeds pool tasks s).2.side) := by
  obtain ⟨hf, hc, hcur, _⟩ := collectFeeds_recording pool id network w faults tasks s
  obtain ⟨hA, hB, hC⟩ := handleTasks_recording pool id network w faults tasks s hne _ rfl
  rw [hf] at hA hB hC
  rw [hc, hcur] at hB hC
  cases h1 : faults.SaveFeeds ((recordingServer id network w faults).collectFeeds pool tasks s).1
      s.feeds with
  | some e =>
    rw [hA e h1]
    refine ⟨by simp, ?_, ?_, ?_⟩
    · intro e2 he2
      cases he2
      rfl
    · intro e2 he2
      cases he2
    · intro _ _
      exact ⟨hf, hc, rfl⟩
  | none =>
    cases h2 : faults.SaveCheckpoint
        { ID := id, Network := network, Worker := w.Name, State := s.cursor } s.checkpoints with
    | some e =>
      rw [hB e h1 h2]
      refine ⟨by simp, ?_, ?_, ?_⟩
      · intro e2 he2
        cases he2
      · intro e2 _ he2
        cases he2
        rfl
      · intro _ _
        exact ⟨hf, hc, rfl⟩
    | none =>
      rw [hC h1 h2]
      refine ⟨by simp, ?_, ?_, ?_⟩
      · intro e2 he2
        cases he2
      · intro e2 _ he2
        cases he2
      · intro err herr
        cases herr

/-- C5 (witness): the example batch on a database whose `SaveFeeds` fails. -/
theorem C5_transaction_atomic_witness :
    exampleBatch ≠ [] ∧
    (((recordingServer "arweave.mirror" "arweave" exampleEngineWorker failSaveFeeds).handleTasks
        examplePool exampleBatch exampleWorld).2.events =
      ((recordingServer "arweave.mirror" "arweave" exampleEngineWorker failSaveFeeds).collectFeeds
        examplePool exampleBatch exampleWorld).2.events ++
        Event.WithTransaction ::
        Event.SaveFeeds ((recordingServer "arweave.mirror" "arweave" exampleEngineWorker
          failSaveFeeds).collectFeeds examplePool exampleBatch exampleWorld).1 ::
        (if failSaveFeeds.SaveFeeds
            ((recordingServer "arweave.mirror" "arweave" exampleEngineWorker
              failSaveFeeds).collectFeeds examplePool exampleBatch exampleWorld).1
            exampleWorld.feeds = none
          then [Event.SaveCheckpoint
            { ID := "arweave.mirror", Network := "arweave", Worker := exampleEngineWorker.Name,
              State := exampleWorld.cursor }]
          else []) ∧
    (∀ e, failSaveFeeds.SaveFeeds
        ((recordingServer "arweave.mirror" "arweave" exampleEngineWorker
          failSaveFeeds).collectFeeds examplePool exampleBatch exampleWorld).1
        exampleWorld.feeds = some e →
      ((recordingServer "arweave.mirror" "arweave" exampleEngineWorker failSaveFeeds).handleTasks
        examplePool exampleBatch exampleWorld).1 =
        .error (.wrap ("save " ++ toString
          ((recordingServer "arweave.mirror" "arweave" exampleEngineWorker
            failSaveFeeds).collectFeeds examplePool exampleBatch exampleWorld).1.length ++
          " feeds") e)) ∧
    (∀ e, failSaveFeeds.SaveFeeds
        ((recordingServer "arweave.mirror" "arweave" exampleEngineWorker
          failSaveFeeds).collectFeeds examplePool exampleBatch exampleWorld).1
        exampleWorld.feeds = none →
      failSaveFeeds.SaveCheckpoint
        { ID := "arweave.mirror", Network := "arweave", Worker := exampleEngineWorker.Name,
          State := exampleWorld.cursor }
        exampleWorld.checkpoints = some e →
      ((recordingServer "arweave.mirror" "arweave" exampleEngineWorker failSaveFeeds).handleTasks
        examplePool exampleBatch exampleWorld).1 =
        .error (.wrap "save checkpoint" e)) ∧
    (∀ err, ((recordingServer "arweave.mirror" "arweave" exampleEngineWorker
        failSaveFeeds).handleTasks examplePool exampleBatch exampleWorld).1 = .error err →
      ((recordingServer "arweave.mirror" "arweave" exampleEngineWorker failSaveFeeds).handleTasks
        examplePool exampleBatch exampleWorld).2.feeds = exampleWorld.feeds ∧
      ((recordingServer "arweave.mirror" "arweave" exampleEngineWorker failSaveFeeds).handleTasks
        examplePool exampleBatch exampleWorld).2.checkpoints = exampleWorld.checkpoints ∧
      ((recordingServer "arweave.mirror" "arweave" exampleEngineWorker failSaveFeeds).handleTasks
        examplePool exampleBatch exampleWorld).2.side =
        ((recordingServer "arweave.mirror" "arweave" exampleEngineWorker
          failSaveFeeds).collectFeeds examplePool exampleBatch exampleWorld).2.side)) :=
  ⟨by decide, C5_transaction_atomic examplePool "arweave.mirror" "arweave" exampleEngineWorker
    failSaveFeeds exampleBatch exampleWorld (by decide)⟩

/-- C6: per-task failures never abort the batch.  For every worker, whatever its `Match` and
`Transform` return for the tasks of a non-empty batch (errors included), if the two writes of
the transaction do not fail then `handleTasks` returns nil, the checkpoint of the batch is
saved (it is logged as the last call and is in the database), and the feeds collected are
saved. -/
theorem C6_task_failures_do_not_abort {ω : Type} (pool : Pool) (id network : String)
    (w : engine.Worker ω) (faults : Faults) (tasks : List engine.Task) (s : World ω)
    (hne : tasks ≠ [])
    (hfeeds : faults.SaveFeeds
      ((recordingServer id network w faults).collectFeeds pool tasks s).1 s.feeds = none)
    (hcheckpoint : faults.SaveCheckpoint
      { ID := id, Network := network, Worker := w.Name, State := s.cursor } s.checkpoints =
        none) :
    ((recordingServer id network w faults).handleTasks pool tasks s).1 = .ok () ∧
    ((recordingServer id network w faults).handleTasks pool tasks s).2.checkpoints =
      upsertCheckpoint { ID := id, Network := network, Worker := w.Name, State := s.cursor }
        s.checkpoints ∧
    ({ ID := id, Network := network, Worker := w.Name, State := s.cursor } :
      engine.Checkpoint) ∈
      ((recordingServer id network w faults).handleTasks pool tasks s).2.checkpoints ∧
    ((recordingServer id network w faults).handleTasks pool tasks s).2.feeds =
      saveFeeds ((recordingServer id network w faults).collectFeeds pool tasks s).1 s.feeds ∧
    ((recordingServer id network w faults).handleTasks pool tasks s).2.events.getLast? =
      some (Event.SaveCheckpoint
        { ID := id, Network := network, Worker := w.Name, State := s.cursor }) := by
  obtain ⟨hf, hc, hcur, _⟩ := collectFeeds_recording pool id network w faults tasks s
  obtain ⟨_, _, hC⟩ := handleTasks_recording pool id network w faults tasks s hne _ rfl
  rw [hf] at hC
  rw [hc, hcur] at hC
  rw [hC hfeeds hcheckpoint]
  refine ⟨rfl, rfl, mem_upsertCheckpoint _ _, rfl, ?_⟩
  simp [List.getLast?_append]

/-- C6 (witness): a batch on which `Match` fails, `Match` rejects and `Transform` fails, and
none of whose tasks yields a feed; the batch still commits its checkpoint. -/
theorem C6_task_failures_do_not_abort_witness :
    (([.other "bad", .other "skip", .other "fail"] : List engine.Task) ≠ [] ∧
      noFaults.SaveFeeds
        ((recordingServer "arweave.mirror" "arweave" exampleEngineWorker noFaults).collectFeeds
          examplePool [.other "bad", .other "skip", .other "fail"] exampleWorld).1
        exampleWorld.feeds = none ∧
      noFaults.SaveCheckpoint
        { ID := "arweave.mirror", Network := "arweave", Worker := exampleEngineWorker.Name,
          State := exampleWorld.cursor } exampleWorld.checkpoints = none) ∧
    (((recordingServer "arweave.mirror" "arweave" exampleEngineWorker noFaults).handleTasks
        examplePool [.other "bad", .other "skip", .other "fail"] exampleWorld).1 = .ok () ∧
    ((recordingServer "arweave.mirror" "arweave" exampleEngineWorker noFaults).handleTasks
        examplePool [.other "bad", .other "skip", .other "fail"] exampleWorld).2.checkpoints =
      upsertCheckpoint
        { ID := "arweave.mirror", Network := "arweave", Worker := exampleEngineWorker.Name,
          State := exampleWorld.cursor } exampleWorld.checkpoints ∧
    ({ ID := "arweave.mirror", Network := "arweave", Worker := exampleEngineWorker.Name,
        State := exampleWorld.cursor } : engine.Checkpoint) ∈
      ((recordingServer "arweave.mirror" "arweave" exampleEngineWorker noFaults).handleTasks
        examplePool [.other "bad", .other "skip", .other "fail"] exampleWorld).2.checkpoints ∧
    ((recordingServer "arweave.mirror" "arweave" exampleEngineWorker noFaults).handleTasks
        examplePool [.other "bad", .other "skip", .other "fail"] exampleWorld).2.feeds =
      saveFeeds
        ((recordingServer "arweave.mirror" "arweave" exampleEngineWorker noFaults).collectFeeds
          examplePool [.other "bad", .other "skip", .other "fail"] exampleWorld).1
        exampleWorld.feeds ∧
    ((recordingServer "arweave.mirror" "arweave" exampleEngineWorker noFaults).handleTasks
        examplePool [.other "bad", .other "skip", .other "fail"]
        exampleWorld).2.events.getLast? =
      some (Event.SaveCheckpoint
        { ID := "arweave.mirror", Network := "arweave", Worker := exampleEngineWorker.Name,
          State := exampleWorld.cursor })) :=
  ⟨⟨by decide, rfl, rfl⟩,
    C6_task_failures_do_not_abort examplePool "arweave.mirror" "arweave" exampleEngineWorker
      noFaults [.other "bad", .other "skip", .other "fail"] exampleWorld (by decide) rfl rfl⟩

/-- C7: per-batch database failures abort and terminate the indexer.  Let `Run` have come to
wait in the state `s` after the values `before`, and let it then receive a non-empty batch
for which `SaveFeeds` fails with `e`, or `SaveFeeds` succeeds and `SaveCheckpoint` fails with
`e`.  Then `handleTasks` returns an error that wraps `e`, and `Run` returns an error that
wraps the error of `handleTasks` and ends in the state `handleTasks` left: whatever is
received after the batch is not handled. -/
theorem C7_database_failure_terminates {ω : Type} (pool : Pool) (id network : String)
    (w : engine.Worker ω) (faults : Faults) (tasks : List engine.Task) (s : World ω) (e : Error)
    (before after : List Received) (s0 : World ω)
    (hrun : (recordingServer id network w faults).Run pool before s0 = (none, s))
    (hne : tasks ≠ [])
    (hfault :
      faults.SaveFeeds
        ((recordingServer id network w faults).collectFeeds pool tasks s).1 s.feeds = some e ∨
      (faults.SaveFeeds
          ((recordingServer id network w faults).collectFeeds pool tasks s).1 s.feeds = none ∧
        faults.SaveCheckpoint
          { ID := id, Network := network, Worker := w.Name, State := s.cursor } s.checkpoints =
            some e)) :
    ∃ err,
      ((recordingServer id network w faults).handleTasks pool tasks s).1 = .error err ∧
      err.Wraps e = true ∧
      (recordingServer id network w faults).Run pool
          (before ++ Received.tasks tasks :: after) s0 =
        (some (.error (.wrap "handle tasks" err)),
          ((recordingServer id network w faults).handleTasks pool tasks s).2) ∧
      (Error.wrap "handle tasks" err).Wraps err = true ∧
      (Error.wrap "handle tasks" err).Wraps e = true := by
  obtain ⟨hf, hc, hcur, _⟩ := collectFeeds_recording pool id network w faults tasks s
  obtain ⟨hA, hB, _⟩ := handleTasks_recording pool id network w faults tasks s hne _ rfl
  rw [hf] at hA hB
  rw [hc, hcur] at hB
  have key : ∃ err, ((recordingServer id network w faults).handleTasks pool tasks s).1 =
      .error err ∧ err.Wraps e = true := by
    rcases hfault with h1 | ⟨h1, h2⟩
    · exact ⟨_, by rw [hA e h1], Error.wraps_wrap _ _ _ (Error.wraps_self e)⟩
    · exact ⟨_, by rw [hB e h1 h2], Error.wraps_wrap _ _ _ (Error.wraps_self e)⟩
  obtain ⟨err, herr, hwraps⟩ := key
  refine ⟨err, herr, hwraps, ?_, Error.wraps_wrap _ _ _ (Error.wraps_self err),
    Error.wraps_wrap _ _ _ hwraps⟩
  unfold Server.Run at hrun ⊢
  rw [loop_append, hrun]
  simp only [Server.loop]
  cases hh : (recordingServer id network w faults).handleTasks pool tasks s with
  | mk r s1 =>
    rw [hh] at herr
    simp only at herr
    subst herr
    rfl

/-- C7 (witness): the first batch commits; for the second batch the database fails after
`SaveFeeds` and before `SaveCheckpoint`; a third batch and a clean end of the source follow
and are not handled. -/
theorem C7_database_failure_terminates_witness :
    ((exampleServer failSecondCheckpoint).Run examplePool [Received.tasks [.other "a"]]
        exampleWorld =
        (none, worldAfterFirstBatch) ∧
      ([.other "b"] : List engine.Task) ≠ [] ∧
      (failSecondCheckpoint.SaveFeeds
          ((exampleServer failSecondCheckpoint).collectFeeds examplePool [.other "b"]
            worldAfterFirstBatch).1 worldAfterFirstBatch.feeds =
            some (.base "database is down") ∨
        (failSecondCheckpoint.SaveFeeds
            ((exampleServer failSecondCheckpoint).collectFeeds examplePool [.other "b"]
              worldAfterFirstBatch).1 worldAfterFirstBatch.feeds = none ∧
          failSecondCheckpoint.SaveCheckpoint
            { ID := "arweave.mirror", Network := "arweave", Worker := exampleEngineWorker.Name,
              State := worldAfterFirstBatch.cursor } worldAfterFirstBatch.checkpoints =
              some (.base "database is down")))) ∧
    ∃ err,
      ((exampleServer failSecondCheckpoint).handleTasks examplePool [.other "b"]
        worldAfterFirstBatch).1 = .error err ∧
      err.Wraps (.base "database is down") = true ∧
      (exampleServer failSecondCheckpoint).Run examplePool
          ([Received.tasks [.other "a"]] ++ Received.tasks [.other "b"] ::
            [Received.tasks [.other "c"], Received.err none]) exampleWorld =
        (some (.error (.wrap "handle tasks" err)),
          ((exampleServer failSecondCheckpoint).handleTasks examplePool [.other "b"]
            worldAfterFirstBatch).2) ∧
      (Error.wrap "handle tasks" err).Wraps err = true ∧
      (Error.wrap "handle tasks" err).Wraps (.base "database is down") = true :=
  ⟨⟨rfl, by decide, Or.inr ⟨rfl, rfl⟩⟩,
    C7_database_failure_terminates examplePool "arweave.mirror" "arweave" exampleEngineWorker
      failSecondCheckpoint [.other "b"] worldAfterFirstBatch (.base "database is down")
      [Received.tasks [.other "a"]] [Received.tasks [.other "c"], Received.err none]
      exampleWorld rfl (by decide) (Or.inr ⟨rfl, rfl⟩)⟩

/-! ## The recording worker behaves as the worker it records -/

theorem recording_fetchMedia {σ : Type} (env : Env) (w : worker σ) (address : String)
    (s : σ) (log : List Call) :
    ((w.recording).fetchMedia env address (s, log)).1 = (w.fetchMedia env address s).1 ∧
    ((w.recording).fetchMedia env address (s, log)).2.1 = (w.fetchMedia env address s).2 := by
  unfold worker.fetchMedia
  by_cases ha : address = ""
  · simp [ha]
  · simp only [ne_eq, ha, not_false_eq_true, if_true, worker.recording]
    cases hf : w.ipfsClient.Fetch ("/ipfs/" ++ address) s with
    | mk r s1 =>
      cases r with
      | error e => exact ⟨rfl, rfl⟩
      | ok file =>
        simp only
        cases hd : env.DetectReader file with
        | error e => exact ⟨rfl, rfl⟩
        | ok r => cases r <;> exact ⟨rfl, rfl⟩

theorem recording_buildMirrorAction {σ : Type} (env : Env) (w : worker σ)
    (txID sender recipient : String) (md : metadata.SocialPost) (empty : Bool) (ocd : String)
    (s : σ) (log : List Call) :
    ((w.recording).buildMirrorAction env txID sender recipient md empty ocd (s, log)).1 =
      (w.buildMirrorAction env txID sender recipient md empty ocd s).1 ∧
    ((w.recording).buildMirrorAction env txID sender recipient md empty ocd (s, log)).2.1 =
      (w.buildMirrorAction env txID sender recipient md empty ocd s).2 := by
  unfold worker.buildMirrorAction
  by_cases hd : ocd = ""
  · simp [hd, worker.Platform]
  · simp only [ne_eq, hd, not_false_eq_true, if_true, worker.recording, worker.Platform]
    cases hl : w.databaseClient.LoadDatasetMirrorPost ocd s with
    | mk r s1 =>
      cases r with
      | error e => exact ⟨rfl, rfl⟩
      | ok post => exact ⟨rfl, rfl⟩

theorem recording_transformMirrorAction {σ : Type} (env : Env) (w : worker σ)
    (task : source.Task) (s : σ) (log : List Call) :
    ((w.recording).transformMirrorAction env task (s, log)).1 =
      (w.transformMirrorAction env task s).1 ∧
    ((w.recording).transformMirrorAction env task (s, log)).2.1 =
      (w.transformMirrorAction env task s).2 := by
  unfold worker.transformMirrorAction
  cases hscan : scanTags env task.Transaction.Tags TagScan.init with
  | error e => exact ⟨rfl, rfl⟩
  | ok scan =>
    cases hdata : env.Base64Decode task.Transaction.Data with
    | error e => exact ⟨rfl, rfl⟩
    | ok data =>
      simp only
      have hfm := recording_fetchMedia env w (env.gjsonString data "wnft.imageURI") s log
      cases hrf : (w.recording).fetchMedia env (env.gjsonString data "wnft.imageURI") (s, log) with
      | mk rr sr =>
        obtain ⟨sr1, log1⟩ := sr
        cases hf : w.fetchMedia env (env.gjsonString data "wnft.imageURI") s with
        | mk r s1 =>
          rw [hrf, hf] at hfm
          simp only at hfm
          obtain ⟨h1, h2⟩ := hfm
          subst h1
          subst h2
          cases rr with
          | error e => exact ⟨rfl, rfl⟩
          | ok media =>
            simp only
            generalize hmd : ({
              Title := env.gjsonString data "content.title"
              Body := env.gjsonString data "content.body"
              ContentURI := "ar://" ++ task.Transaction.ID
              PublicationID := publicationID scan.contentDigest scan.originContentDigest
                (env.gjsonString data "digest")
              Media := media
              Timestamp := env.gjsonUint data "content.timestamp" } : metadata.SocialPost) = md
            have hbm := recording_buildMirrorAction env w task.Transaction.ID
              (env.gjsonString data "authorship.contributor") env.AddressMirror md
              scan.emptyOriginDigest scan.originContentDigest sr1 log1
            cases hrb : (w.recording).buildMirrorAction env task.Transaction.ID
              (env.gjsonString data "authorship.contributor") env.AddressMirror md
              scan.emptyOriginDigest scan.originContentDigest (sr1, log1) with
            | mk rb sb =>
              obtain ⟨sb1, log2⟩ := sb
              cases hb : w.buildMirrorAction env task.Transaction.ID
                (env.gjsonString data "authorship.contributor") env.AddressMirror md
                scan.emptyOriginDigest scan.originContentDigest sr1 with
              | mk r2 s2 =>
                rw [hrb, hb] at hbm
                simp only at hbm
                obtain ⟨h3, h4⟩ := hbm
                subst h3
                subst h4
                cases rb with
                | error e => exact ⟨rfl, rfl⟩
                | ok action =>
                  simp only [worker.recording]
                  cases hsv : w.databaseClient.SaveDatasetMirrorPost
                    { TransactionID := task.Transaction.ID
                      OriginContentDigest := scan.originContentDigest } sb1 with
                  | mk r3 s3 =>
                    cases r3 with
                    | error e => exact ⟨rfl, rfl⟩
                    | ok u => exact ⟨rfl, rfl⟩

/-- The recording worker returns what the worker it records returns, and leaves the state
that worker leaves; the log is the only addition. -/
theorem recording_Transform {σ : Type} (env : Env) (w : worker σ) (task : engine.Task)
    (s : σ) (log : List Call) :
    ((w.recording).Transform env task (s, log)).1 = (w.Transform env task s).1 ∧
    ((w.recording).Transform env task (s, log)).2.1 = (w.Transform env task s).2 := by
  cases task with
  | other id => exact ⟨rfl, rfl⟩
  | arweave t =>
    unfold worker.Transform
    simp only [worker.Platform]
    cases hseed : t.BuildActivity env (some env.PlatformMirror) with
    | error e => exact ⟨rfl, rfl⟩
    | ok seed =>
      simp only
      have htm := recording_transformMirrorAction env w t s log
      cases hrt : (w.recording).transformMirrorAction env t (s, log) with
      | mk rr sr =>
        obtain ⟨sr1, log1⟩ := sr
        cases ht : w.transformMirrorAction env t s with
        | mk r s1 =>
          rw [hrt, ht] at htm
          simp only at htm
          obtain ⟨h1, h2⟩ := htm
          subst h1
          subst h2
          cases rr with
          | error e => exact ⟨rfl, rfl⟩
          | ok actions => cases actions <;> exact ⟨rfl, rfl⟩

/-! ## Shape of the activity (C11, C17) -/

/-- The fields of the seed activity of `BuildActivity`. -/
theorem BuildActivity_fields (env : Env) (task : source.Task) (platform : Option String)
    (seed : activityx.Activity) (h : task.BuildActivity env platform = .ok seed) :
    seed.ID = task.Transaction.ID ∧ seed.Platform = platform.getD "" ∧
    seed.Status = true ∧ seed.Timestamp = task.Block.Timestamp ∧ seed.Actions = [] := by
  unfold source.Task.BuildActivity at h
  cases h1 : env.PublicKeyToAddress task.Transaction.Owner with
  | error e => simp [h1] at h
  | ok sender =>
    cases h2 : env.DefaultFee task.Transaction with
    | error e => simp [h1, h2] at h
    | ok fee =>
      simp only [h1, h2, Except.ok.injEq] at h
      subst h
      exact ⟨rfl, rfl, rfl, rfl, rfl⟩

/-- C11: when `Transform` succeeds, the activity has exactly one action, which is its first
action; the type of the activity is the type of that action, and the platform of the
activity and the platform of the action are both `Worker.Platform()`. -/
theorem C11_activity_shape {σ : Type} (env : Env) (w : worker σ) (task : source.Task)
    (s s' : σ) (activity : activityx.Activity)
    (h : w.Transform env (.arweave task) s = (.ok activity, s')) :
    ∃ action, activity.Actions = [action] ∧
      1 ≤ activity.Actions.length ∧
      activity.Actions.head? = some action ∧
      activity.Typ = action.Typ ∧
      activity.Platform = w.Platform env ∧
      action.Platform = w.Platform env := by
  obtain ⟨action, md, s2, hacts, htyp, hb, _, _⟩ := Transform_decision env w task s s' activity h
  obtain ⟨_, _, _, hplat, _⟩ := buildMirrorAction_ok _ _ _ _ _ _ _ _ _ _ _ hb
  obtain ⟨seed, action2, hseed, _, hact⟩ := Transform_ok env w task s s' activity h
  obtain ⟨_, hsp, _⟩ := BuildActivity_fields env task _ seed hseed
  refine ⟨action, hacts, ?_, ?_, htyp, ?_, hplat⟩
  · rw [hacts]
    simp
  · rw [hacts]
    rfl
  · rw [hact]
    simpa [worker.Platform] using hsp

/-- C11 (witness): a post on an empty side-table. -/
theorem C11_activity_shape_witness :
    exampleWorker.Transform exampleEnv (.arweave (exampleTask "tx" [contentTag "RDE"])) [] =
      (.ok (exampleActivity "tx" typex.SocialPost "D1"),
        [{ TransactionID := "tx", OriginContentDigest := "" }]) ∧
    ∃ action, (exampleActivity "tx" typex.SocialPost "D1").Actions = [action] ∧
      1 ≤ (exampleActivity "tx" typex.SocialPost "D1").Actions.length ∧
      (exampleActivity "tx" typex.SocialPost "D1").Actions.head? = some action ∧
      (exampleActivity "tx" typex.SocialPost "D1").Typ = action.Typ ∧
      (exampleActivity "tx" typex.SocialPost "D1").Platform = exampleWorker.Platform exampleEnv ∧
      action.Platform = exampleWorker.Platform exampleEnv :=
  ⟨rfl, C11_activity_shape exampleEnv exampleWorker (exampleTask "tx" [contentTag "RDE"])
    [] _ _ rfl⟩

/-- C17: when `Transform` succeeds, the `from` of the action is the string at JSON path
`authorship.contributor` of the transaction data, the `to` of the action is the Mirror
contract address, and the `to` of the activity is the same address. -/
theorem C17_from_and_to {σ : Type} (env : Env) (w : worker σ) (task : source.Task)
    (s s' : σ) (activity : activityx.Activity)
    (h : w.Transform env (.arweave task) s = (.ok activity, s')) :
    ∃ action, activity.Actions = [action] ∧
      action.From = env.gjsonString (decodedData env task) "authorship.contributor" ∧
      action.To = env.AddressMirror ∧
      activity.To = env.AddressMirror := by
  obtain ⟨action, md, s2, hacts, _, hb, _, _⟩ := Transform_decision env w task s s' activity h
  obtain ⟨_, hfrom, hto, _⟩ := buildMirrorAction_ok _ _ _ _ _ _ _ _ _ _ _ hb
  obtain ⟨seed, action2, _, _, hact⟩ := Transform_ok env w task s s' activity h
  refine ⟨action, hacts, hfrom, hto, ?_⟩
  rw [hact]

/-- C17 (witness): a post on an empty side-table. -/
theorem C17_from_and_to_witness :
    exampleWorker.Transform exampleEnv (.arweave (exampleTask "tx" [contentTag "RDE"])) [] =
      (.ok (exampleActivity "tx" typex.SocialPost "D1"),
        [{ TransactionID := "tx", OriginContentDigest := "" }]) ∧
    ∃ action, (exampleActivity "tx" typex.SocialPost "D1").Actions = [action] ∧
      action.From = exampleEnv.gjsonString
        (decodedData exampleEnv (exampleTask "tx" [contentTag "RDE"]))
        "authorship.contributor" ∧
      action.To = exampleEnv.AddressMirror ∧
      (exampleActivity "tx" typex.SocialPost "D1").To = exampleEnv.AddressMirror :=
  ⟨rfl, C17_from_and_to exampleEnv exampleWorker (exampleTask "tx" [contentTag "RDE"])
    [] _ _ rfl⟩

/-! ## Idempotence of the decision on the side-table (C12) -/

theorem find?_filter_of_some {α : Type} (pd q : α → Bool) (p : α) :
    ∀ l : List α, l.find? pd = some p → q p = true → (l.filter q).find? pd = some p := by
  intro l
  induction l with
  | nil => intro h; simp at h
  | cons x rest ih =>
    intro h hq
    by_cases hx : pd x = true
    · have hxp : x = p := by simpa [List.find?, hx] using h
      subst hxp
      simp [List.filter, hq, List.find?, hx]
    · have hrest : rest.find? pd = some p := by simpa [List.find?, hx] using h
      by_cases hqx : q x = true
      · simp only [List.filter, hqx, List.find?, hx]
        exact ih hrest hq
      · simp only [List.filter, hqx]
        exact ih hrest hq

theorem find?_filter_of_none {α : Type} (pd q : α → Bool) :
    ∀ l : List α, l.find? pd = none → (l.filter q).find? pd = none := by
  intro l h
  rw [List.find?_eq_none] at h ⊢
  intro x hx
  exact h x (List.mem_filter.mp hx).1

/-- Saving the row of `tx` for `D` into a table without a row for `D` makes it the row the
lookup of `D` returns. -/
theorem SideTable.load_save_of_none (tx D : String) (table : SideTable)
    (h : SideTable.load D table = none) :
    SideTable.load D (SideTable.save { TransactionID := tx, OriginContentDigest := D } table) =
      some { TransactionID := tx, OriginContentDigest := D } := by
  have hnot : ({ TransactionID := tx, OriginContentDigest := D } : model.DatasetMirrorPost) ∉
      table := fun hm => SideTable.load_none D table h _ hm rfl
  unfold SideTable.save
  simp only [hnot, if_false]
  unfold SideTable.load at h ⊢
  rw [List.find?_append, find?_filter_of_none _ _ table h]
  simp

/-- Saving the row of `tx` for `D` does not change which row the lookup of `D` returns, when
it returned a row before. -/
theorem SideTable.load_save_of_some (tx D : String) (table : SideTable)
    (p : model.DatasetMirrorPost) (h : SideTable.load D table = some p) :
    SideTable.load D (SideTable.save { TransactionID := tx, OriginContentDigest := D } table) =
      some p := by
  have hpd : p.OriginContentDigest = D := by
    have := List.find?_some h
    simpa using this
  have hpm : p ∈ table := List.mem_of_find?_eq_some h
  unfold SideTable.save
  by_cases hin : ({ TransactionID := tx, OriginContentDigest := D } : model.DatasetMirrorPost) ∈
      table
  · simp only [hin, if_true]
    exact h
  · simp only [hin, if_false]
    have hne : p.TransactionID ≠ tx := by
      intro hc
      apply hin
      have hp : p = { TransactionID := tx, OriginContentDigest := D } := by
        cases p
        simp only at hc hpd
        subst hc
        subst hpd
        rfl
      rw [← hp]
      exact hpm
    unfold SideTable.load at h ⊢
    rw [List.find?_append, find?_filter_of_some _ _ p table h (by simpa using hne)]
    simp

theorem sideTable_save_ok (faults : MirrorFaults) (fetch : String → Except Error String)
    (post : model.DatasetMirrorPost) (table table1 : SideTable)
    (h : (sideTableWorker faults fetch).databaseClient.SaveDatasetMirrorPost post table =
      (.ok (), table1)) :
    table1 = SideTable.save post table := by
  simp only [sideTableWorker, sideTableClient] at h
  cases hf : faults.SaveDatasetMirrorPost post table with
  | some e => simp [hf] at h
  | none =>
    simp only [hf, Prod.mk.injEq, true_and] at h
    exact h.symm

/-- The id of the activity of a successful `Transform` is the transaction id of the task. -/
theorem Transform_id {σ : Type} (env : Env) (w : worker σ) (task : source.Task)
    (s s' : σ) (activity : activityx.Activity)
    (h : w.Transform env (.arweave task) s = (.ok activity, s')) :
    activity.ID = task.Transaction.ID := by
  obtain ⟨seed, action, hseed, _, hact⟩ := Transform_ok env w task s s' activity h
  obtain ⟨hid, _⟩ := BuildActivity_fields env task _ seed hseed
  rw [hact]
  exact hid

/-- The type a successful `Transform` on the side-table decides on, from the row the lookup
finds in the table. -/
theorem sideTable_Transform_type (env : Env) (faults : MirrorFaults)
    (fetch : String → Except Error String) (task : source.Task) (table table1 : SideTable)
    (activity : activityx.Activity)
    (h : (sideTableWorker faults fetch).Transform env (.arweave task) table =
      (.ok activity, table1)) :
    table1 = SideTable.save
      { TransactionID := task.Transaction.ID
        OriginContentDigest := tagValue env task "Original-Content-Digest" } table ∧
    (tagValue env task "Original-Content-Digest" = "" →
      activity.Typ = if carries env task "Original-Content-Digest" "" then typex.SocialRevise
        else typex.SocialPost) ∧
    (tagValue env task "Original-Content-Digest" ≠ "" →
      activity.Typ =
        match SideTable.load (tagValue env task "Original-Content-Digest") table with
        | some p =>
          if task.Transaction.ID ≠ p.TransactionID then typex.SocialRevise
          else if carries env task "Original-Content-Digest" "" then typex.SocialRevise
          else typex.SocialPost
        | none =>
          if carries env task "Original-Content-Digest" "" then typex.SocialRevise
          else typex.SocialPost) := by
  obtain ⟨action, md, s2, _, htyp, hb, _, hsv⟩ :=
    Transform_decision env _ task table table1 activity h
  have hsd : (sideTableWorker faults fetch).stateAtDecision env task table = table :=
    sideTable_fetchMedia_state env faults fetch _ table
  rw [hsd] at hb
  have hs2 : s2 = table := by
    have := sideTable_buildMirrorAction_state env faults fetch task.Transaction.ID
      (env.gjsonString (decodedData env task) "authorship.contributor") env.AddressMirror md
      (carries env task "Original-Content-Digest" "")
      (tagValue env task "Original-Content-Digest") table
    rw [hb] at this
    exact this
  obtain ⟨_, _, _, _, _, hempty, hfull⟩ := buildMirrorAction_ok _ _ _ _ _ _ _ _ _ _ _ hb
  rw [hs2] at hsv
  refine ⟨sideTable_save_ok faults fetch _ table table1 hsv, ?_, ?_⟩
  · intro hd
    rw [htyp, (hempty hd).2]
  · intro hd
    obtain ⟨post, hl, hact⟩ := hfull hd
    obtain ⟨hpost, _⟩ := sideTable_load faults fetch _ table s2 post hl
    rw [htyp, hact, hpost]

/-- The result of the media fetch of a worker over the side-table depends on the answers of
the gateway only. -/
theorem sideTable_fetchMedia_result (env : Env) (faults faults2 : MirrorFaults)
    (fetch : String → Except Error String) (address : String) (table table2 : SideTable) :
    ((sideTableWorker faults fetch).fetchMedia env address table).1 =
      ((sideTableWorker faults2 fetch).fetchMedia env address table2).1 := by
  unfold worker.fetchMedia
  by_cases ha : address = ""
  · simp [ha]
  · simp only [ne_eq, ha, not_false_eq_true, if_true, sideTableWorker]
    cases fetch ("/ipfs/" ++ address) with
    | error e => rfl
    | ok file =>
      cases hr : env.DetectReader file with
      | error e => simp [hr]
      | ok r => cases r <;> simp [hr]

/-- A task that was transformed once is transformed again, on any side-table, when the
database does not fail and the gateway answers as before. -/
theorem sideTable_Transform_again (env : Env) (faults : MirrorFaults)
    (fetch : String → Except Error String) (task : source.Task) (table table1 : SideTable)
    (a1 : activityx.Activity)
    (h1 : (sideTableWorker faults fetch).Transform env (.arweave task) table = (.ok a1, table1))
    (t : SideTable) :
    ∃ a2 t2, (sideTableWorker noMirrorFaults fetch).Transform env (.arweave task) t =
      (.ok a2, t2) := by
  obtain ⟨seed, action, hseed, ht, _⟩ := Transform_ok env _ task table table1 a1 h1
  obtain ⟨scan, data, media, s1, action1, s2, hscan, hdata, hm, _, _, _⟩ :=
    transformMirrorAction_ok env _ task table table1 [action] ht
  have hm2 : (sideTableWorker noMirrorFaults fetch).fetchMedia env
      (env.gjsonString data "wnft.imageURI") t = (.ok media, t) := by
    have hres := sideTable_fetchMedia_result env noMirrorFaults faults fetch
      (env.gjsonString data "wnft.imageURI") t table
    have hst := sideTable_fetchMedia_state env noMirrorFaults fetch
      (env.gjsonString data "wnft.imageURI") t
    rw [hm] at hres
    cases hx : (sideTableWorker noMirrorFaults fetch).fetchMedia env
      (env.gjsonString data "wnft.imageURI") t with
    | mk r st =>
      rw [hx] at hres hst
      simp only at hres hst
      rw [hres, hst]
  unfold worker.Transform
  simp only [worker.Platform, hseed]
  unfold worker.transformMirrorAction
  simp only [hscan, hdata, hm2]
  unfold worker.buildMirrorAction
  by_cases hd : scan.originContentDigest = ""
  · simp [hd, sideTableWorker, sideTableClient, noMirrorFaults]
  · simp [hd, sideTableWorker, sideTableClient, noMirrorFaults]

/-- C12: idempotence of the Mirror decision on the side-table.  For every side-table and
every Mirror task on which `Transform` succeeds: against the side-table the first run left,
a second `Transform` of the same task succeeds when the database does not fail and the
gateway answers as before, and every second `Transform` that succeeds (whatever faults and
gateway answers it meets) yields an activity with the same id and the same type as the
first. -/
theorem C12_decision_idempotent (env : Env) (faults : MirrorFaults)
    (fetch : String → Except Error String) (task : source.Task)
    (table table1 : SideTable) (a1 : activityx.Activity)
    (h1 : (sideTableWorker faults fetch).Transform env (.arweave task) table =
      (.ok a1, table1)) :
    (∃ a2 table2, (sideTableWorker noMirrorFaults fetch).Transform env (.arweave task) table1 =
      (.ok a2, table2)) ∧
    (∀ (faults2 : MirrorFaults) (fetch2 : String → Except Error String)
        (a2 : activityx.Activity) (table2 : SideTable),
      (sideTableWorker faults2 fetch2).Transform env (.arweave task) table1 = (.ok a2, table2) →
      a2.ID = a1.ID ∧ a2.Typ = a1.Typ) := by
  refine ⟨sideTable_Transform_again env faults fetch task table table1 a1 h1 table1, ?_⟩
  intro faults2 fetch2 a2 table2 h2
  refine ⟨(Transform_id env _ task _ _ a2 h2).trans (Transform_id env _ task _ _ a1 h1).symm, ?_⟩
  obtain ⟨ht1, he1, hf1⟩ := sideTable_Transform_type env faults fetch task table table1 a1 h1
  obtain ⟨_, he2, hf2⟩ := sideTable_Transform_type env faults2 fetch2 task table1 table2 a2 h2
  by_cases hd : tagValue env task "Original-Content-Digest" = ""
  · rw [he1 hd, he2 hd]
  · rw [hf1 hd, hf2 hd, ht1]
    cases hl : SideTable.load (tagValue env task "Original-Content-Digest") table with
    | none =>
      rw [SideTable.load_save_of_none _ _ table hl]
      simp
    | some p =>
      rw [SideTable.load_save_of_some _ _ table p hl]

/-- C12 (witness): `tx1` revises `D1`, first recorded by `tx0`. -/
theorem C12_decision_idempotent_witness :
    exampleWorker.Transform exampleEnv (.arweave (exampleTask "tx1" [originTag "RDE"]))
        [{ TransactionID := "tx0", OriginContentDigest := "D1" }] =
      (.ok (exampleActivity "tx1" typex.SocialRevise "D1"),
        [{ TransactionID := "tx0", OriginContentDigest := "D1" },
         { TransactionID := "tx1", OriginContentDigest := "D1" }]) ∧
    ((∃ a2 table2,
        (sideTableWorker noMirrorFaults (fun _ => .error (.base "ipfs unavailable"))).Transform
          exampleEnv (.arweave (exampleTask "tx1" [originTag "RDE"]))
          [{ TransactionID := "tx0", OriginContentDigest := "D1" },
           { TransactionID := "tx1", OriginContentDigest := "D1" }] = (.ok a2, table2)) ∧
    (∀ (faults2 : MirrorFaults) (fetch2 : String → Except Error String)
        (a2 : activityx.Activity) (table2 : SideTable),
      (sideTableWorker faults2 fetch2).Transform exampleEnv
          (.arweave (exampleTask "tx1" [originTag "RDE"]))
          [{ TransactionID := "tx0", OriginContentDigest := "D1" },
           { TransactionID := "tx1", OriginContentDigest := "D1" }] = (.ok a2, table2) →
      a2.ID = (exampleActivity "tx1" typex.SocialRevise "D1").ID ∧
      a2.Typ = (exampleActivity "tx1" typex.SocialRevise "D1").Typ)) :=
  ⟨rfl,
    C12_decision_idempotent exampleEnv noMirrorFaults
      (fun _ => .error (.base "ipfs unavailable"))
      (exampleTask "tx1" [originTag "RDE"])
      [{ TransactionID := "tx0", OriginContentDigest := "D1" }] _ _ rfl⟩

/-! ## Media and the IPFS gateway (C13, C18) -/

/-- What a successful media fetch went through. -/
theorem fetchMedia_ok {σ : Type} (env : Env) (w : worker σ) (address : String) (s s1 : σ)
    (media : List metadata.Media) (h : w.fetchMedia env address s = (.ok media, s1)) :
    (address = "" ∧ media = [] ∧ s1 = s) ∨
    (address ≠ "" ∧ ∃ file mime,
      w.ipfsClient.Fetch ("/ipfs/" ++ address) s = (.ok file, s1) ∧
      env.DetectReader file = .ok (some mime) ∧
      media = [{ Address := "ipfs://" ++ address, MimeType := mime }]) := by
  unfold worker.fetchMedia at h
  by_cases ha : address = ""
  · simp only [ha, ne_eq, not_true_eq_false, if_false, Prod.mk.injEq, Except.ok.injEq] at h
    exact Or.inl ⟨ha, h.1.symm, h.2.symm⟩
  · simp only [ne_eq, ha, not_false_eq_true, if_true] at h
    refine Or.inr ⟨ha, ?_⟩
    cases hf : w.ipfsClient.Fetch ("/ipfs/" ++ address) s with
    | mk r s2 =>
      rw [hf] at h
      cases r with
      | error e => simp at h
      | ok file =>
        simp only at h
        cases hd : env.DetectReader file with
        | error e => simp [hd] at h
        | ok r2 =>
          cases r2 with
          | none => simp [hd] at h
          | some mime =>
            simp only [hd, Prod.mk.injEq, Except.ok.injEq] at h
            exact ⟨file, mime, by rw [h.2], hd, h.1.symm⟩

/-- C13 (counterexample): the JSON names an image and the gateway is down; `Transform` does
not return an action without media, it fails with the error of the fetch, and the side-table
stays empty. -/
theorem C13_counterexample :
    exampleEnvWithImage.gjsonString
      (decodedData exampleEnvWithImage (exampleTask "tx" [contentTag "RDE"]))
      "wnft.imageURI" = "QmImage" ∧
    exampleWorker.ipfsClient.Fetch "/ipfs/QmImage" [] =
      (.error (.base "ipfs unavailable"), []) ∧
    exampleWorker.Transform exampleEnvWithImage
      (.arweave (exampleTask "tx" [contentTag "RDE"])) [] =
      (.error (.wrap "handle arweave mirror transaction"
        (.wrap "fetch ipfs" (.base "ipfs unavailable"))), []) := by
  refine ⟨by rfl, by rfl, by rfl⟩

/-- C13 (amended): on IPFS failure the Mirror worker fails the task.  For every Mirror task
whose JSON has a non-empty `wnft.imageURI`, if the IPFS fetch fails with the error `e` then
`Transform` returns an error and no activity; when the seed activity is built and the tags
and the data decode, that error is `e` wrapped as `fetch ipfs` and then as
`handle arweave mirror transaction`, and the worker stops in the state the fetch left, before
any side-table call. -/
theorem C13_ipfs_failure_fails {σ : Type} (env : Env) (w : worker σ) (task : source.Task)
    (s s1 : σ) (e : Error)
    (huri : env.gjsonString (decodedData env task) "wnft.imageURI" ≠ "")
    (hfetch : w.ipfsClient.Fetch
      ("/ipfs/" ++ env.gjsonString (decodedData env task) "wnft.imageURI") s = (.error e, s1)) :
    (∃ err, (w.Transform env (.arweave task) s).1 = .error err) ∧
    (∀ seed scan data,
      task.BuildActivity env (some (w.Platform env)) = .ok seed →
      scanTags env task.Transaction.Tags TagScan.init = .ok scan →
      env.Base64Decode task.Transaction.Data = .ok data →
      w.Transform env (.arweave task) s =
        (.error (.wrap "handle arweave mirror transaction" (.wrap "fetch ipfs" e)), s1)) := by
  have hexact : ∀ seed scan data,
      task.BuildActivity env (some (w.Platform env)) = .ok seed →
      scanTags env task.Transaction.Tags TagScan.init = .ok scan →
      env.Base64Decode task.Transaction.Data = .ok data →
      w.Transform env (.arweave task) s =
        (.error (.wrap "handle arweave mirror transaction" (.wrap "fetch ipfs" e)), s1) := by
    intro seed scan data hseed hscan hdata
    have hd : decodedData env task = data := by simp [decodedData, hdata]
    rw [hd] at huri hfetch
    have hm : w.fetchMedia env (env.gjsonString data "wnft.imageURI") s =
        (.error (.wrap "fetch ipfs" e), s1) := by
      unfold worker.fetchMedia
      simp only [ne_eq, huri, not_false_eq_true, if_true, hfetch]
    have ht : w.transformMirrorAction env task s = (.error (.wrap "fetch ipfs" e), s1) := by
      unfold worker.transformMirrorAction
      simp only [hscan, hdata, hm]
    unfold worker.Transform
    simp only [hseed, ht]
  refine ⟨?_, hexact⟩
  cases hres : w.Transform env (.arweave task) s with
  | mk r s2 =>
    cases r with
    | error err => exact ⟨err, rfl⟩
    | ok activity =>
      exfalso
      obtain ⟨seed, action, hseed, ht, _⟩ := Transform_ok env w task s s2 activity hres
      obtain ⟨scan, data, _, _, _, _, hscan, hdata, _, _, _, _⟩ :=
        transformMirrorAction_ok env w task s s2 [action] ht
      have := hexact seed scan data (by simpa [worker.Platform] using hseed) hscan hdata
      rw [hres] at this
      simp at this

/-- C13 (witness): the task of the counterexample. -/
theorem C13_ipfs_failure_fails_witness :
    (exampleEnvWithImage.gjsonString
        (decodedData exampleEnvWithImage (exampleTask "tx" [contentTag "RDE"]))
        "wnft.imageURI" ≠ "" ∧
      exampleWorker.ipfsClient.Fetch
        ("/ipfs/" ++ exampleEnvWithImage.gjsonString
          (decodedData exampleEnvWithImage (exampleTask "tx" [contentTag "RDE"]))
          "wnft.imageURI") [] = (.error (.base "ipfs unavailable"), [])) ∧
    ((∃ err, (exampleWorker.Transform exampleEnvWithImage
        (.arweave (exampleTask "tx" [contentTag "RDE"])) []).1 = .error err) ∧
    (∀ seed scan data,
      (exampleTask "tx" [contentTag "RDE"]).BuildActivity exampleEnvWithImage
        (some (exampleWorker.Platform exampleEnvWithImage)) = .ok seed →
      scanTags exampleEnvWithImage (exampleTask "tx" [contentTag "RDE"]).Transaction.Tags
        TagScan.init = .ok scan →
      exampleEnvWithImage.Base64Decode (exampleTask "tx" [contentTag "RDE"]).Transaction.Data =
        .ok data →
      exampleWorker.Transform exampleEnvWithImage
          (.arweave (exampleTask "tx" [contentTag "RDE"])) [] =
        (.error (.wrap "handle arweave mirror transaction"
          (.wrap "fetch ipfs" (.base "ipfs unavailable"))), []))) :=
  ⟨⟨by decide, rfl⟩,
    C13_ipfs_failure_fails exampleEnvWithImage exampleWorker
      (exampleTask "tx" [contentTag "RDE"]) [] [] (.base "ipfs unavailable") (by decide) rfl⟩

/-- The calls a successful `Transform` of the recording worker adds to the log. -/
theorem recording_Transform_calls {σ : Type} (env : Env) (w : worker σ)
    (task : source.Task) (s s' : σ) (log log' : List Call) (activity : activityx.Activity)
    (h : (w.recording).Transform env (.arweave task) (s, log) = (.ok activity, (s', log'))) :
    log' = log ++
      (if env.gjsonString (decodedData env task) "wnft.imageURI" ≠ "" then
        [Call.Fetch ("/ipfs/" ++ env.gjsonString (decodedData env task) "wnft.imageURI")]
       else []) ++
      (if tagValue env task "Original-Content-Digest" ≠ "" then
        [Call.LoadDatasetMirrorPost (tagValue env task "Original-Content-Digest")]
       else []) ++
      [Call.SaveDatasetMirrorPost
        { TransactionID := task.Transaction.ID
          OriginContentDigest := tagValue env task "Original-Content-Digest" }] := by
  obtain ⟨action, md, s2, _, _, hb, _, hsv⟩ :=
    Transform_decision env (w.recording) task (s, log) (s', log') activity h
  obtain ⟨_, _, _, _, _, hempty, hfull⟩ := buildMirrorAction_ok _ _ _ _ _ _ _ _ _ _ _ hb
  have hsd : ((w.recording).stateAtDecision env task (s, log)).2 = log ++
      (if env.gjsonString (decodedData env task) "wnft.imageURI" ≠ "" then
        [Call.Fetch ("/ipfs/" ++ env.gjsonString (decodedData env task) "wnft.imageURI")]
       else []) := by
    unfold worker.stateAtDecision
    exact recording_fetchMedia_log env w _ s log
  have hlog : log' = s2.2 ++ [Call.SaveDatasetMirrorPost
      { TransactionID := task.Transaction.ID
        OriginContentDigest := tagValue env task "Original-Content-Digest" }] := by
    exact (congrArg (fun p => p.2.2) hsv).symm
  rw [hlog]
  by_cases hd : tagValue env task "Original-Content-Digest" = ""
  · rw [(hempty hd).1, hsd]
    simp [hd]
  · obtain ⟨post, hl, _⟩ := hfull hd
    have hs2 : s2.2 = ((w.recording).stateAtDecision env task (s, log)).2 ++
        [Call.LoadDatasetMirrorPost (tagValue env task "Original-Content-Digest")] := by
      exact (congrArg (fun p => p.2.2) hl).symm
    rw [hs2, hsd]
    simp [hd]

/-- C18: when `Transform` succeeds, the media list of the metadata is empty and no IPFS fetch
is among the calls made when JSON path `wnft.imageURI` is absent or empty (the empty string);
otherwise the gateway was asked for `/ipfs/` followed by that value, and the list holds exactly
one entry, whose address is `ipfs://` followed by that value and whose mime type is the type
detected from the fetched stream. -/
theorem C18_media {σ : Type} (env : Env) (w : worker σ) (task : source.Task)
    (s s' : σ) (log log' : List Call) (activity : activityx.Activity)
    (h : (w.recording).Transform env (.arweave task) (s, log) = (.ok activity, (s', log'))) :
    ∃ action calls, activity.Actions = [action] ∧ log' = log ++ calls ∧
      (env.gjsonString (decodedData env task) "wnft.imageURI" = "" →
        action.Metadata.Media = [] ∧ ∀ path, Call.Fetch path ∉ calls) ∧
      (env.gjsonString (decodedData env task) "wnft.imageURI" ≠ "" →
        Call.Fetch ("/ipfs/" ++ env.gjsonString (decodedData env task) "wnft.imageURI") ∈ calls ∧
        ∃ file mime,
          (w.ipfsClient.Fetch
            ("/ipfs/" ++ env.gjsonString (decodedData env task) "wnft.imageURI") s).1 =
            .ok file ∧
          env.DetectReader file = .ok (some mime) ∧
          action.Metadata.Media =
            [{ Address := "ipfs://" ++ env.gjsonString (decodedData env task) "wnft.imageURI"
               MimeType := mime }]) := by
  have hcalls := recording_Transform_calls env w task s s' log log' activity h
  obtain ⟨seed, action, hseed, ht, hact⟩ :=
    Transform_ok env (w.recording) task (s, log) (s', log') activity h
  obtain ⟨_, _, _, _, hnoact⟩ := BuildActivity_fields env task _ seed hseed
  obtain ⟨scan, data, media, s1, action1, s2, _, hdata, hm, hb, _, hone⟩ :=
    transformMirrorAction_ok env (w.recording) task (s, log) (s', log') [action] ht
  have ha : action = action1 := by simpa using hone
  subst ha
  obtain ⟨hmd, _⟩ := buildMirrorAction_ok _ _ _ _ _ _ _ _ _ _ _ hb
  have hmedia : action.Metadata.Media = media := by rw [hmd]
  have hd : decodedData env task = data := by simp [decodedData, hdata]
  rw [hd] at hcalls ⊢
  refine ⟨action, _, ?_, by rw [hcalls, List.append_assoc, List.append_assoc], ?_, ?_⟩
  · rw [hact]
    simp [hnoact]
  · intro huri
    rcases fetchMedia_ok env _ _ _ _ _ hm with ⟨_, hnil, _⟩ | ⟨hne, _⟩
    · refine ⟨hmedia.trans hnil, ?_⟩
      intro path hmem
      simp only [huri, ne_eq, not_true_eq_false, if_false, List.nil_append,
        List.mem_append, List.mem_singleton] at hmem
      rcases hmem with hmem | hmem
      · by_cases ho : tagValue env task "Original-Content-Digest" = ""
        · simp [ho] at hmem
        · simp [ho] at hmem
      · cases hmem
    · exact absurd huri hne
  · intro huri
    refine ⟨by simp [huri], ?_⟩
    rcases fetchMedia_ok env _ _ _ _ _ hm with ⟨hempty, _, _⟩ | ⟨_, file, mime, hf, hdet, hlist⟩
    · exact absurd hempty huri
    · exact ⟨file, mime, congrArg (fun r => r.1) hf, hdet, hmedia.trans hlist⟩

/-- C18 (witness): the JSON names the image `QmImage` and the gateway answers. -/
theorem C18_media_witness :
    (exampleWorkerOnline.recording).Transform exampleEnvWithImage
        (.arweave (exampleTask "tx" [contentTag "RDE"])) ([], []) =
      (.ok (exampleActivityWithImage "tx" "D1"),
        ([{ TransactionID := "tx", OriginContentDigest := "" }],
         [Call.Fetch "/ipfs/QmImage",
          Call.SaveDatasetMirrorPost { TransactionID := "tx", OriginContentDigest := "" }])) ∧
    ∃ action calls, (exampleActivityWithImage "tx" "D1").Actions = [action] ∧
      [Call.Fetch "/ipfs/QmImage",
        Call.SaveDatasetMirrorPost { TransactionID := "tx", OriginContentDigest := "" }] =
        [] ++ calls ∧
      (exampleEnvWithImage.gjsonString
          (decodedData exampleEnvWithImage (exampleTask "tx" [contentTag "RDE"]))
          "wnft.imageURI" = "" →
        action.Metadata.Media = [] ∧ ∀ path, Call.Fetch path ∉ calls) ∧
      (exampleEnvWithImage.gjsonString
          (decodedData exampleEnvWithImage (exampleTask "tx" [contentTag "RDE"]))
          "wnft.imageURI" ≠ "" →
        Call.Fetch ("/ipfs/" ++ exampleEnvWithImage.gjsonString
          (decodedData exampleEnvWithImage (exampleTask "tx" [contentTag "RDE"]))
          "wnft.imageURI") ∈ calls ∧
        ∃ file mime,
          (exampleWorkerOnline.ipfsClient.Fetch
            ("/ipfs/" ++ exampleEnvWithImage.gjsonString
              (decodedData exampleEnvWithImage (exampleTask "tx" [contentTag "RDE"]))
              "wnft.imageURI") []).1 = .ok file ∧
          exampleEnvWithImage.DetectReader file = .ok (some mime) ∧
          action.Metadata.Media =
            [{ Address := "ipfs://" ++ exampleEnvWithImage.gjsonString
                (decodedData exampleEnvWithImage (exampleTask "tx" [contentTag "RDE"]))
                "wnft.imageURI"
               MimeType := mime }]) :=
  ⟨rfl, C18_media exampleEnvWithImage exampleWorkerOnline
    (exampleTask "tx" [contentTag "RDE"]) [] _ [] _ _ rfl⟩

/-! ## The end of `Run` (C14) -/

/-- While the loop waits, all it has received are batches. -/
theorem loop_waiting_batches {σ : Type} (pool : Pool) (srv : Server σ) :
    ∀ (received : List Received) (s s1 : σ), srv.loop pool received s = (none, s1) →
      ∀ x ∈ received, ∃ batch, x = Received.tasks batch := by
  intro received
  induction received with
  | nil => intro s s1 _ x hx; cases hx
  | cons r rest ih =>
    intro s s1 h x hx
    cases r with
    | err e =>
      cases e <;> simp [Server.loop] at h
    | tasks batch =>
      rcases List.mem_cons.mp hx with hx | hx
      · exact ⟨batch, hx⟩
      · simp only [Server.loop] at h
        cases hh : srv.handleTasks pool batch s with
        | mk r2 s2 =>
          rw [hh] at h
          cases r2 with
          | error e => simp at h
          | ok u =>
            cases u
            exact ih s2 s1 h x hx

/-- C14: `Run` ends according to the first value it receives on the error channel.  If `Run`
still waits after the values `before` (which then are all batches), and the next value is
received on the error channel, then `Run` returns nil when that value is nil, and when it is
an error `e` it returns an error that wraps `e`, never nil; what is received afterwards
plays no part. -/
theorem C14_error_channel_ends_run {σ : Type} (pool : Pool) (srv : Server σ)
    (before after : List Received) (s0 s : σ) (v : Option Error)
    (hrun : srv.Run pool before s0 = (none, s)) :
    (∀ x ∈ before, ∃ batch, x = Received.tasks batch) ∧
    (v = none →
      srv.Run pool (before ++ Received.err v :: after) s0 = (some (.ok ()), s)) ∧
    (∀ e, v = some e →
      srv.Run pool (before ++ Received.err v :: after) s0 =
        (some (.error (.wrap "an error occurred in the source" e)), s) ∧
      (Error.wrap "an error occurred in the source" e).Wraps e = true ∧
      (srv.Run pool (before ++ Received.err v :: after) s0).1 ≠ some (.ok ())) := by
  unfold Server.Run at hrun ⊢
  refine ⟨loop_waiting_batches pool srv before _ _ hrun, ?_, ?_⟩
  · intro hv
    subst hv
    rw [loop_append, hrun]
    simp [Server.loop]
  · intro e hv
    subst hv
    rw [loop_append, hrun]
    refine ⟨by simp [Server.loop], Error.wraps_wrap _ _ _ (Error.wraps_self e), ?_⟩
    simp [Server.loop]

/-- C14 (witness): after one committed batch the source delivers an error; a batch and a nil
that follow are not looked at. -/
theorem C14_error_channel_ends_run_witness :
    (exampleServer noFaults).Run examplePool [Received.tasks [.other "a"]] exampleWorld =
      (none, worldAfterFirstBatch) ∧
    ((∀ x ∈ [Received.tasks [.other "a"]], ∃ batch, x = Received.tasks batch) ∧
    ((some (Error.base "rpc is down") : Option Error) = none →
      (exampleServer noFaults).Run examplePool
        ([Received.tasks [.other "a"]] ++ Received.err (some (.base "rpc is down")) ::
          [Received.tasks [.other "b"], Received.err none]) exampleWorld =
        (some (.ok ()), worldAfterFirstBatch)) ∧
    (∀ e, (some (Error.base "rpc is down") : Option Error) = some e →
      (exampleServer noFaults).Run examplePool
        ([Received.tasks [.other "a"]] ++ Received.err (some (.base "rpc is down")) ::
          [Received.tasks [.other "b"], Received.err none]) exampleWorld =
        (some (.error (.wrap "an error occurred in the source" e)), worldAfterFirstBatch) ∧
      (Error.wrap "an error occurred in the source" e).Wraps e = true ∧
      ((exampleServer noFaults).Run examplePool
        ([Received.tasks [.other "a"]] ++ Received.err (some (.base "rpc is down")) ::
          [Received.tasks [.other "b"], Received.err none]) exampleWorld).1 ≠
        some (.ok ()))) :=
  ⟨rfl, C14_error_channel_ends_run examplePool (exampleServer noFaults)
    [Received.tasks [.other "a"]] [Received.tasks [.other "b"], Received.err none]
    exampleWorld worldAfterFirstBatch (some (.base "rpc is down")) rfl⟩

/-! ## The goroutine limit (C16) -/

/-- C16: for a batch of `n ≥ 1` tasks and `c ≥ 1` CPUs the goroutine limit given to the pool
is `min(n, 20·c)`; it is at least 1 and at most `n`. -/
theorem C16_goroutine_limit (n c : Nat) (hn : 1 ≤ n) (hc : 1 ≤ c) :
    maxGoroutines n c = min n (20 * c) ∧ 1 ≤ maxGoroutines n c ∧ maxGoroutines n c ≤ n := by
  unfold maxGoroutines
  by_cases h : n < 20 * c
  · simp only [h, if_true]
    refine ⟨?_, hn, le_refl n⟩
    omega
  · simp only [h, if_false]
    refine ⟨?_, ?_, ?_⟩ <;> omega

/-- C16 (witness): a batch of 500 tasks on 8 CPUs is limited to 160 goroutines. -/
theorem C16_goroutine_limit_witness :
    (1 ≤ 500 ∧ 1 ≤ 8) ∧
    (maxGoroutines 500 8 = min 500 (20 * 8) ∧ 1 ≤ maxGoroutines 500 8 ∧
      maxGoroutines 500 8 ≤ 500) :=
  ⟨⟨by decide, by decide⟩, C16_goroutine_limit 500 8 (by decide) (by decide)⟩

/-! ## `NewServer` and the checkpoint (C15, C19) -/

/-- What a successful `NewServer` went through, and the server it returns. -/
theorem NewServer_ok {σ : Type} (make : Constructors σ) (config : engine.Config)
    (databaseClient : database.Database σ) (s s1 : σ) (srv : Server σ)
    (h : NewServer make config databaseClient s = (.ok srv, s1)) :
    ∃ worker checkpoint source,
      make.workerNew config databaseClient = .ok worker ∧
      databaseClient.LoadCheckpoint (config.Network ++ "." ++ config.Worker) config.Network
        worker.Name s = (.ok checkpoint, s1) ∧
      make.jsonUnmarshalMap checkpoint.State = .ok () ∧
      make.sourceNew config checkpoint = .ok source ∧
      srv = {
        id := config.Network ++ "." ++ config.Worker
        source := source
        worker := worker
        databaseClient := databaseClient } := by
  unfold NewServer at h
  cases hw : make.workerNew config databaseClient with
  | error e => simp [hw] at h
  | ok worker =>
    simp only [hw] at h
    cases hl : databaseClient.LoadCheckpoint (config.Network ++ "." ++ config.Worker)
      config.Network worker.Name s with
    | mk r s2 =>
      rw [hl] at h
      cases r with
      | error e => simp at h
      | ok checkpoint =>
        simp only at h
        cases hj : make.jsonUnmarshalMap checkpoint.State with
        | error e => simp [hj] at h
        | ok u =>
          cases u
          simp only [hj] at h
          cases hs : make.sourceNew config checkpoint with
          | error e => simp [hs] at h
          | ok source =>
            simp only [hs, Prod.mk.injEq, Except.ok.injEq] at h
            obtain ⟨h1, h2⟩ := h
            subst h2
            exact ⟨worker, checkpoint, source, rfl, hl, hj, hs, h1.symm⟩

/-- On the recording database, with any source and worker: when `SaveFeeds` does not fail,
the last call `handleTasks` makes for a non-empty batch is `SaveCheckpoint` with the
checkpoint built in the state `SaveFeeds` left. -/
theorem handleTasks_saves_checkpoint {ω : Type} (pool : Pool) (srv : Server (World ω))
    (faults : Faults) (hdb : srv.databaseClient = recordingDatabase faults)
    (tasks : List engine.Task) (s : World ω) (hne : tasks ≠ [])
    (c : List schema.Feed × World ω) (hc : srv.collectFeeds pool tasks s = c)
    (hfeeds : faults.SaveFeeds c.1 c.2.feeds = none) :
    (srv.handleTasks pool tasks s).2.events.getLast? =
      some (Event.SaveCheckpoint (srv.checkpoint
        { c.2 with
          feeds := saveFeeds c.1 c.2.feeds
          events := c.2.events ++ [Event.WithTransaction, Event.SaveFeeds c.1] })) ∧
    (faults.SaveCheckpoint (srv.checkpoint
        { c.2 with
          feeds := saveFeeds c.1 c.2.feeds
          events := c.2.events ++ [Event.WithTransaction, Event.SaveFeeds c.1] })
        c.2.checkpoints = none →
      (srv.handleTasks pool tasks s).1 = .ok () ∧
      srv.checkpoint
        { c.2 with
          feeds := saveFeeds c.1 c.2.feeds
          events := c.2.events ++ [Event.WithTransaction, Event.SaveFeeds c.1] } ∈
        (srv.handleTasks pool tasks s).2.checkpoints) := by
  have hlen : ¬ tasks.length = 0 := fun h => hne (List.length_eq_zero.mp h)
  unfold Server.handleTasks
  simp only [hlen, if_false, hc, hdb]
  generalize hcp : srv.checkpoint
    { c.2 with
      feeds := saveFeeds c.1 c.2.feeds
      events := c.2.events ++ [Event.WithTransaction, Event.SaveFeeds c.1] } = cp
  have hcp2 : srv.checkpoint
      { feeds := saveFeeds c.1 c.2.feeds, checkpoints := c.2.checkpoints, side := c.2.side,
        cursor := c.2.cursor,
        events := c.2.events ++ [Event.WithTransaction, Event.SaveFeeds c.1] } = cp := hcp
  cases h2 : faults.SaveCheckpoint cp c.2.checkpoints with
  | some e =>
    constructor
    · simp [recordingDatabase, recordingClient, Server.transaction, hfeeds, hcp2, h2,
        List.getLast?_append]
    · intro hc2
      cases hc2
  | none =>
    constructor
    · simp [recordingDatabase, recordingClient, Server.transaction, hfeeds, hcp2, h2,
        List.getLast?_append]
    · intro _
      simp [recordingDatabase, recordingClient, Server.transaction, hfeeds, hcp2, h2,
        mem_upsertCheckpoint]

/-- C15: for a server returned by `NewServer`, the checkpoint `handleTasks` hands to
`SaveCheckpoint` (its last call for a non-empty batch whose `SaveFeeds` did not fail) has the
id `<network>.<worker>` formatted from `config.Network` and `config.Worker`, the network
`source.Network()`, the worker `worker.Name()`, and as state exactly what `source.State()`
returns in the state the transaction function is in; when `SaveCheckpoint` does not fail
either, this checkpoint is in the database. -/
theorem C15_saved_checkpoint {ω : Type} (make : Constructors (World ω))
    (config : engine.Config) (faults : Faults) (s0 s1 : World ω) (srv : Server (World ω))
    (pool : Pool) (tasks : List engine.Task) (s : World ω)
    (hnew : NewServer make config (recordingDatabase faults) s0 = (.ok srv, s1))
    (hne : tasks ≠ [])
    (hfeeds : faults.SaveFeeds (srv.collectFeeds pool tasks s).1
      (srv.collectFeeds pool tasks s).2.feeds = none) :
    ∃ saved,
      (srv.handleTasks pool tasks s).2.events.getLast? = some (Event.SaveCheckpoint saved) ∧
      saved.ID = config.Network ++ "." ++ config.Worker ∧
      saved.Network = srv.source.Network ∧
      saved.Worker = srv.worker.Name ∧
      saved.State = srv.source.State
        { (srv.collectFeeds pool tasks s).2 with
          feeds := saveFeeds (srv.collectFeeds pool tasks s).1
            (srv.collectFeeds pool tasks s).2.feeds
          events := (srv.collectFeeds pool tasks s).2.events ++
            [Event.WithTransaction, Event.SaveFeeds (srv.collectFeeds pool tasks s).1] } ∧
      (faults.SaveCheckpoint saved (srv.collectFeeds pool tasks s).2.checkpoints = none →
        (srv.handleTasks pool tasks s).1 = .ok () ∧
        saved ∈ (srv.handleTasks pool tasks s).2.checkpoints) := by
  obtain ⟨worker, checkpoint, source, _, _, _, _, hsrv⟩ :=
    NewServer_ok make config (recordingDatabase faults) s0 s1 srv hnew
  have hdb : srv.databaseClient = recordingDatabase faults := by rw [hsrv]
  have hid : srv.id = config.Network ++ "." ++ config.Worker := by rw [hsrv]
  obtain ⟨hlast, hsaved⟩ :=
    handleTasks_saves_checkpoint pool srv faults hdb tasks s hne _ rfl hfeeds
  refine ⟨_, hlast, ?_, rfl, rfl, rfl, hsaved⟩
  simp only [Server.checkpoint]
  exact hid

/-- C15 (witness): the example server built by `NewServer` from the example configuration,
on the example batch. -/
theorem C15_saved_checkpoint_witness :
    (NewServer exampleConstructors exampleConfig (recordingDatabase noFaults) exampleWorld =
        (.ok (exampleServer noFaults), exampleWorld) ∧
      exampleBatch ≠ [] ∧
      noFaults.SaveFeeds
        ((exampleServer noFaults).collectFeeds examplePool exampleBatch exampleWorld).1
        ((exampleServer noFaults).collectFeeds examplePool exampleBatch exampleWorld).2.feeds =
        none) ∧
    ∃ saved,
      ((exampleServer noFaults).handleTasks examplePool exampleBatch
        exampleWorld).2.events.getLast? = some (Event.SaveCheckpoint saved) ∧
      saved.ID = exampleConfig.Network ++ "." ++ exampleConfig.Worker ∧
      saved.Network = (exampleServer noFaults).source.Network ∧
      saved.Worker = (exampleServer noFaults).worker.Name ∧
      saved.State = (exampleServer noFaults).source.State
        { ((exampleServer noFaults).collectFeeds examplePool exampleBatch exampleWorld).2 with
          feeds := saveFeeds
            ((exampleServer noFaults).collectFeeds examplePool exampleBatch exampleWorld).1
            ((exampleServer noFaults).collectFeeds examplePool exampleBatch exampleWorld).2.feeds
          events :=
            ((exampleServer noFaults).collectFeeds examplePool exampleBatch
              exampleWorld).2.events ++
            [Event.WithTransaction, Event.SaveFeeds
              ((exampleServer noFaults).collectFeeds examplePool exampleBatch
                exampleWorld).1] } ∧
      (noFaults.SaveCheckpoint saved
          ((exampleServer noFaults).collectFeeds examplePool exampleBatch
            exampleWorld).2.checkpoints = none →
        ((exampleServer noFaults).handleTasks examplePool exampleBatch exampleWorld).1 =
          .ok () ∧
        saved ∈ ((exampleServer noFaults).handleTasks examplePool exampleBatch
          exampleWorld).2.checkpoints) :=
  ⟨⟨rfl, by decide, rfl⟩,
    C15_saved_checkpoint exampleConstructors exampleConfig noFaults exampleWorld exampleWorld
      (exampleServer noFaults) examplePool exampleBatch exampleWorld rfl (by decide) rfl⟩

/-- C19 (counterexample): the database holds a checkpoint whose state is a JSON array, not a
JSON object; `NewServer` fails on it with the unmarshal error, while with the empty JSON
object in its place it succeeds.  So whether `NewServer` succeeds does depend on the bytes of
the state. -/
theorem C19_counterexample :
    NewServer exampleConstructors exampleConfig (recordingDatabase noFaults)
        (worldWithCheckpoint "[1,2]") =
      (.error (.wrap "unmarshal checkpoint state"
        (.base "json: cannot unmarshal into Go value of type map[string]interface")),
        worldWithCheckpoint "[1,2]") ∧
    NewServer exampleConstructors exampleConfig (recordingDatabase noFaults)
        (worldWithCheckpoint "\x7b\x7d") =
      (.ok (exampleServer noFaults), worldWithCheckpoint "\x7b\x7d") := by
  refine ⟨by rfl, by rfl⟩

/-- C19 (amended): `NewServer` unmarshals the state of the loaded checkpoint into a key/value
map, for log rendering, and fails with an error that wraps the unmarshal error whenever
`json.Unmarshal` rejects the state for such a map.  When the state unmarshals, the checkpoint
goes to `source.New` as loaded, and `NewServer` succeeds exactly when `source.New` does.  So,
once the worker is built and the checkpoint is loaded, `NewServer` succeeds if and only if the
state unmarshals and `source.New` succeeds. -/
theorem C19_state_must_unmarshal {σ : Type} (make : Constructors σ) (config : engine.Config)
    (databaseClient : database.Database σ) (s s1 : σ) (worker : engine.Worker σ)
    (checkpoint : engine.Checkpoint)
    (hworker : make.workerNew config databaseClient = .ok worker)
    (hload : databaseClient.LoadCheckpoint (config.Network ++ "." ++ config.Worker)
      config.Network worker.Name s = (.ok checkpoint, s1)) :
    (∀ e, make.jsonUnmarshalMap checkpoint.State = .error e →
      NewServer make config databaseClient s =
        (.error (.wrap "unmarshal checkpoint state" e), s1) ∧
      (Error.wrap "unmarshal checkpoint state" e).Wraps e = true) ∧
    (make.jsonUnmarshalMap checkpoint.State = .ok () →
      (∀ source, make.sourceNew config checkpoint = .ok source →
        NewServer make config databaseClient s =
          (.ok {
            id := config.Network ++ "." ++ config.Worker
            source := source
            worker := worker
            databaseClient := databaseClient }, s1)) ∧
      (∀ e, make.sourceNew config checkpoint = .error e →
        NewServer make config databaseClient s = (.error (.wrap "new source" e), s1))) ∧
    ((∃ server, (NewServer make config databaseClient s).1 = .ok server) ↔
      (make.jsonUnmarshalMap checkpoint.State = .ok () ∧
        ∃ source, make.sourceNew config checkpoint = .ok source)) := by
  refine ⟨?_, ?_, ?_⟩
  · intro e he
    refine ⟨?_, Error.wraps_wrap _ _ _ (Error.wraps_self e)⟩
    unfold NewServer
    simp only [hworker, hload, he]
  · intro hok
    refine ⟨?_, ?_⟩
    · intro source hs
      unfold NewServer
      simp only [hworker, hload, hok, hs]
    · intro e hs
      unfold NewServer
      simp only [hworker, hload, hok, hs]
  · unfold NewServer
    simp only [hworker, hload]
    cases hj : make.jsonUnmarshalMap checkpoint.State with
    | error e => simp
    | ok u =>
      cases hs : make.sourceNew config checkpoint with
      | error e => simp
      | ok source => simp

/-- C19 (witness): the stored checkpoint of the counterexample. -/
theorem C19_state_must_unmarshal_witness :
    (exampleConstructors.workerNew exampleConfig (recordingDatabase noFaults) =
        .ok (recordingWorker exampleEngineWorker) ∧
      (recordingDatabase noFaults).LoadCheckpoint
          (exampleConfig.Network ++ "." ++ exampleConfig.Worker) exampleConfig.Network
          (recordingWorker exampleEngineWorker).Name (worldWithCheckpoint "[1,2]") =
        (.ok { ID := "arweave.mirror", Network := "arweave", Worker := "mirror",
               State := "[1,2]" }, worldWithCheckpoint "[1,2]")) ∧
    ((∀ e, exampleConstructors.jsonUnmarshalMap
        ({ ID := "arweave.mirror", Network := "arweave", Worker := "mirror",
           State := "[1,2]" } : engine.Checkpoint).State = .error e →
      NewServer exampleConstructors exampleConfig (recordingDatabase noFaults)
          (worldWithCheckpoint "[1,2]") =
        (.error (.wrap "unmarshal checkpoint state" e), worldWithCheckpoint "[1,2]") ∧
      (Error.wrap "unmarshal checkpoint state" e).Wraps e = true) ∧
    (exampleConstructors.jsonUnmarshalMap
        ({ ID := "arweave.mirror", Network := "arweave", Worker := "mirror",
           State := "[1,2]" } : engine.Checkpoint).State = .ok () →
      (∀ source, exampleConstructors.sourceNew exampleConfig
          { ID := "arweave.mirror", Network := "arweave", Worker := "mirror",
            State := "[1,2]" } = .ok source →
        NewServer exampleConstructors exampleConfig (recordingDatabase noFaults)
            (worldWithCheckpoint "[1,2]") =
          (.ok {
            id := exampleConfig.Network ++ "." ++ exampleConfig.Worker
            source := source
            worker := recordingWorker exampleEngineWorker
            databaseClient := recordingDatabase noFaults }, worldWithCheckpoint "[1,2]")) ∧
      (∀ e, exampleConstructors.sourceNew exampleConfig
          { ID := "arweave.mirror", Network := "arweave", Worker := "mirror",
            State := "[1,2]" } = .error e →
        NewServer exampleConstructors exampleConfig (recordingDatabase noFaults)
            (worldWithCheckpoint "[1,2]") =
          (.error (.wrap "new source" e), worldWithCheckpoint "[1,2]"))) ∧
    ((∃ server, (NewServer exampleConstructors exampleConfig (recordingDatabase noFaults)
        (worldWithCheckpoint "[1,2]")).1 = .ok server) ↔
      (exampleConstructors.jsonUnmarshalMap
          ({ ID := "arweave.mirror", Network := "arweave", Worker := "mirror",
             State := "[1,2]" } : engine.Checkpoint).State = .ok () ∧
        ∃ source, exampleConstructors.sourceNew exampleConfig
          { ID := "arweave.mirror", Network := "arweave", Worker := "mirror",
            State := "[1,2]" } = .ok source))) :=
  ⟨⟨rfl, rfl⟩,
    C19_state_must_unmarshal exampleConstructors exampleConfig (recordingDatabase noFaults)
      (worldWithCheckpoint "[1,2]") (worldWithCheckpoint "[1,2]")
      (recordingWorker exampleEngineWorker)
      { ID := "arweave.mirror", Network := "arweave", Worker := "mirror", State := "[1,2]" }
      rfl rfl⟩

/-! ## Worker names (C20) -/

/-- C20: worker names round-trip.  For every value `w` listed in `WorkerValues()`,
`WorkerString(w.String())` returns `w` and no error, and for each pair of encodings decoding
what encoding `w` produced sets the receiver to `w` without error: `UnmarshalJSON` after
`MarshalJSON` (given that `encoding/json` reads back the names it writes), `UnmarshalYAML`
after `MarshalYAML`, and `Scan` after `Value` (the value arriving as a string or as
bytes). -/
theorem C20_names_round_trip (lib : Library) (w : federated.Worker)
    (hw : w ∈ federated.WorkerValues)
    (hjson : ∀ name ∈ federated.WorkerStrings,
      lib.jsonUnmarshal (lib.jsonMarshal name) = .ok name) :
    federated.WorkerString lib w.String = (w, none) ∧
    ((federated.Worker.MarshalJSON lib w).2 = none ∧
      ∀ i, federated.Worker.UnmarshalJSON lib i (federated.Worker.MarshalJSON lib w).1 =
        (w, none)) ∧
    ((federated.Worker.MarshalYAML w).2 = none ∧
      ∀ i, federated.Worker.UnmarshalYAML lib i (.ok (federated.Worker.MarshalYAML w).1) =
        (w, none)) ∧
    ((federated.Worker.Value w).2 = none ∧
      (∀ i, federated.Worker.Scan lib i (.string (federated.Worker.Value w).1) = (w, none)) ∧
      (∀ i, federated.Worker.Scan lib i (.bytes (federated.Worker.Value w).1) = (w, none))) := by
  have hm : w = federated.Mastodon := by
    simpa [federated.WorkerValues, federated._WorkerValues] using hw
  subst hm
  have hname : federated.Mastodon.String = "mastodon" := by decide
  have hin : "mastodon" ∈ federated.WorkerStrings := by decide
  have hws : federated.WorkerString lib "mastodon" = (federated.Mastodon, none) := by rfl
  refine ⟨by rw [hname, hws], ⟨rfl, ?_⟩, ⟨rfl, ?_⟩, ⟨rfl, ?_, ?_⟩⟩
  · intro i
    simp only [federated.Worker.UnmarshalJSON, federated.Worker.MarshalJSON, hname,
      hjson _ hin, hws]
  · intro i
    simp only [federated.Worker.UnmarshalYAML, federated.Worker.MarshalYAML, hname, hws]
  · intro i
    simp only [federated.Worker.Scan, federated.Worker.Value, hname, hws]
  · intro i
    simp only [federated.Worker.Scan, federated.Worker.Value, hname, hws]

/-- C20 (witness): the value `Mastodon` with the example library. -/
theorem C20_names_round_trip_witness :
    (federated.Mastodon ∈ federated.WorkerValues ∧
      ∀ name ∈ federated.WorkerStrings,
        exampleLibrary.jsonUnmarshal (exampleLibrary.jsonMarshal name) = .ok name) ∧
    (federated.WorkerString exampleLibrary federated.Mastodon.String =
        (federated.Mastodon, none) ∧
    ((federated.Worker.MarshalJSON exampleLibrary federated.Mastodon).2 = none ∧
      ∀ i, federated.Worker.UnmarshalJSON exampleLibrary i
        (federated.Worker.MarshalJSON exampleLibrary federated.Mastodon).1 =
        (federated.Mastodon, none)) ∧
    ((federated.Worker.MarshalYAML federated.Mastodon).2 = none ∧
      ∀ i, federated.Worker.UnmarshalYAML exampleLibrary i
        (.ok (federated.Worker.MarshalYAML federated.Mastodon).1) =
        (federated.Mastodon, none)) ∧
    ((federated.Worker.Value federated.Mastodon).2 = none ∧
      (∀ i, federated.Worker.Scan exampleLibrary i
        (.string (federated.Worker.Value federated.Mastodon).1) =
        (federated.Mastodon, none)) ∧
      (∀ i, federated.Worker.Scan exampleLibrary i
        (.bytes (federated.Worker.Value federated.Mastodon).1) =
        (federated.Mastodon, none)))) :=
  ⟨⟨by decide, fun name hname => by
      have hnames : federated.WorkerStrings = ["mastodon"] := by decide
      rw [hnames] at hname
      rw [List.mem_singleton.mp hname]
      rfl⟩,
    C20_names_round_trip exampleLibrary federated.Mastodon (by decide) (fun name hname => by
      have hnames : federated.WorkerStrings = ["mastodon"] := by decide
      rw [hnames] at hname
      rw [List.mem_singleton.mp hname]
      rfl)⟩

/-! ## Parsing worker names (C21, C27, C28) -/

/-- The two lookups of `WorkerString` find a name exactly when it is `mastodon`, and then
they find `Mastodon`. -/
theorem lookup_WorkerNameToValueMap (s : String) :
    (s = "mastodon" → federated._WorkerNameToValueMap.lookup s = some federated.Mastodon) ∧
    (s ≠ "mastodon" → federated._WorkerNameToValueMap.lookup s = none) := by
  have hkey : sliceString federated._WorkerName 0 8 = "mastodon" := by decide
  have hkey2 : sliceString federated._WorkerLowerName 0 8 = "mastodon" := by decide
  unfold federated._WorkerNameToValueMap
  rw [hkey, hkey2]
  constructor
  · intro h
    subst h
    rfl
  · intro h
    have hb : (s == "mastodon") = false := by simpa using h
    simp [List.lookup, hb]

/-- What `WorkerString` returns: `Mastodon` without error when the string or its lower-case
form is `mastodon`, and the zero value with an error otherwise. -/
theorem WorkerString_cases (lib : Library) (s : String) :
    ((s = "mastodon" ∨ lib.ToLower s = "mastodon") →
      federated.WorkerString lib s = (federated.Mastodon, none)) ∧
    ((s ≠ "mastodon" ∧ lib.ToLower s ≠ "mastodon") →
      federated.WorkerString lib s =
        ({ val := 0 }, some (.base (s ++ " does not belong to Worker values")))) := by
  unfold federated.WorkerString
  constructor
  · intro h
    by_cases hs : s = "mastodon"
    · rw [(lookup_WorkerNameToValueMap s).1 hs]
    · rw [(lookup_WorkerNameToValueMap s).2 hs]
      rcases h with h | h
      · exact absurd h hs
      · simp only
        rw [(lookup_WorkerNameToValueMap _).1 h]
  · intro h
    rw [(lookup_WorkerNameToValueMap s).2 h.1]
    simp only
    rw [(lookup_WorkerNameToValueMap _).2 h.2]

/-- C21 (counterexample): the string `MASTODON` is not one of the names `WorkerStrings()`
returns, yet `WorkerString` accepts it: the second lookup, under the lower-case form, finds
`Mastodon`. -/
theorem C21_counterexample :
    "MASTODON" ∉ federated.WorkerStrings ∧
    exampleLibrary.ToLower "MASTODON" = "mastodon" ∧
    federated.WorkerString exampleLibrary "MASTODON" = (federated.Mastodon, none) := by
  refine ⟨by decide, by decide, by rfl⟩

/-- C21 (amended): for every string `s` such that neither `s` nor its lower-case form
`strings.ToLower(s)` is one of the names `WorkerStrings()` returns, `WorkerString(s)`
returns the zero `Worker` value together with an error. -/
theorem C21_unknown_name_is_error (lib : Library) (s : String)
    (hs : s ∉ federated.WorkerStrings) (hlower : lib.ToLower s ∉ federated.WorkerStrings) :
    federated.WorkerString lib s =
      ({ val := 0 }, some (.base (s ++ " does not belong to Worker values"))) ∧
    (federated.WorkerString lib s).2 ≠ none := by
  have hnames : federated.WorkerStrings = ["mastodon"] := by decide
  rw [hnames] at hs hlower
  have h1 : s ≠ "mastodon" := fun h => hs (by simp [h])
  have h2 : lib.ToLower s ≠ "mastodon" := fun h => hlower (by simp [h])
  have := (WorkerString_cases lib s).2 ⟨h1, h2⟩
  rw [this]
  exact ⟨rfl, by simp⟩

/-- C21 (witness): the name `paragraph` is unknown to this enum. -/
theorem C21_unknown_name_is_error_witness :
    ("paragraph" ∉ federated.WorkerStrings ∧
      exampleLibrary.ToLower "paragraph" ∉ federated.WorkerStrings) ∧
    (federated.WorkerString exampleLibrary "paragraph" =
      ({ val := 0 }, some (.base ("paragraph" ++ " does not belong to Worker values"))) ∧
    (federated.WorkerString exampleLibrary "paragraph").2 ≠ none) :=
  ⟨⟨by decide, by decide⟩,
    C21_unknown_name_is_error exampleLibrary "paragraph" (by decide) (by decide)⟩

/-- C27: `WorkerString` is case-insensitive.  Given that `strings.ToLower` leaves the
lower-case name `mastodon` as it is, for every string `s` the call `WorkerString(s)` succeeds
if and only if the lower-case form of `s` is `mastodon`, and then it returns `Mastodon`. -/
theorem C27_case_insensitive (lib : Library) (s : String)
    (hlower : lib.ToLower "mastodon" = "mastodon") :
    ((federated.WorkerString lib s).2 = none ↔ lib.ToLower s = "mastodon") ∧
    (lib.ToLower s = "mastodon" →
      federated.WorkerString lib s = (federated.Mastodon, none)) := by
  constructor
  · constructor
    · intro h
      by_cases hs : s = "mastodon"
      · rw [hs]
        exact hlower
      · by_cases hl : lib.ToLower s = "mastodon"
        · exact hl
        · rw [(WorkerString_cases lib s).2 ⟨hs, hl⟩] at h
          simp at h
    · intro h
      rw [(WorkerString_cases lib s).1 (Or.inr h)]
  · intro h
    exact (WorkerString_cases lib s).1 (Or.inr h)

/-- C27 (witness): a name in mixed case. -/
theorem C27_case_insensitive_witness :
    exampleLibrary.ToLower "mastodon" = "mastodon" ∧
    (((federated.WorkerString exampleLibrary "MaStOdOn").2 = none ↔
        exampleLibrary.ToLower "MaStOdOn" = "mastodon") ∧
    (exampleLibrary.ToLower "MaStOdOn" = "mastodon" →
      federated.WorkerString exampleLibrary "MaStOdOn" = (federated.Mastodon, none))) :=
  ⟨by decide, C27_case_insensitive exampleLibrary "MaStOdOn" (by decide)⟩

/-- C28: `Scan` is atomic on the receiver.  `Scan(nil)` returns nil and leaves the receiver as
it is; whenever `Scan` returns an error (a value of an unsupported type, or an unknown name)
the receiver is as it was; and whenever `Scan` returns nil for a value other than nil, so in
particular whenever it changes the receiver, the receiver is `Mastodon`, which satisfies
`IsAWorker`. -/
theorem C28_scan_atomic (lib : Library) (i : federated.Worker) (value : ScanValue) :
    federated.Worker.Scan lib i ScanValue.null = (i, none) ∧
    (∀ err, (federated.Worker.Scan lib i value).2 = some err →
      (federated.Worker.Scan lib i value).1 = i) ∧
    ((federated.Worker.Scan lib i value).2 = none → value ≠ ScanValue.null →
      (federated.Worker.Scan lib i value).1.IsAWorker = true) ∧
    ((federated.Worker.Scan lib i value).1 ≠ i →
      (federated.Worker.Scan lib i value).2 = none ∧
      (federated.Worker.Scan lib i value).1.IsAWorker = true) := by
  have hstr : ∀ v : String,
      (federated.WorkerString lib v = (federated.Mastodon, none)) ∨
      (federated.WorkerString lib v =
        ({ val := 0 }, some (.base (v ++ " does not belong to Worker values")))) := by
    intro v
    by_cases h : v = "mastodon" ∨ lib.ToLower v = "mastodon"
    · exact Or.inl ((WorkerString_cases lib v).1 h)
    · have h2 : v ≠ "mastodon" ∧ lib.ToLower v ≠ "mastodon" :=
        ⟨fun hc => h (Or.inl hc), fun hc => h (Or.inr hc)⟩
      exact Or.inr ((WorkerString_cases lib v).2 h2)
  have hm : federated.Mastodon.IsAWorker = true := by decide
  refine ⟨rfl, ?_⟩
  cases value with
  | null =>
    refine ⟨fun _ _ => rfl, fun _ h => absurd rfl h, fun h => absurd rfl h⟩
  | other typeName rendering =>
    refine ⟨fun _ _ => rfl, fun h => ?_, fun h => absurd rfl h⟩
    cases h
  | bytes v =>
    rcases hstr v with h | h
    · have hs : federated.Worker.Scan lib i (ScanValue.bytes v) = (federated.Mastodon, none) := by
        simp only [federated.Worker.Scan, h]
      rw [hs]
      exact ⟨fun _ he => (by cases he), fun _ _ => hm, fun _ => ⟨rfl, hm⟩⟩
    · have hs : federated.Worker.Scan lib i (ScanValue.bytes v) =
          (i, some (.base (v ++ " does not belong to Worker values"))) := by
        simp only [federated.Worker.Scan, h]
      rw [hs]
      exact ⟨fun _ _ => rfl, fun he => (by cases he), fun hne => absurd rfl hne⟩
  | string v =>
    rcases hstr v with h | h
    · have hs : federated.Worker.Scan lib i (ScanValue.string v) = (federated.Mastodon, none) := by
        simp only [federated.Worker.Scan, h]
      rw [hs]
      exact ⟨fun _ he => (by cases he), fun _ _ => hm, fun _ => ⟨rfl, hm⟩⟩
    · have hs : federated.Worker.Scan lib i (ScanValue.string v) =
          (i, some (.base (v ++ " does not belong to Worker values"))) := by
        simp only [federated.Worker.Scan, h]
      rw [hs]
      exact ⟨fun _ _ => rfl, fun he => (by cases he), fun hne => absurd rfl hne⟩
  | stringer v =>
    rcases hstr v with h | h
    · have hs : federated.Worker.Scan lib i (ScanValue.stringer v) = (federated.Mastodon, none) := by
        simp only [federated.Worker.Scan, h]
      rw [hs]
      exact ⟨fun _ he => (by cases he), fun _ _ => hm, fun _ => ⟨rfl, hm⟩⟩
    · have hs : federated.Worker.Scan lib i (ScanValue.stringer v) =
          (i, some (.base (v ++ " does not belong to Worker values"))) := by
        simp only [federated.Worker.Scan, h]
      rw [hs]
      exact ⟨fun _ _ => rfl, fun he => (by cases he), fun hne => absurd rfl hne⟩

/-! ## The empty batch (C24) -/

/-- C24: `handleTasks` on an empty batch returns nil and leaves the state of the world as it
is, for every server.  On the recording server this says that the log gains no event (no
`Match`, `Transform`, `WithTransaction`, `SaveFeeds` or `SaveCheckpoint` call is made) and
that the stored feeds and checkpoints are unchanged. -/
theorem C24_empty_batch {σ : Type} (pool : Pool) (srv : Server σ) (s : σ) :
    srv.handleTasks pool [] s = (.ok (), s) ∧
    ∀ (ω : Type) (id network : String) (w : engine.Worker ω) (faults : Faults) (x : World ω),
      ((recordingServer id network w faults).handleTasks pool [] x).1 = .ok () ∧
      ((recordingServer id network w faults).handleTasks pool [] x).2.events = x.events ∧
      ((recordingServer id network w faults).handleTasks pool [] x).2.feeds = x.feeds ∧
      ((recordingServer id network w faults).handleTasks pool [] x).2.checkpoints =
        x.checkpoints := by
  have key : ∀ (τ : Type) (srv : Server τ) (s : τ), srv.handleTasks pool [] s = (.ok (), s) := by
    intro τ srv s
    simp [Server.handleTasks]
  refine ⟨key σ srv s, ?_⟩
  intro ω id network w faults x
  rw [key]
  exact ⟨rfl, rfl, rfl, rfl⟩

/-! ## Several tags of one name (C26) -/

theorem lastTagValue_none (env : Env) (name : String) :
    ∀ tags : List arweave.Tag, (∀ u ∈ tags, tagNamed env name u = false) →
      lastTagValue env name tags = none := by
  intro tags
  induction tags with
  | nil => intro _; rfl
  | cons t rest ih =>
    intro h
    have hr := ih (fun u hu => h u (List.mem_cons_of_mem _ hu))
    have ht := h t (List.mem_cons_self _ _)
    simp [lastTagValue, hr, ht]

/-- The value `lastTagValue` returns is that of the last tag of the name: of the tag `t` after
which no tag of the name comes. -/
theorem lastTagValue_last (env : Env) (name : String) (t : arweave.Tag) (post : List arweave.Tag)
    (v : String) (ht : tagNamed env name t = true)
    (hpost : ∀ u ∈ post, tagNamed env name u = false)
    (hv : env.Base64Decode t.Value = .ok v) :
    ∀ pre : List arweave.Tag, lastTagValue env name (pre ++ t :: post) = some v := by
  intro pre
  induction pre with
  | nil =>
    simp [lastTagValue, lastTagValue_none env name post hpost, ht, hv]
  | cons x pre ih =>
    show lastTagValue env name (x :: (pre ++ t :: post)) = some v
    unfold lastTagValue
    rw [ih]

/-- C26: on a task on which `Transform` succeeds, the variables of the tag loop hold, for
`Content-Digest` and for `Original-Content-Digest`, the decoded value of the last tag of that
name in tag order (the tag after which no tag of the name comes), while the empty-origin flag
is sticky: if any `Original-Content-Digest` tag has an empty decoded value the flag is raised
and the activity and its actions have the type `SocialRevise`, whatever comes later. -/
theorem C26_last_occurrence_sticky_flag {σ : Type} (env : Env) (w : worker σ)
    (task : source.Task) (s s' : σ) (activity : activityx.Activity)
    (h : w.Transform env (.arweave task) s = (.ok activity, s')) :
    ∃ scan, scanTags env task.Transaction.Tags TagScan.init = .ok scan ∧
      (∀ pre t post v, task.Transaction.Tags = pre ++ t :: post →
        tagNamed env "Content-Digest" t = true →
        (∀ u ∈ post, tagNamed env "Content-Digest" u = false) →
        env.Base64Decode t.Value = .ok v → scan.contentDigest = v) ∧
      (∀ pre t post v, task.Transaction.Tags = pre ++ t :: post →
        tagNamed env "Original-Content-Digest" t = true →
        (∀ u ∈ post, tagNamed env "Original-Content-Digest" u = false) →
        env.Base64Decode t.Value = .ok v → scan.originContentDigest = v) ∧
      ((∃ t ∈ task.Transaction.Tags,
          tagNamed env "Original-Content-Digest" t = true ∧ tagValued env "" t = true) →
        scan.emptyOriginDigest = true ∧ activity.Typ = typex.SocialRevise ∧
        ∀ action ∈ activity.Actions, action.Typ = typex.SocialRevise) := by
  obtain ⟨seed, action0, hseed, ht, hact⟩ := Transform_ok env w task s s' activity h
  obtain ⟨scan, data, media, s1, action1, s2, hscan, hdata, hm, hb, hsv, hone⟩ :=
    transformMirrorAction_ok env w task s s' [action0] ht
  obtain ⟨hc, ho, he⟩ := scanTags_init env task scan hscan
  refine ⟨scan, hscan, ?_, ?_, ?_⟩
  · intro pre t post v htags hnamed hpost hv
    rw [hc, tagValue, htags, lastTagValue_last env _ t post v hnamed hpost hv pre]
    rfl
  · intro pre t post v htags hnamed hpost hv
    rw [ho, tagValue, htags, lastTagValue_last env _ t post v hnamed hpost hv pre]
    rfl
  · rintro ⟨t, htmem, hnamed, hvalued⟩
    have hcar : carries env task "Original-Content-Digest" "" = true := by
      unfold carries
      rw [List.any_eq_true]
      exact ⟨t, htmem, by simp [hnamed, hvalued]⟩
    obtain ⟨action, md, s3, hacts, htyp, hb2, _, _⟩ :=
      Transform_decision env w task s s' activity h
    obtain ⟨_, _, _, _, _, hem, hfull⟩ := buildMirrorAction_ok _ _ _ _ _ _ _ _ _ _ _ hb2
    have hrev : action.Typ = typex.SocialRevise := by
      by_cases hd : tagValue env task "Original-Content-Digest" = ""
      · rw [(hem hd).2, hcar]
        rfl
      · obtain ⟨post, _, hpost⟩ := hfull hd
        rw [hpost, hcar]
        cases post with
        | none => rfl
        | some p => by_cases hp : task.Transaction.ID = p.TransactionID <;> simp [hp]
    refine ⟨he.trans hcar, htyp.trans hrev, ?_⟩
    intro a ha
    rw [hacts] at ha
    rw [List.mem_singleton.mp ha]
    exact hrev

/-- C26 (witness): the tags `Content-Digest = D1`, `Original-Content-Digest` empty,
`Content-Digest = D2`, `Original-Content-Digest = D1`, in this order, on an empty side-table. -/
theorem C26_last_occurrence_sticky_flag_witness :
    exampleWorker.Transform exampleEnv
        (.arweave (exampleTask "tx1"
          [contentTag "RDE", originTag "", contentTag "RDI", originTag "RDE"])) [] =
      (.ok (exampleActivity "tx1" typex.SocialRevise "D1"),
        [{ TransactionID := "tx1", OriginContentDigest := "D1" }]) ∧
    ∃ scan, scanTags exampleEnv (exampleTask "tx1"
          [contentTag "RDE", originTag "", contentTag "RDI", originTag "RDE"]).Transaction.Tags
          TagScan.init = .ok scan ∧
      (∀ pre t post v, (exampleTask "tx1"
          [contentTag "RDE", originTag "", contentTag "RDI", originTag "RDE"]).Transaction.Tags =
          pre ++ t :: post →
        tagNamed exampleEnv "Content-Digest" t = true →
        (∀ u ∈ post, tagNamed exampleEnv "Content-Digest" u = false) →
        exampleEnv.Base64Decode t.Value = .ok v → scan.contentDigest = v) ∧
      (∀ pre t post v, (exampleTask "tx1"
          [contentTag "RDE", originTag "", contentTag "RDI", originTag "RDE"]).Transaction.Tags =
          pre ++ t :: post →
        tagNamed exampleEnv "Original-Content-Digest" t = true →
        (∀ u ∈ post, tagNamed exampleEnv "Original-Content-Digest" u = false) →
        exampleEnv.Base64Decode t.Value = .ok v → scan.originContentDigest = v) ∧
      ((∃ t ∈ (exampleTask "tx1"
          [contentTag "RDE", originTag "", contentTag "RDI", originTag "RDE"]).Transaction.Tags,
          tagNamed exampleEnv "Original-Content-Digest" t = true ∧
            tagValued exampleEnv "" t = true) →
        scan.emptyOriginDigest = true ∧
        (exampleActivity "tx1" typex.SocialRevise "D1").Typ = typex.SocialRevise ∧
        ∀ action ∈ (exampleActivity "tx1" typex.SocialRevise "D1").Actions,
          action.Typ = typex.SocialRevise) :=
  ⟨rfl, C26_last_occurrence_sticky_flag exampleEnv exampleWorker
    (exampleTask "tx1" [contentTag "RDE", originTag "", contentTag "RDI", originTag "RDE"])
    [] _ _ rfl⟩

/-! ## Failures before the save (C25) -/

/-- The log after `buildMirrorAction` of the recording worker. -/
theorem recording_buildMirrorAction_log {σ : Type} (env : Env) (w : worker σ)
    (txID sender recipient : String) (md : metadata.SocialPost) (empty : Bool) (ocd : String)
    (s : σ) (log : List Call) :
    ((w.recording).buildMirrorAction env txID sender recipient md empty ocd (s, log)).2.2 =
      log ++ (if ocd ≠ "" then [Call.LoadDatasetMirrorPost ocd] else []) := by
  unfold worker.buildMirrorAction
  by_cases hd : ocd = ""
  · simp [hd]
  · simp only [ne_eq, hd, not_false_eq_true, if_true, worker.recording]
    cases hl : (w.databaseClient.LoadDatasetMirrorPost ocd s).1 with
    | error e => rfl
    | ok post => rfl

theorem no_save_in_fetch (address : String) (post : model.DatasetMirrorPost) :
    Call.SaveDatasetMirrorPost post ∉
      (if address ≠ "" then [Call.Fetch ("/ipfs/" ++ address)] else []) := by
  by_cases h : address = "" <;> simp [h]

theorem no_save_in_load (ocd : String) (post : model.DatasetMirrorPost) :
    Call.SaveDatasetMirrorPost post ∉
      (if ocd ≠ "" then [Call.LoadDatasetMirrorPost ocd] else []) := by
  by_cases h : ocd = "" <;> simp [h]

/-- The calls of `transformMirrorAction` of the recording worker when it fails: no save is
among them, unless the save is the last call and the one that failed. -/
theorem recording_transformMirrorAction_failure {σ : Type} (env : Env) (w : worker σ)
    (task : source.Task) (s : σ) (log : List Call) :
    (∃ actions, ((w.recording).transformMirrorAction env task (s, log)).1 = .ok actions) ∨
    ∃ calls, ((w.recording).transformMirrorAction env task (s, log)).2.2 = log ++ calls ∧
      ((∀ post, Call.SaveDatasetMirrorPost post ∉ calls) ∨
       ∃ pre post cause st, calls = pre ++ [Call.SaveDatasetMirrorPost post] ∧
         (∀ p, Call.SaveDatasetMirrorPost p ∉ pre) ∧
         (w.databaseClient.SaveDatasetMirrorPost post st).1 = .error cause ∧
         ((w.recording).transformMirrorAction env task (s, log)).1 =
           .error (.wrap "save dataset mirror post" cause)) := by
  unfold worker.transformMirrorAction
  cases hscan : scanTags env task.Transaction.Tags TagScan.init with
  | error e => exact Or.inr ⟨[], by simp, Or.inl (by simp)⟩
  | ok scan =>
    cases hdata : env.Base64Decode task.Transaction.Data with
    | error e => exact Or.inr ⟨[], by simp, Or.inl (by simp)⟩
    | ok data =>
      simp only
      have hfl := recording_fetchMedia_log env w (env.gjsonString data "wnft.imageURI") s log
      cases hm : (w.recording).fetchMedia env (env.gjsonString data "wnft.imageURI") (s, log) with
      | mk rm st1 =>
        obtain ⟨s1, log1⟩ := st1
        rw [hm] at hfl
        simp only at hfl
        cases rm with
        | error e =>
          exact Or.inr ⟨_, hfl, Or.inl (fun post => no_save_in_fetch _ post)⟩
        | ok media =>
          simp only
          generalize hmd : ({
            Title := env.gjsonString data "content.title"
            Body := env.gjsonString data "content.body"
            ContentURI := "ar://" ++ task.Transaction.ID
            PublicationID := publicationID scan.contentDigest scan.originContentDigest
              (env.gjsonString data "digest")
            Media := media
            Timestamp := env.gjsonUint data "content.timestamp" } : metadata.SocialPost) = md
          have hbl := recording_buildMirrorAction_log env w task.Transaction.ID
            (env.gjsonString data "authorship.contributor") env.AddressMirror md
            scan.emptyOriginDigest scan.originContentDigest s1 log1
          have hnone : ∀ post, Call.SaveDatasetMirrorPost post ∉
              (if env.gjsonString data "wnft.imageURI" ≠ "" then
                [Call.Fetch ("/ipfs/" ++ env.gjsonString data "wnft.imageURI")] else []) ++
              (if scan.originContentDigest ≠ "" then
                [Call.LoadDatasetMirrorPost scan.originContentDigest] else []) := by
            intro post hmem
            rcases List.mem_append.mp hmem with hmem | hmem
            · exact no_save_in_fetch _ post hmem
            · exact no_save_in_load _ post hmem
          cases hb : (w.recording).buildMirrorAction env task.Transaction.ID
            (env.gjsonString data "authorship.contributor") env.AddressMirror md
            scan.emptyOriginDigest scan.originContentDigest (s1, log1) with
          | mk ra st2 =>
            obtain ⟨s2, log2⟩ := st2
            rw [hb] at hbl
            simp only at hbl
            have hlog2 : log2 = log ++
                ((if env.gjsonString data "wnft.imageURI" ≠ "" then
                  [Call.Fetch ("/ipfs/" ++ env.gjsonString data "wnft.imageURI")] else []) ++
                (if scan.originContentDigest ≠ "" then
                  [Call.LoadDatasetMirrorPost scan.originContentDigest] else [])) := by
              rw [hbl, hfl, List.append_assoc]
            cases ra with
            | error e => exact Or.inr ⟨_, hlog2, Or.inl hnone⟩
            | ok action =>
              simp only [worker.recording]
              cases hsv : (w.databaseClient.SaveDatasetMirrorPost
                { TransactionID := task.Transaction.ID
                  OriginContentDigest := scan.originContentDigest } s2).1 with
              | error cause =>
                refine Or.inr ⟨_ ++ [Call.SaveDatasetMirrorPost
                  { TransactionID := task.Transaction.ID
                    OriginContentDigest := scan.originContentDigest }], ?_,
                  Or.inr ⟨_, _, cause, s2, rfl, hnone, hsv, rfl⟩⟩
                show log2 ++ _ = _
                rw [hlog2, List.append_assoc]
              | ok u => exact Or.inl ⟨[action], rfl⟩

/-- On the side-table, a failing `transformMirrorAction` leaves the table as it is. -/
theorem sideTable_transformMirrorAction_failure (env : Env) (faults : MirrorFaults)
    (fetch : String → Except Error String) (task : source.Task) (table : SideTable) :
    (∃ actions,
      ((sideTableWorker faults fetch).transformMirrorAction env task table).1 = .ok actions) ∨
    ((sideTableWorker faults fetch).transformMirrorAction env task table).2 = table := by
  unfold worker.transformMirrorAction
  cases hscan : scanTags env task.Transaction.Tags TagScan.init with
  | error e => exact Or.inr rfl
  | ok scan =>
    cases hdata : env.Base64Decode task.Transaction.Data with
    | error e => exact Or.inr rfl
    | ok data =>
      simp only
      have hfm := sideTable_fetchMedia_state env faults fetch
        (env.gjsonString data "wnft.imageURI") table
      cases hm : (sideTableWorker faults fetch).fetchMedia env
        (env.gjsonString data "wnft.imageURI") table with
      | mk rm s1 =>
        rw [hm] at hfm
        simp only at hfm
        subst hfm
        cases rm with
        | error e => exact Or.inr rfl
        | ok media =>
          simp only
          generalize hmd : ({
            Title := env.gjsonString data "content.title"
            Body := env.gjsonString data "content.body"
            ContentURI := "ar://" ++ task.Transaction.ID
            PublicationID := publicationID scan.contentDigest scan.originContentDigest
              (env.gjsonString data "digest")
            Media := media
            Timestamp := env.gjsonUint data "content.timestamp" } : metadata.SocialPost) = md
          have hbs := sideTable_buildMirrorAction_state env faults fetch task.Transaction.ID
            (env.gjsonString data "authorship.contributor") env.AddressMirror md
            scan.emptyOriginDigest scan.originContentDigest s1
          cases hb : (sideTableWorker faults fetch).buildMirrorAction env task.Transaction.ID
            (env.gjsonString data "authorship.contributor") env.AddressMirror md
            scan.emptyOriginDigest scan.originContentDigest s1 with
          | mk ra s2 =>
            rw [hb] at hbs
            simp only at hbs
            subst hbs
            cases ra with
            | error e => exact Or.inr rfl
            | ok action =>
              simp only
              rcases sideTable_save_state faults fetch
                { TransactionID := task.Transaction.ID
                  OriginContentDigest := scan.originContentDigest } s2 with hsv | hsv
              · cases hsr : (sideTableWorker faults fetch).databaseClient.SaveDatasetMirrorPost
                  { TransactionID := task.Transaction.ID
                    OriginContentDigest := scan.originContentDigest } s2 with
                | mk rs s3 =>
                  rw [hsr] at hsv
                  simp only at hsv
                  subst hsv
                  cases rs with
                  | error e => exact Or.inr rfl
                  | ok u => exact Or.inl ⟨[action], rfl⟩
              · rw [hsv]
                exact Or.inl ⟨[action], rfl⟩

/-- A failing `Transform` either made no call, or failed in `transformMirrorAction`. -/
theorem Transform_error {σ : Type} (env : Env) (w : worker σ) (t : engine.Task) (s s' : σ)
    (err : Error) (h : w.Transform env t s = (.error err, s')) :
    s' = s ∨ ∃ task e, t = .arweave task ∧
      w.transformMirrorAction env task s = (.error e, s') ∧
      err = .wrap "handle arweave mirror transaction" e := by
  cases t with
  | other id =>
    simp only [worker.Transform, Prod.mk.injEq] at h
    exact Or.inl h.2.symm
  | arweave task =>
    unfold worker.Transform at h
    simp only at h
    cases hseed : task.BuildActivity env (some (w.Platform env)) with
    | error e =>
      simp only [hseed, Prod.mk.injEq] at h
      exact Or.inl h.2.symm
    | ok seed =>
      simp only [hseed] at h
      cases ht : w.transformMirrorAction env task s with
      | mk rt s1 =>
        rw [ht] at h
        cases rt with
        | error e =>
          simp only [Prod.mk.injEq, Except.error.injEq] at h
          exact Or.inr ⟨task, e, rfl, by rw [← h.2]; exact ht, h.1.symm⟩
        | ok actions => cases actions <;> simp at h

/-- One tag whose name or value does not decode makes the tag loop fail. -/
theorem scanTags_undecodable (env : Env) :
    ∀ (tags : List arweave.Tag) (acc : TagScan),
      (∃ u ∈ tags, (∃ e, env.Base64Decode u.Name = .error e) ∨
        (∃ e, env.Base64Decode u.Value = .error e)) →
      ∃ e, scanTags env tags acc = .error e := by
  intro tags
  induction tags with
  | nil =>
    rintro acc ⟨u, hu, _⟩
    cases hu
  | cons t rest ih =>
    rintro acc ⟨u, hu, hbad⟩
    unfold scanTags
    cases hn : env.Base64Decode t.Name with
    | error e => exact ⟨_, rfl⟩
    | ok tagName =>
      cases hv : env.Base64Decode t.Value with
      | error e => exact ⟨_, rfl⟩
      | ok tagValue =>
        have hrest : ∃ u ∈ rest, (∃ e, env.Base64Decode u.Name = .error e) ∨
            (∃ e, env.Base64Decode u.Value = .error e) := by
          rcases List.mem_cons.mp hu with hut | hur
          · subst hut
            rcases hbad with ⟨e, he⟩ | ⟨e, he⟩
            · rw [hn] at he
              cases he
            · rw [hv] at he
              cases he
          · exact ⟨u, hur, hbad⟩
        simp only
        split_ifs
        · exact ih _ hrest
        · exact ih _ hrest
        · exact ih _ hrest
        · exact ih _ hrest

/-- One tag whose name or value does not decode makes `Transform` fail before any call. -/
theorem Transform_undecodable {σ : Type} (env : Env) (w : worker σ) (task : source.Task)
    (s : σ)
    (hbad : ∃ u ∈ task.Transaction.Tags, (∃ e, env.Base64Decode u.Name = .error e) ∨
        (∃ e, env.Base64Decode u.Value = .error e)) :
    ∃ err, w.Transform env (.arweave task) s = (.error err, s) := by
  obtain ⟨e, he⟩ := scanTags_undecodable env _ TagScan.init hbad
  have ht : w.transformMirrorAction env task s = (.error e, s) := by
    unfold worker.transformMirrorAction
    rw [he]
  unfold worker.Transform
  simp only
  cases hseed : task.BuildActivity env (some (w.Platform env)) with
  | error e0 => exact ⟨_, rfl⟩
  | ok seed =>
    simp only
    rw [ht]
    exact ⟨_, rfl⟩

/-- C25: whenever `Transform` of the Mirror worker returns an error, `SaveDatasetMirrorPost`
is not among the calls it made, unless that call is the last one and is itself what failed
(the error is then `handle arweave mirror transaction: save dataset mirror post: cause`).  On
the side-table a failing `Transform` leaves the table as it is.  In particular a single tag
whose name or value does not decode, whatever its name, makes `Transform` fail, and this before
any call. -/
theorem C25_failure_before_save {σ : Type} (env : Env) (w : worker σ) (t : engine.Task)
    (s : σ) (log : List Call) :
    (∀ err s' log', (w.recording).Transform env t (s, log) = (.error err, (s', log')) →
      ∃ calls, log' = log ++ calls ∧
        ((∀ post, Call.SaveDatasetMirrorPost post ∉ calls) ∨
         ∃ pre post cause st, calls = pre ++ [Call.SaveDatasetMirrorPost post] ∧
           (∀ p, Call.SaveDatasetMirrorPost p ∉ pre) ∧
           (w.databaseClient.SaveDatasetMirrorPost post st).1 = .error cause ∧
           err = .wrap "handle arweave mirror transaction"
             (.wrap "save dataset mirror post" cause))) ∧
    (∀ faults fetch table err table',
      (sideTableWorker faults fetch).Transform env t table = (.error err, table') →
      table' = table) ∧
    (∀ task, t = .arweave task →
      (∃ u ∈ task.Transaction.Tags, (∃ e, env.Base64Decode u.Name = .error e) ∨
        (∃ e, env.Base64Decode u.Value = .error e)) →
      (∃ err, w.Transform env t s = (.error err, s)) ∧
      (∃ err, (w.recording).Transform env t (s, log) = (.error err, (s, log)))) := by
  refine ⟨?_, ?_, ?_⟩
  · intro err s' log' h
    rcases Transform_error env (w.recording) t (s, log) (s', log') err h with hs | hs
    · refine ⟨[], ?_, Or.inl (by simp)⟩
      have := congrArg Prod.snd hs
      simpa using this
    · obtain ⟨task, e, _, ht, herr⟩ := hs
      rcases recording_transformMirrorAction_failure env w task s log with
        ⟨actions, hok⟩ | ⟨calls, hlog, hc⟩
      · rw [ht] at hok
        cases hok
      · rw [ht] at hlog hc
        refine ⟨calls, hlog, ?_⟩
        rcases hc with hc | ⟨pre, post, cause, st, hcalls, hpre, hsave, hres⟩
        · exact Or.inl hc
        · refine Or.inr ⟨pre, post, cause, st, hcalls, hpre, hsave, ?_⟩
          have he : e = .wrap "save dataset mirror post" cause := by
            simpa using hres
          rw [herr, he]
  · intro faults fetch table err table' h
    rcases Transform_error env (sideTableWorker faults fetch) t table table' err h with hs | hs
    · exact hs
    · obtain ⟨task, e, _, ht, _⟩ := hs
      rcases sideTable_transformMirrorAction_failure env faults fetch task table with
        ⟨actions, hok⟩ | hst
      · rw [ht] at hok
        cases hok
      · rw [ht] at hst
        exact hst
  · intro task ht hbad
    subst ht
    exact ⟨Transform_undecodable env w task s hbad,
      Transform_undecodable env (w.recording) task (s, log) hbad⟩

/-- C25 (witness): in `exampleEnvWithImage` the gateway of `exampleWorker` fails, after the one
call `Fetch`; and a tag named `%%%`, which does not decode, makes `Transform` fail with no
call at all. -/
theorem C25_failure_before_save_witness :
    ((exampleWorker.recording).Transform exampleEnvWithImage
        (.arweave (exampleTask "tx" [contentTag "RDE"])) ([], []) =
      (.error (.wrap "handle arweave mirror transaction"
        (.wrap "fetch ipfs" (.base "ipfs unavailable"))), ([], [Call.Fetch "/ipfs/QmImage"])) ∧
      ∃ calls, [Call.Fetch "/ipfs/QmImage"] = [] ++ calls ∧
        ((∀ post, Call.SaveDatasetMirrorPost post ∉ calls) ∨
         ∃ pre post cause st, calls = pre ++ [Call.SaveDatasetMirrorPost post] ∧
           (∀ p, Call.SaveDatasetMirrorPost p ∉ pre) ∧
           (exampleWorker.databaseClient.SaveDatasetMirrorPost post st).1 = .error cause ∧
           Error.wrap "handle arweave mirror transaction"
               (.wrap "fetch ipfs" (.base "ipfs unavailable")) =
             .wrap "handle arweave mirror transaction"
               (.wrap "save dataset mirror post" cause))) ∧
    (exampleWorker.Transform exampleEnvWithImage
        (.arweave (exampleTask "tx" [contentTag "RDE"]))
        [{ TransactionID := "tx0", OriginContentDigest := "D1" }] =
      (.error (.wrap "handle arweave mirror transaction"
        (.wrap "fetch ipfs" (.base "ipfs unavailable"))),
        [{ TransactionID := "tx0", OriginContentDigest := "D1" }])) ∧
    ((∃ u ∈ (exampleTask "tx1" [contentTag "RDE", { Name := "%%%", Value := "RDE" }]
          ).Transaction.Tags,
        (∃ e, exampleEnv.Base64Decode u.Name = .error e) ∨
          (∃ e, exampleEnv.Base64Decode u.Value = .error e)) ∧
      (∃ err, exampleWorker.Transform exampleEnv
          (.arweave (exampleTask "tx1" [contentTag "RDE", { Name := "%%%", Value := "RDE" }]))
          [] = (.error err, [])) ∧
      (∃ err, (exampleWorker.recording).Transform exampleEnv
          (.arweave (exampleTask "tx1" [contentTag "RDE", { Name := "%%%", Value := "RDE" }]))
          ([], []) = (.error err, ([], [])))) :=
  ⟨⟨rfl, (C25_failure_before_save exampleEnvWithImage exampleWorker
      (.arweave (exampleTask "tx" [contentTag "RDE"])) [] []).1 _ _ _ rfl⟩,
    rfl,
    ⟨⟨{ Name := "%%%", Value := "RDE" }, by decide, Or.inl ⟨_, rfl⟩⟩,
      (C25_failure_before_save exampleEnv exampleWorker
        (.arweave (exampleTask "tx1" [contentTag "RDE", { Name := "%%%", Value := "RDE" }]))
        [] []).2.2 _ rfl
        ⟨{ Name := "%%%", Value := "RDE" }, by decide, Or.inl ⟨_, rfl⟩⟩⟩⟩

/-! ## The Paragraph worker on the tasks of its test (C22, C23) -/

/-- C22: on the two tasks of `TestWorker_Arweave`, whatever their `Owner` and `Data`, `Match`
as the spec describes it (a tag named `App-Name` with the value `Paragraph`) returns `false`,
although the test requires `Match` to return `true` on both: the tags of the tasks decode to
the names `AppName`, `Content-Type`, `Contributor`, `PostId`, `Category`, `PostSlug`,
`PublicationId` and `PublicationSlug`, none of which is `App-Name`; the tag they carry with
the value `Paragraph` is named `AppName`. -/
theorem C22_match_on_test_tasks (ownerPost dataPost ownerRevise dataRevise : String) :
    (paragraph.testcases ownerPost dataPost ownerRevise dataRevise).map
        (fun tc => (tc.name, paragraph.Match paragraphEnv tc.task)) =
      [("Paragraph Post", false), ("Paragraph Revise", false)] ∧
    (paragraph.testcases ownerPost dataPost ownerRevise dataRevise).map
        (fun tc => decodedTagNames paragraphEnv tc.task) =
      [[some "AppName", some "Content-Type", some "Contributor", some "PostId",
        some "Category", some "PostSlug", some "PublicationId", some "PublicationSlug"],
       [some "AppName", some "Content-Type", some "Contributor", some "PostId",
        some "Category", some "PostSlug", some "PublicationId", some "PublicationSlug"]] ∧
    (paragraph.testcases ownerPost dataPost ownerRevise dataRevise).map
        (fun tc => carries paragraphEnv tc.task "AppName" "Paragraph") = [true, true] := by
  refine ⟨by rfl, by rfl, by rfl⟩

/-- C23: on the two tasks of `TestWorker_Arweave`, whatever their `Owner` and `Data`, the type
selection as the spec describes it gives `SocialPost` for both, since neither task carries an
`Original-Content-Digest` tag; the test wants `SocialPost` for `Paragraph Post` and
`SocialRevise` for `Paragraph Revise`.  (Each entry is the name of the case, the type the rule
gives, and the type the test wants.) -/
theorem C23_type_on_test_tasks (ownerPost dataPost ownerRevise dataRevise : String) :
    (paragraph.testcases ownerPost dataPost ownerRevise dataRevise).map
        (fun tc => (tc.name, paragraph.Type paragraphEnv tc.task, tc.wantType)) =
      [("Paragraph Post", typex.SocialPost, typex.SocialPost),
       ("Paragraph Revise", typex.SocialPost, typex.SocialRevise)] ∧
    (paragraph.testcases ownerPost dataPost ownerRevise dataRevise).map
        (fun tc => tc.task.Transaction.Tags.any
          (fun t => tagNamed paragraphEnv "Original-Content-Digest" t)) = [false, false] := by
  refine ⟨by rfl, by rfl⟩

end Node
